import Mathlib

/-!
# DiscordExplore.js: the multiplayer synchronisation core

A shallow embedding of `src/js/plugins/DiscordExplore.js`.  The plugin keeps its
state in free-standing variables of one closure; here they are the fields of
`World`, together with the engine globals the plugin touches (`$gameMap`,
`$gamePlayer`, the spriteset of the scene) and a record of its outward effects
(socket events sent, requests issued, messages logged).  Every function of the
plugin is a function on `World`.

Conventions of the model:

* Payload fields are dynamically typed in the source, so they are `JsVal`s.
  Numbers are integers (tile coordinates, tile ids, directions) plus `NaN`;
  fractions and infinities are outside the model.
* A JavaScript exception is the `error` case of `Except JsError`; the state
  reached before the exception is not kept.
* The registry `otherPlayers` is a table of its own properties in insertion
  order; names inherited from `Object.prototype` are outside the model.
* The host engine is not part of the sources.  Its setters are modelled from
  their documented meaning, and the one-tile step `moveStraight` is a parameter
  (`Engine`), so that every result holds for every outcome of the step.
-/

namespace DiscordExplore

/-! ## JavaScript values -/

/-- The JavaScript values a payload field or a module variable can hold. -/
inductive JsVal where
  | undefined
  | null
  | bool (b : Bool)
  | num (n : Int)
  | nan
  | str (s : String)
  deriving DecidableEq, Repr, Inhabited

/-- The JavaScript exceptions the plugin can raise. -/
inductive JsError where
  | typeError
  | referenceError
  deriving DecidableEq, Repr, Inhabited

namespace JsVal

/-- Loose comparison with null: `v == null`. -/
def isNullish : JsVal → Bool
  | undefined => true
  | null => true
  | _ => false

/-- Truthiness, as `if (v)` and `v && ...` test it. -/
def truthy : JsVal → Bool
  | undefined => false
  | null => false
  | bool b => b
  | num n => n != 0
  | nan => false
  | str s => s != ""

/-- Nullish coalescing: `a ?? b`. -/
def orElse (a b : JsVal) : JsVal :=
  if a.isNullish then b else a

/-- Logical or on values: `a || b`. -/
def orTruthy (a b : JsVal) : JsVal :=
  if a.truthy then a else b

/-- The conversion `String(v)`. -/
def toStr : JsVal → String
  | undefined => "undefined"
  | null => "null"
  | bool true => "true"
  | bool false => "false"
  | num n => toString n
  | nan => "NaN"
  | str s => s

/-- The value of a run of decimal digits, most significant first; `none` when a
character is not a digit. -/
def digitsValue : List Char → Nat → Option Nat
  | [], acc => some acc
  | c :: rest, acc =>
    if c.isDigit then digitsValue rest (acc * 10 + (c.toNat - 48)) else none

/-- A signed decimal integer, read from its characters. -/
def readInteger : List Char → Option Int
  | [] => none
  | '-' :: [] => none
  | '+' :: [] => none
  | '-' :: rest => (digitsValue rest 0).map (fun n => - (n : Int))
  | '+' :: rest => (digitsValue rest 0).map (fun n => (n : Int))
  | cs => (digitsValue cs 0).map (fun n => (n : Int))

/-- The characters of a string without leading and trailing white space. -/
def trimmed (s : String) : List Char :=
  ((s.toList.dropWhile Char.isWhitespace).reverse.dropWhile Char.isWhitespace).reverse

/-- The conversion `Number(v)`.  A string is read as a decimal integer (blank is 0);
any other spelling reads as `NaN`. -/
def toNumber : JsVal → JsVal
  | undefined => nan
  | null => num 0
  | bool true => num 1
  | bool false => num 0
  | num n => num n
  | nan => nan
  | str s =>
    match trimmed s with
    | [] => num 0
    | cs =>
      match readInteger cs with
      | some n => num n
      | none => nan

/-- Strict equality `a === b`: same type and same value, and `NaN` equals nothing. -/
def strictEq : JsVal → JsVal → Bool
  | undefined, undefined => true
  | null, null => true
  | bool a, bool b => a == b
  | num a, num b => a == b
  | str a, str b => a == b
  | _, _ => false

/-- The test `Number.isFinite(v)`. -/
def isFiniteNumber : JsVal → Bool
  | num _ => true
  | _ => false

/-- The test `Number.isInteger(v)`. -/
def isInteger : JsVal → Bool
  | num _ => true
  | _ => false

end JsVal

/-! ## Tables: JavaScript objects and arrays used as dictionaries -/

/-- A finite table in insertion order.  With string keys it stands for a plain
JavaScript object used as a map (own properties only). -/
abbrev Table (κ α : Type) := List (κ × α)

namespace Table

variable {κ α : Type} [DecidableEq κ]

/-- Property read `obj[k]`; `none` is `undefined`. -/
def get : Table κ α → κ → Option α
  | [], _ => none
  | (k', v) :: rest, k => if k' = k then some v else get rest k

/-- Property write `obj[k] = v`: replaces the value in place, or adds the key last. -/
def set : Table κ α → κ → α → Table κ α
  | [], k, v => [(k, v)]
  | (k', v') :: rest, k, v => if k' = k then (k, v) :: rest else (k', v') :: set rest k v

/-- Property removal `delete obj[k]`. -/
def del : Table κ α → κ → Table κ α
  | [], _ => []
  | (k', v') :: rest, k => if k' = k then del rest k else (k', v') :: del rest k

/-- The own keys of the object: `Object.keys(obj)`. -/
def keys (d : Table κ α) : List κ :=
  d.map Prod.fst

end Table

/-! ## Engine objects the plugin reads and writes -/

/-- A remote participant's character: the `Game_Character` that
`$gameMap.createNormalEventAt` returns, with the fields the plugin reads or sets. -/
structure Character where
  eventId : Nat
  characterName : String
  characterIndex : JsVal
  x : JsVal
  y : JsVal
  direction : JsVal
  moveSpeed : JsVal
  moveFrequency : JsVal
  priorityType : Nat
  stepAnime : Bool
  isBusy : Bool
  commandList : List String
  headDisplay : Nat
  deriving DecidableEq, Repr

namespace Character

/-- Modelled from the spec: `Game_Character.setPosition` belongs to the host engine and
is not under src/; it forces the stored position to exactly the given position. -/
def setPosition (c : Character) (x y : JsVal) : Character :=
  { c with x := x, y := y }

/-- Modelled from the spec: the engine's `locate` moves the character to the position. -/
def locate (c : Character) (x y : JsVal) : Character :=
  c.setPosition x y

/-- Modelled from the spec: the engine's `setDirection` sets the facing. -/
def setDirection (c : Character) (d : JsVal) : Character :=
  { c with direction := d }

/-- Modelled from the spec: the engine's `setMoveSpeed` stores the move speed. -/
def setMoveSpeed (c : Character) (v : JsVal) : Character :=
  { c with moveSpeed := v }

/-- Modelled from the spec: the engine's `setMoveFrequency` stores the move frequency. -/
def setMoveFrequency (c : Character) (v : JsVal) : Character :=
  { c with moveFrequency := v }

/-- Modelled from the spec: the engine's `setImage` changes the visual only. -/
def setImage (c : Character) (name : String) (index : JsVal) : Character :=
  { c with characterName := name, characterIndex := index }

end Character

/-- The part of the host engine that the model takes as a parameter: the one-tile
step `character.moveStraight(direction)`, which may succeed, be blocked, or land
anywhere. -/
structure Engine where
  moveStraight : Character → JsVal → Character

/-- One registry entry: `{ character, sprite, skin_id }`.  A sprite is named by a
number; `none` is `null`. -/
structure Entry where
  character : Character
  sprite : Option Nat
  skin_id : Option String
  deriving DecidableEq, Repr

/-- A cell of the tile grid: `(x, y, z)` as the caller passed them. -/
abbrev Coord := JsVal × JsVal × JsVal

/-- A slot of the map's event table `$gameMap._events`. -/
structure MapEvent where
  erased : Bool
  deriving DecidableEq, Repr

/-- The engine's `$gameMap`: its event table (an array with holes, `none` reads as
`undefined`), its size and its tile grid. -/
structure GameMap where
  events : List (Option MapEvent)
  width : Int
  height : Int
  tiles : Table Coord JsVal
  deriving DecidableEq, Repr

namespace GameMap

/-- The read `$gameMap._events[id]`; `none` is `undefined`. -/
def eventAt (m : GameMap) (id : Nat) : Option MapEvent :=
  m.events[id]?.join

/-- Modelled from the spec: `$gameMap.eraseEvent` belongs to the host engine; it marks
the event of that id erased and keeps its slot. -/
def eraseEvent (m : GameMap) (id : Nat) : GameMap :=
  { m with events := m.events.modify (Option.map fun _ => { erased := true }) id }

/-- Modelled from the spec: `$gameMap.createNormalEventAt` belongs to a tile-editing
plugin that is not under src/; it creates an event at `(x, y)` facing `d`, stores it
in the next slot of the event table and returns it. -/
def createNormalEventAt (m : GameMap) (name : String) (index : JsVal) (x y d : JsVal) :
    GameMap × Character :=
  ({ m with events := m.events ++ [some { erased := false }] },
   { eventId := m.events.length, characterName := name, characterIndex := index,
     x := x, y := y, direction := d, moveSpeed := .num 4, moveFrequency := .num 3,
     priorityType := 1, stepAnime := false, isBusy := false, commandList := [],
     headDisplay := 0 })

/-- The read `$gameMap.tileId(x, y, z)`; `none` when the cell was never written. -/
def tileAt (m : GameMap) (c : Coord) : Option JsVal :=
  Table.get m.tiles c

/-- Modelled from the spec: `$gameMap.setNormalTile` belongs to a tile-editing plugin
that is not under src/; it writes the tile id at that coordinate and layer
unconditionally. -/
def setNormalTile (m : GameMap) (x y z tileId : JsVal) : GameMap :=
  { m with tiles := Table.set m.tiles (x, y, z) tileId }

/-- Modelled from the spec: the engine's `$gameMap.isValid(x, y)`: the coordinate lies
inside the map. -/
def isValid (m : GameMap) (x y : Int) : Bool :=
  decide (0 ≤ x) && decide (x < m.width) && decide (0 ≤ y) && decide (y < m.height)

end GameMap

/-- The engine's `$gamePlayer`, with the fields the plugin reads or sets. -/
structure GamePlayer where
  characterName : String
  characterIndex : JsVal
  reservedTransfer : Option (Nat × Int × Int × Nat × Nat)
  needsMapReload : Bool
  deriving DecidableEq, Repr

/-- The spriteset of the current scene: `SceneManager._scene._spriteset`. -/
structure Spriteset where
  hasTilemap : Bool
  characterSprites : Option (List Nat)
  tilemapChildren : List Nat
  tilemapRefreshes : Nat
  deriving DecidableEq, Repr

/-! ## Protocol payloads -/

/-- A player record: the payload of `user_joined` and `user_moved`, and one element
of `room_state.players`.  A missing field is `undefined`. -/
structure PlayerData where
  user_id : JsVal
  id : JsVal
  x : JsVal
  y : JsVal
  direction : JsVal
  skin_id : JsVal
  moveSpeed : JsVal
  moveFrequency : JsVal
  deriving DecidableEq, Repr

/-- The payload of `room_state`.  `players` is `none` when it is not an array; an
element is `none` when it is null. -/
structure RoomState where
  guild_id : JsVal
  players : Option (List (Option PlayerData))
  deriving DecidableEq, Repr

/-- The payload of `user_left`. -/
structure UserLeft where
  user_id : JsVal
  id : JsVal
  deriving DecidableEq, Repr

/-- The payload of `skin_changed`. -/
structure SkinChanged where
  guild_id : JsVal
  user_id : JsVal
  skin_id : JsVal
  deriving DecidableEq, Repr

/-- The payload of `error`. -/
structure ErrorData where
  message : JsVal
  deriving DecidableEq, Repr

/-- A tile edit: the payload of `map_edited` and one element of a fetched tile list. -/
structure TileEdit where
  guild_id : JsVal
  x : JsVal
  y : JsVal
  z : JsVal
  tile_id : JsVal
  deriving DecidableEq, Repr

/-- The payload of `joined`. -/
structure Joined where
  user_id : JsVal
  deriving DecidableEq, Repr

/-- An outbound socket event, as `socket.emit` was called. -/
inductive OutEvent where
  | join (guild_id : JsVal)
  | leave (guild_id : JsVal)
  | move (guild_id direction x y moveSpeed moveFrequency : JsVal)
  | skin_change (guild_id skin_id : JsVal)
  | edit_map (guild_id x y z tile_id : JsVal)
  deriving DecidableEq, Repr

/-- The Socket.IO client object held in `socket`. -/
structure Socket where
  authToken : JsVal
  connected : Bool
  handlersRegistered : Bool
  sent : List OutEvent
  deriving DecidableEq, Repr

/-- A REST request issued by `fetch`, with the room id that was put in its URL. -/
inductive FetchReq where
  | serverInfo (guild : String)
  | spaceTiles (guild : String)
  deriving DecidableEq, Repr

/-- The JSON body of the tile-list response: `{ error, tiles }`.  `tiles` is `none`
when the field is missing. -/
structure SpaceResponse where
  error : JsVal
  tiles : Option (List TileEdit)
  deriving DecidableEq, Repr

/-! ## The plugin state -/

/-- The variables of the plugin closure, the engine globals it touches, and a record
of its outward effects. -/
structure World where
  sdkReady : Bool
  ioLoaded : Bool
  exploreAuthToken : JsVal
  socket : Option Socket
  currentGuildId : JsVal
  isWorldMap : Bool
  otherPlayers : Table String Entry
  myUserId : JsVal
  pendingSpaceTiles : Option (List TileEdit)
  isEditMode : Bool
  currentTileId : JsVal
  currentZ : JsVal
  gameMap : Option GameMap
  gamePlayer : Option GamePlayer
  spriteset : Option Spriteset
  nextSpriteId : Nat
  alerts : List String
  consoleErrors : List String
  requests : List FetchReq
  activities : List (String × String × String)
  deriving DecidableEq, Repr

/-- The state right after the plugin file is evaluated (lines 30-50), with no engine
object created yet. -/
def World.initial : World :=
  { sdkReady := false, ioLoaded := true, exploreAuthToken := .null, socket := none,
    currentGuildId := .null, isWorldMap := false, otherPlayers := [], myUserId := .null,
    pendingSpaceTiles := none, isEditMode := false, currentTileId := .num 0,
    currentZ := .num 0, gameMap := none, gamePlayer := none, spriteset := none,
    nextSpriteId := 0, alerts := [], consoleErrors := [], requests := [],
    activities := [] }

/-- The map identifier `MAP_WORLD`. -/
def MAP_WORLD : Nat := 1

/-- The map identifier `MAP_SPACE`. -/
def MAP_SPACE : Nat := 2

/-- The call `socket.emit(...)` on an existing socket. -/
def Socket.emit (s : Socket) (e : OutEvent) : Socket :=
  { s with sent := s.sent ++ [e] }

/-! ## Presence, map data and tile lists (lines 160-183 and 308-387) -/

/-- The function `setActivity`: publishes a status when the SDK is ready, else nothing. -/
def setActivity (w : World) (details guildName guildIcon : String) : World :=
  if !w.sdkReady then w
  else { w with activities := w.activities ++ [(details, guildName, guildIcon)] }

/-- The function `fetchMapData`, up to the point where its two requests are issued.
Their continuations are `onServerInfoResponse` and `onSpaceTilesResponse`. -/
def fetchMapData (w : World) : World :=
  if w.isWorldMap then setActivity w "在大廳" "大廳" "lobby"
  else
    { w with requests := w.requests ++
        [FetchReq.serverInfo w.currentGuildId.toStr, FetchReq.spaceTiles w.currentGuildId.toStr] }

/-- The function `applySpaceTiles`. -/
def applySpaceTiles (w : World) : World :=
  match w.pendingSpaceTiles, w.gameMap with
  | some tiles, some m =>
    let m1 := tiles.foldl (fun g t => g.setNormalTile t.x t.y t.z t.tile_id.toNumber) m
    let w1 := { w with gameMap := some m1, pendingSpaceTiles := none }
    match w1.spriteset with
    | some ss =>
      if ss.hasTilemap then
        { w1 with spriteset := some { ss with tilemapRefreshes := ss.tilemapRefreshes + 1 } }
      else w1
    | none => w1
  | _, _ => w

/-- The continuation of the tile-list request in `fetchMapData` (lines 356-366): it runs
when the response arrives, on whatever the state is by then. -/
def onSpaceTilesResponse (w : World) (data : SpaceResponse) : World :=
  if data.error.truthy then { w with consoleErrors := w.consoleErrors ++ [data.error.toStr] }
  else
    let w1 := { w with pendingSpaceTiles := some (data.tiles.getD []) }
    if w1.gameMap.isSome then applySpaceTiles w1 else w1

/-- The continuation of the room-metadata request in `fetchMapData` (lines 340-348). -/
def onServerInfoResponse (w : World) (error name iconUrl : JsVal) : World :=
  if error.truthy then { w with consoleErrors := w.consoleErrors ++ [error.toStr] }
  else
    let guildName := (name.orTruthy (.str "未知伺服器")).toStr
    let guildIcon := (iconUrl.orTruthy (.str "lobby")).toStr
    setActivity w ("在 " ++ guildName ++ " 的空間") guildName guildIcon

/-- The engine calls `reserveTransfer` and `requestMapReload` on `$gamePlayer`, when
it exists. -/
def reserveTransfer (w : World) (mapId : Nat) (x y : Int) (d fade : Nat) : World :=
  match w.gamePlayer with
  | some p =>
    let moved := { p with reservedTransfer := some (mapId, x, y, d, fade), needsMapReload := true }
    { w with gamePlayer := some moved }
  | none => w

/-- The function `decideMapToLoad`. -/
def decideMapToLoad (w : World) : World :=
  let mapId := if w.isWorldMap then MAP_WORLD else MAP_SPACE
  let w1 := if w.isWorldMap then reserveTransfer w mapId 8 6 2 0
            else reserveTransfer w mapId 11 11 8 0
  fetchMapData w1

/-- The test `socket && socket.connected`. -/
def socketConnected (w : World) : Bool :=
  match w.socket with
  | some s => s.connected
  | none => false

/-- The call `socket.emit(e)` guarded by `socket && socket.connected`. -/
def emitIfConnected (w : World) (e : OutEvent) : World :=
  match w.socket with
  | some s => if s.connected then { w with socket := some (s.emit e) } else w
  | none => w

/-- The function `leaveSpace`. -/
def leaveSpace (w : World) : World :=
  let w1 := if w.currentGuildId.truthy then emitIfConnected w (.leave w.currentGuildId) else w
  let w2 := { w1 with currentGuildId := .str "world", isWorldMap := true,
                      pendingSpaceTiles := none }
  let w3 := reserveTransfer w2 MAP_WORLD 8 6 2 0
  let w4 := fetchMapData w3
  emitIfConnected w4 (.join w4.currentGuildId)

/-- The function `connectToSpace`. -/
def connectToSpace (w : World) (guildId : JsVal) : World :=
  if !guildId.truthy then w
  else
    let w1 := if w.currentGuildId.truthy then emitIfConnected w (.leave w.currentGuildId) else w
    let w2 := { w1 with currentGuildId := .str guildId.toStr, isWorldMap := false }
    let w3 := reserveTransfer w2 MAP_SPACE 11 11 8 0
    let w4 := fetchMapData w3
    emitIfConnected w4 (.join w4.currentGuildId)

/-! ## Remote players (lines 389-460 and 527-657) -/

/-- The function `getFallbackCharacterImage`. -/
def getFallbackCharacterImage (w : World) : String × JsVal :=
  let fallbackName :=
    match w.gamePlayer with
    | some p => if p.characterName != "" then p.characterName else "Actor1"
    | none => "Actor1"
  let fallbackIndex :=
    match w.gamePlayer with
    | some p => if p.characterIndex.isInteger then p.characterIndex else .num 0
    | none => .num 0
  (fallbackName, fallbackIndex)

/-- The function `getCharacter`: the skin id is not used yet. -/
def getCharacter (w : World) (_skinId : Option String) : String × JsVal :=
  getFallbackCharacterImage w

/-- The function `attachSpriteForUserId`. -/
def attachSpriteForUserId (w : World) (userId : String) : World :=
  match Table.get w.otherPlayers userId with
  | none => w
  | some entry =>
    if entry.sprite.isSome then w
    else
      match w.spriteset with
      | none => w
      | some ss =>
        if !ss.hasTilemap then w
        else
          let sprite := w.nextSpriteId
          let ss1 := { ss with characterSprites := ss.characterSprites.map (fun l => l ++ [sprite]),
                               tilemapChildren := ss.tilemapChildren ++ [sprite] }
          { w with spriteset := some ss1, nextSpriteId := sprite + 1,
                   otherPlayers := Table.set w.otherPlayers userId { entry with sprite := some sprite } }

/-- The body of the loop of `refreshRemotePlayerSprites`, over the keys read at its start. -/
def refreshLoop : List String → World → World
  | [], w => w
  | uid :: rest, w =>
    match Table.get w.otherPlayers uid with
    | none => refreshLoop rest w
    | some entry =>
      let w1 := { w with otherPlayers := Table.set w.otherPlayers uid { entry with sprite := none } }
      refreshLoop rest (attachSpriteForUserId w1 uid)

/-- The function `refreshRemotePlayerSprites`. -/
def refreshRemotePlayerSprites (w : World) : World :=
  refreshLoop (Table.keys w.otherPlayers) w

/-- The body of the loop of `clearOtherPlayers`, over the keys read at its start. -/
def clearLoop : List String → World → Except JsError World
  | [], w => .ok w
  | uid :: rest, w =>
    match Table.get w.otherPlayers uid with
    | none => clearLoop rest w
    | some entry =>
      match w.gameMap with
      | none => .error .typeError
      | some m =>
        if m.eventAt entry.character.eventId = none then clearLoop rest w
        else
          let w1 := { w with gameMap := some (m.eraseEvent entry.character.eventId),
                             otherPlayers := Table.del w.otherPlayers uid }
          clearLoop rest w1

/-- The function `clearOtherPlayers`. -/
def clearOtherPlayers (w : World) : Except JsError World :=
  clearLoop (Table.keys w.otherPlayers) w

/-- The test `myUserId && userId === String(myUserId)`. -/
def isSelf (w : World) (userId : String) : Bool :=
  w.myUserId.truthy && userId == w.myUserId.toStr

/-- The branch of `spawnPlayer` that creates the entity (lines 541-549), on a map that
exists. -/
def spawnNew (w : World) (m : GameMap) (userId : String) (x y : JsVal)
    (skinId : Option String) : World :=
  let (characterName, characterIndex) := getCharacter w skinId
  let (m1, created) := m.createNormalEventAt characterName characterIndex x y (.num 8)
  let commands := created.commandList ++ ["<Name: " ++ userId ++ ">"]
  let character := { created with commandList := commands, headDisplay := commands.length,
                                  priorityType := 0, stepAnime := false,
                                  moveSpeed := .num 4, isBusy := false }
  let entry : Entry := { character := character, sprite := none, skin_id := skinId }
  let w1 := { w with gameMap := some m1, otherPlayers := Table.set w.otherPlayers userId entry }
  attachSpriteForUserId w1 userId

/-- The branch of `spawnPlayer` that updates the existing entity (lines 551-556). -/
def spawnExisting (w : World) (userId : String) (entry : Entry) (x y direction : JsVal)
    (skinId : Option String) : World :=
  let (characterName, characterIndex) := getCharacter w skinId
  let c1 := entry.character.setImage characterName characterIndex
  let c2 := if x.isFiniteNumber && y.isFiniteNumber then c1.locate x y else c1
  let c3 := if !direction.isNullish && direction.isFiniteNumber then c2.setDirection direction
            else c2
  let updated : Entry := { entry with skin_id := skinId, character := c3 }
  let w1 := { w with otherPlayers := Table.set w.otherPlayers userId updated }
  attachSpriteForUserId w1 userId

/-- The function `spawnPlayer`; `none` is a null record. -/
def spawnPlayer (w : World) (user : Option PlayerData) : Except JsError World :=
  match user with
  | none => .ok w
  | some user =>
    let uid := user.user_id.orElse user.id
    if uid.isNullish then .ok w
    else
      let userId := uid.toStr
      if isSelf w userId then .ok w
      else
        let x := (user.x.orElse (.num 11)).toNumber
        let y := (user.y.orElse (.num 11)).toNumber
        let direction := if !user.direction.isNullish then user.direction.toNumber else .null
        let skinId := if !user.skin_id.isNullish then some user.skin_id.toStr else none
        match Table.get w.otherPlayers userId with
        | none =>
          match w.gameMap with
          | none => .error .typeError
          | some m => .ok (spawnNew w m userId x y skinId)
        | some entry => .ok (spawnExisting w userId entry x y direction skinId)

/-- The tail of `movePlayer` (lines 636-645): the step, then the correction of the
stored position. -/
def stepAndCorrect (eng : Engine) (w : World) (userId : String) (entry : Entry)
    (d : PlayerData) : World :=
  let c1 := entry.character.setMoveSpeed d.moveSpeed
  let c2 := c1.setMoveFrequency d.moveFrequency
  let c3 := eng.moveStraight c2 d.direction
  let c4 := if !(d.x.strictEq c3.x) || !(d.y.strictEq c3.y) then c3.setPosition d.x d.y
            else c3
  let moved : Entry := { entry with character := c4 }
  let w1 := { w with otherPlayers := Table.set w.otherPlayers userId moved }
  attachSpriteForUserId w1 userId

/-- The function `movePlayer`; `none` is a null payload. -/
def movePlayer (eng : Engine) (w : World) (data : Option PlayerData) : Except JsError World :=
  match data with
  | none => .ok w
  | some d =>
    let uid := d.user_id.orElse d.id
    if uid.isNullish then .ok w
    else
      let userId := uid.toStr
      if isSelf w userId then .ok w
      else
        (if (Table.get w.otherPlayers userId).isNone then spawnPlayer w (some d) else .ok w) >>=
        fun w1 =>
          match Table.get w1.otherPlayers userId with
          | none => .ok w1
          | some entry => .ok (stepAndCorrect eng w1 userId entry d)

/-- The function `removePlayer`.  Reading `entry.character` of a missing entry raises a
TypeError, and so does reading `$gameMap._events` of a missing map. -/
def removePlayer (w : World) (userId : String) : Except JsError World :=
  if userId == "" then .ok w
  else
    match w.gameMap, Table.get w.otherPlayers userId with
    | none, _ => .error .typeError
    | some _, none => .error .typeError
    | some m, some entry =>
      if m.eventAt entry.character.eventId = none then .ok w
      else
        .ok { w with gameMap := some (m.eraseEvent entry.character.eventId),
                     otherPlayers := Table.del w.otherPlayers userId }

/-! ## The socket and its handlers (lines 185-264) -/

/-- The function `connectSocket`: it logs and returns when Socket.IO or the token is
missing, and it never raises. -/
def connectSocket (w : World) : Except JsError World :=
  if !w.ioLoaded then .ok { w with consoleErrors := w.consoleErrors ++ ["Socket.IO not loaded"] }
  else if !w.exploreAuthToken.truthy then
    .ok { w with consoleErrors := w.consoleErrors ++ ["Missing exploreAuthToken"] }
  else
    .ok { w with socket := some { authToken := w.exploreAuthToken, connected := false,
                                  handlersRegistered := true, sent := [] } }

/-- The handler of `connect`.  The transport raises it when the socket has become
connected; the handler reads `currentGuildId` when it runs. -/
def onConnect (w : World) : Except JsError World :=
  match w.socket with
  | none => .error .typeError
  | some s => .ok { w with socket := some ({ s with connected := true }.emit (.join w.currentGuildId)) }

/-- The handler of `joined`. -/
def onJoined (w : World) (data : Option Joined) : Except JsError World :=
  match data with
  | none => .error .typeError
  | some d => .ok { w with myUserId := d.user_id }

/-- The loop `for (const p of players) spawnPlayer(p)`. -/
def spawnAll : List (Option PlayerData) → World → Except JsError World
  | [], w => .ok w
  | p :: rest, w => spawnPlayer w p >>= spawnAll rest

/-- The handler of `room_state`. -/
def onRoomState (w : World) (data : Option RoomState) : Except JsError World :=
  match data with
  | none => .ok w
  | some d =>
    if d.guild_id.toStr != w.currentGuildId.toStr then .ok w
    else clearOtherPlayers w >>= spawnAll (d.players.getD [])

/-- The handler of `user_joined`. -/
def onUserJoined (w : World) (data : Option PlayerData) : Except JsError World :=
  spawnPlayer w data

/-- The handler of `user_left`. -/
def onUserLeft (w : World) (data : Option UserLeft) : Except JsError World :=
  match data with
  | none => .ok w
  | some d =>
    let uid := d.user_id.orElse d.id
    if !uid.isNullish then removePlayer w uid.toStr else .ok w

/-- The handler of `user_moved`. -/
def onUserMoved (eng : Engine) (w : World) (data : Option PlayerData) : Except JsError World :=
  movePlayer eng w data

/-- Modelled from the spec: `applySkinToCharacter` is called by the `skin_changed`
handler and defined nowhere under src/; it re-resolves the visual representation of the
character for the skin, as `spawnPlayer` does with `getCharacter` and `setImage`. -/
def applySkinToCharacter (w : World) (c : Character) (skinId : Option String) : Character :=
  let (characterName, characterIndex) := getCharacter w skinId
  c.setImage characterName characterIndex

/-- The handler of `skin_changed`. -/
def onSkinChanged (w : World) (data : Option SkinChanged) : Except JsError World :=
  match data with
  | none => .ok w
  | some d =>
    if d.guild_id.toStr != w.currentGuildId.toStr then .ok w
    else
      let uid := d.user_id.toStr
      if uid == "" || isSelf w uid then .ok w
      else
        match Table.get w.otherPlayers uid with
        | none => .ok w
        | some entry =>
          let skin := if !d.skin_id.isNullish then some d.skin_id.toStr else none
          let c := applySkinToCharacter w entry.character skin
          .ok { w with otherPlayers :=
                  Table.set w.otherPlayers uid { entry with skin_id := skin, character := c } }

/-- The handler of `error`. -/
def onError (w : World) (data : Option ErrorData) : Except JsError World :=
  match data with
  | none => .error .typeError
  | some d =>
    let w1 := { w with consoleErrors := w.consoleErrors ++ ["Socket error"] }
    if d.message.strictEq (.str "Membership required") then
      let w2 := { w1 with alerts := w1.alerts ++ ["You must join this server to enter!"] }
      let w3 := { w2 with currentGuildId := .str "world", isWorldMap := true }
      .ok (decideMapToLoad w3)
    else .ok w1

/-- The handler of `map_edited`. -/
def onMapEdited (w : World) (data : Option TileEdit) : Except JsError World :=
  match w.gameMap with
  | none => .ok w
  | some m =>
    match data with
    | none => .error .typeError
    | some d => .ok { w with gameMap := some (m.setNormalTile d.x d.y d.z d.tile_id.toNumber) }

/-! ## Scene hooks (lines 914-993) -/

/-- The hook `Scene_Map.prototype.onMapLoaded`.  The engine's own part has made the
loaded map and a new spriteset current; they are the parameters. -/
def onMapLoaded (loaded : GameMap) (surface : Option Spriteset) (w : World) : World :=
  let w1 := { w with gameMap := some loaded, spriteset := surface }
  refreshRemotePlayerSprites (applySpaceTiles w1)

/-- The method `Scene_Map.prototype.placeTile`. -/
def placeTile (w : World) (x y : Int) : Except JsError World :=
  match w.gameMap with
  | none => .error .typeError
  | some m =>
    if !m.isValid x y then .ok w
    else
      let m1 := m.setNormalTile (.num x) (.num y) w.currentZ w.currentTileId
      let w1 := { w with gameMap := some m1 }
      match w1.socket with
      | some s =>
        let e := OutEvent.edit_map w1.currentGuildId (.num x) (.num y) w1.currentZ w1.currentTileId
        .ok { w1 with socket := some (s.emit e) }
      | none => .ok w1

/-- The method `Scene_Map.prototype.pickTile`. -/
def pickTile (w : World) (x y : Int) : Except JsError World :=
  match w.gameMap with
  | none => .error .typeError
  | some m =>
    if !m.isValid x y then .ok w
    else .ok { w with currentTileId := (m.tileAt (.num x, .num y, w.currentZ)).getD (.num 0) }

/-- What `TouchInput` reports in one frame, with the map coordinate under the pointer. -/
inductive Touch where
  | idle
  | triggered (x y : Int)
  | cancelled (x y : Int)
  deriving DecidableEq, Repr

/-- The method `Scene_Map.prototype.updateEditorInput`. -/
def updateEditorInput (w : World) (t : Touch) : Except JsError World :=
  match t with
  | .triggered x y => placeTile w x y
  | .cancelled x y => pickTile w x y
  | .idle => .ok w

/-- The hook `Scene_Map.prototype.update`, after the engine's own update. -/
def sceneMapUpdate (w : World) (t : Touch) : Except JsError World :=
  if w.isEditMode && !w.isWorldMap then updateEditorInput w t else .ok w

/-! ## Boot, local input and menu actions (lines 53-158, 371-375, 500-525, 860-884, 995-1001) -/

/-- The room selection of `initDiscordSDK` (lines 62-77); `none` is a query parameter
that is not in the URL. -/
def selectRoom (w : World) (instanceParam guildIdParam : Option String) : World :=
  match instanceParam with
  | none => w
  | some inst =>
    if inst = "" then w
    else
      match guildIdParam with
      | some g =>
        if g ≠ "" then { w with currentGuildId := .str g, isWorldMap := false }
        else { w with isWorldMap := true, currentGuildId := .str "world" }
      | none => { w with isWorldMap := true, currentGuildId := .str "world" }

/-- The end of `initDiscordSDK` (lines 128-153), once the token exchange has answered:
`ok` is `tokenRes.ok` and `token` is `tokenData.auth_token`. -/
def finishAuthentication (w : World) (ok : Bool) (token : JsVal) : Except JsError World :=
  if !ok || !token.truthy then
    .ok { w with consoleErrors := w.consoleErrors ++ ["Failed to get explore auth_token"] }
  else
    connectSocket { w with exploreAuthToken := token } >>= fun w1 => .ok (decideMapToLoad w1)

/-- The function `setupGuildMap`, which no code calls. -/
def setupGuildMap (w : World) : World :=
  { w with isEditMode := true }

/-- What the engine reports to `Game_Player.moveByInput` in one frame: the results of
`isMoving`, `canMove`, `triggerAction`, `getInputDirection`, `isDestinationValid` and
`findDirectionTo`, and the player's position, speed and frequency after `executeMove`. -/
structure InputFrame where
  isMoving : Bool
  canMove : Bool
  triggerAction : Bool
  inputDirection : Int
  destinationValid : Bool
  directionToDestination : Int
  x : Int
  y : Int
  realMoveSpeed : Int
  moveFrequency : Int
  deriving DecidableEq, Repr

/-- The direction that `moveByInput` resolves (lines 503-511). -/
def resolvedDirection (f : InputFrame) : Int :=
  if f.inputDirection > 0 then f.inputDirection
  else if f.destinationValid then f.directionToDestination
  else f.inputDirection

/-- The override `Game_Player.prototype.moveByInput`.  The emit is not guarded: with no
socket, `socket.emit` raises a TypeError. -/
def moveByInput (w : World) (f : InputFrame) : Except JsError World :=
  if !f.isMoving && f.canMove then
    if f.triggerAction then .ok w
    else
      let direction := resolvedDirection f
      if direction > 0 then
        match w.socket with
        | none => .error .typeError
        | some s =>
          let e := OutEvent.move w.currentGuildId (.num direction) (.num f.x) (.num f.y)
            (.num f.realMoveSpeed) (.num f.moveFrequency)
          .ok { w with socket := some (s.emit e) }
      else .ok w
  else .ok w

/-- The end of `Scene_ExploreSkinList.onOk` (lines 873-879), once the skin request has
answered. -/
def skinChosen (w : World) (ok : Bool) (skinId : JsVal) : World :=
  if !ok then { w with consoleErrors := w.consoleErrors ++ ["Failed to set skin"] }
  else emitIfConnected w (.skin_change w.currentGuildId skinId)

/-- The `keydown` listener (lines 995-1001): the keys 1 to 4 select the layer. -/
def onKeydown (w : World) (key : String) : World :=
  let w1 := if key = "1" then { w with currentZ := .num 0 } else w
  let w2 := if key = "2" then { w1 with currentZ := .num 1 } else w1
  let w3 := if key = "3" then { w2 with currentZ := .num 2 } else w2
  if key = "4" then { w3 with currentZ := .num 3 } else w3

/-! ## Runs of the plugin -/

/-- An inbound socket event with its payload; `none` is a null payload. -/
inductive SocketEvent where
  | connect
  | joined (data : Option Joined)
  | roomState (data : Option RoomState)
  | userJoined (data : Option PlayerData)
  | userLeft (data : Option UserLeft)
  | userMoved (data : Option PlayerData)
  | skinChanged (data : Option SkinChanged)
  | error (data : Option ErrorData)
  | mapEdited (data : Option TileEdit)
  deriving DecidableEq, Repr

/-- The handler that `connectSocket` registers for each event. -/
def handleEvent (eng : Engine) (w : World) : SocketEvent → Except JsError World
  | .connect => onConnect w
  | .joined data => onJoined w data
  | .roomState data => onRoomState w data
  | .userJoined data => onUserJoined w data
  | .userLeft data => onUserLeft w data
  | .userMoved data => onUserMoved eng w data
  | .skinChanged data => onSkinChanged w data
  | .error data => onError w data
  | .mapEdited data => onMapEdited w data

/-- Everything that can happen to the plugin: a socket event, a step of the boot
sequence, a menu action, an answer to a request, a map load, a frame of the scene or of
the player, a key press. -/
inductive Action where
  | socket (e : SocketEvent)
  | selectRoom (instanceParam guildIdParam : Option String)
  | finishAuthentication (ok : Bool) (token : JsVal)
  | leaveSpace
  | connectToSpace (guildId : JsVal)
  | skinChosen (ok : Bool) (skinId : JsVal)
  | serverInfoResponse (error name iconUrl : JsVal)
  | spaceTilesResponse (data : SpaceResponse)
  | mapLoaded (loaded : GameMap) (surface : Option Spriteset)
  | sceneUpdate (touch : Touch)
  | moveByInput (frame : InputFrame)
  | keydown (key : String)

/-- The code that runs for one action. -/
def perform (eng : Engine) (w : World) : Action → Except JsError World
  | .socket e => handleEvent eng w e
  | .selectRoom i g => .ok (selectRoom w i g)
  | .finishAuthentication ok token => finishAuthentication w ok token
  | .leaveSpace => .ok (leaveSpace w)
  | .connectToSpace g => .ok (connectToSpace w g)
  | .skinChosen ok skinId => .ok (skinChosen w ok skinId)
  | .serverInfoResponse e n i => .ok (onServerInfoResponse w e n i)
  | .spaceTilesResponse d => .ok (onSpaceTilesResponse w d)
  | .mapLoaded m s => .ok (onMapLoaded m s w)
  | .sceneUpdate t => sceneMapUpdate w t
  | .moveByInput f => moveByInput w f
  | .keydown k => .ok (onKeydown w k)

/-- One action on the state.  An exception ends the callback and the event loop goes
on; in this model every raise happens before the callback's first write, so the state
is then the one before the action. -/
def step (eng : Engine) (w : World) (a : Action) : World :=
  match perform eng w a with
  | .ok w1 => w1
  | .error _ => w

/-- The state after a sequence of actions. -/
def run (eng : Engine) (w : World) (actions : List Action) : World :=
  actions.foldl (step eng) w

/-- Modelled from the spec: `Game_Character.moveStraight` belongs to the host engine and
is not under src/; it plays a one-tile step in the given direction (2 down, 4 left,
6 right, 8 up) when `passable` allows it, and turns the character to face that direction
whether or not it moved; speed and frequency are not touched. -/
def stepEngine (passable : Character → JsVal → Bool) : Engine :=
  { moveStraight := fun c d =>
      let turned := c.setDirection d
      if passable c d then
        match c.x, c.y, d with
        | .num _, .num y, .num 2 => { turned with y := .num (y + 1) }
        | .num x, .num _, .num 4 => { turned with x := .num (x - 1) }
        | .num x, .num _, .num 6 => { turned with x := .num (x + 1) }
        | .num _, .num y, .num 8 => { turned with y := .num (y - 1) }
        | _, _, _ => turned
      else turned }

end DiscordExplore

namespace DiscordExplore

/-! ## Auxiliary notions used in the statements -/

/-- The render handle that entry `k` holds after `attachSpriteForUserId w u`. -/
def spriteAfterAttach (w : World) (u k : String) : Option Nat :=
  (Table.get (attachSpriteForUserId w u).otherPlayers k).bind Entry.sprite

/-- The ids a `room_state` lists: those of the records that `spawnPlayer` accepts. -/
def listedIds (w : World) : List (Option PlayerData) → List String
  | [] => []
  | none :: rest => listedIds w rest
  | some p :: rest =>
    if (p.user_id.orElse p.id).isNullish then listedIds w rest
    else if isSelf w (p.user_id.orElse p.id).toStr then listedIds w rest
    else (p.user_id.orElse p.id).toStr :: listedIds w rest

/-- The test of `attachSpriteForUserId` for a renderer: a scene with a spriteset that has
a tilemap. -/
def rendererReady (w : World) : Bool :=
  match w.spriteset with
  | some ss => ss.hasTilemap
  | none => false

/-- A render handle as `refreshRemotePlayerSprites` leaves it: with a renderer, a sprite
numbered from `lo` up to below `hi`; with no renderer, null. -/
def FreshOrNull (ready : Bool) (lo hi : Nat) (sp : Option Nat) : Prop :=
  if ready then ∃ n, sp = some n ∧ lo ≤ n ∧ n < hi else sp = none

/-- The session variables that the registry and grid code never writes: the local user
id, the edit mode, the room and the socket. -/
def SameSession (w1 w : World) : Prop :=
  w1.myUserId = w.myUserId ∧ w1.isEditMode = w.isEditMode ∧ w1.isWorldMap = w.isWorldMap ∧
    w1.currentGuildId = w.currentGuildId ∧ w1.socket = w.socket

/-- The local user id is established and the registry has no entry under it. -/
def SelfFree (w : World) : Prop :=
  w.myUserId.truthy = true ∧ Table.get w.otherPlayers w.myUserId.toStr = none

/-- The event is not a `joined` that would change the local user id `uid`: a `joined`
must carry an id with the same string. -/
def KeepsLocalId (uid : String) : SocketEvent → Prop
  | .joined (some d) => d.user_id.truthy = true ∧ d.user_id.toStr = uid
  | _ => True

/-- The event is an `edit_map`. -/
def OutEvent.isEditMap : OutEvent → Bool
  | .edit_map _ _ _ _ _ => true
  | _ => false

/-- No `edit_map` event has been emitted on the socket, if there is one. -/
def noEditSent (w : World) : Bool :=
  match w.socket with
  | some s => s.sent.all fun e => !e.isEditMap
  | none => true

/-- The world map flag implies the default room id. -/
def RoomInv (w : World) : Prop :=
  w.isWorldMap = true → w.currentGuildId = .str "world"

/-! ## Sample states and events -/

/-- A loaded 20 by 20 map with no event and no edited tile. -/
def sampleMap : GameMap :=
  { events := [], width := 20, height := 20, tiles := [] }

/-- A session in room "42" with local user "9", a loaded map and an empty registry. -/
def sampleWorld : World :=
  { World.initial with gameMap := some sampleMap, myUserId := .str "9",
                       currentGuildId := .str "42" }

/-- A player record with an id and a position, every other field missing. -/
def samplePlayer (id : String) (x y : Int) : PlayerData :=
  { user_id := .undefined, id := .str id, x := .num x, y := .num y, direction := .undefined,
    skin_id := .undefined, moveSpeed := .undefined, moveFrequency := .undefined }

/-- A `user_moved` payload. -/
def sampleMove (id : String) (direction x y : Int) : PlayerData :=
  { user_id := .str id, id := .undefined, x := .num x, y := .num y, direction := .num direction,
    skin_id := .undefined, moveSpeed := .num 4, moveFrequency := .num 3 }

/-- An engine whose step is always blocked: the character only turns. -/
def blockedEngine : Engine :=
  { moveStraight := fun c d => c.setDirection d }

/-- A character as `spawnPlayer` leaves it, in slot `eventId` of the event table. -/
def sampleCharacter (eventId : Nat) (x y : Int) : Character :=
  { eventId := eventId, characterName := "Actor1", characterIndex := .num 0,
    x := .num x, y := .num y, direction := .num 2, moveSpeed := .num 4,
    moveFrequency := .num 3, priorityType := 0, stepAnime := false, isBusy := false,
    commandList := ["<Name: 1>"], headDisplay := 1 }

/-- The sample session with one player registered under `uid`, whose event is in
slot 0 of the map's event table. -/
def registeredWorld (uid : String) : World :=
  { sampleWorld with
      gameMap := some { sampleMap with events := [some { erased := false }] },
      otherPlayers := [(uid, { character := sampleCharacter 0 5 5, sprite := none,
                               skin_id := none })] }

/-- The sample session after a map reload: player `uid` is still registered under
event 3, and the new event table has no slot 3. -/
def orphanedWorld (uid : String) : World :=
  { sampleWorld with
      otherPlayers := [(uid, { character := sampleCharacter 3 5 5, sprite := none,
                               skin_id := none })] }

/-- A `user_left` payload. -/
def sampleLeft (id : String) : UserLeft :=
  { user_id := .str id, id := .undefined }

/-- The edit of scenario D: tile 17 at (3, 2) on layer 0. -/
def sampleEdit : TileEdit :=
  { guild_id := .str "42", x := .num 3, y := .num 2, z := .num 0, tile_id := .num 17 }

/-- The sample session with a connected socket that has sent nothing, and a player
object. -/
def connectedWorld : World :=
  { sampleWorld with
      exploreAuthToken := .str "token",
      socket := some { authToken := .str "token", connected := true,
                       handlersRegistered := true, sent := [] },
      gamePlayer := some { characterName := "Actor1", characterIndex := .num 0,
                           reservedTransfer := none, needsMapReload := false } }

/-- The socket right after `connectSocket`: created, not connected yet. -/
def freshSocket : Socket :=
  { authToken := .str "token", connected := false, handlersRegistered := true, sent := [] }

/-- The sample session in room "42" after `connectSocket`, before the transport has
connected. -/
def connectingWorld : World :=
  { sampleWorld with exploreAuthToken := .str "token", socket := some freshSocket }

/-- A tile-list response for room "42": tile 17 at (3, 2) on layer 0. -/
def sampleResponse : SpaceResponse :=
  { error := .undefined, tiles := some [sampleEdit] }

/-- The write of one fetched tile: the body of the loop of `applySpaceTiles`. -/
def applyTile (g : GameMap) (t : TileEdit) : GameMap :=
  g.setNormalTile t.x t.y t.z t.tile_id.toNumber

/-- A `user_moved` payload for player "1" that carries a direction and no position. -/
def moveWithoutPosition : PlayerData :=
  { user_id := .str "1", id := .undefined, x := .undefined, y := .undefined,
    direction := .num 8, skin_id := .undefined, moveSpeed := .num 4, moveFrequency := .num 3 }

/-- A `user_moved` payload for player "1" that carries a position and no direction. -/
def moveWithoutDirection : PlayerData :=
  { user_id := .str "1", id := .undefined, x := .num 6, y := .num 5,
    direction := .undefined, skin_id := .undefined, moveSpeed := .num 4,
    moveFrequency := .num 3 }

/-- The stored position of the entry of `uid`, when there is one. -/
def positionOf (w : World) (uid : String) : Option (JsVal × JsVal) :=
  (Table.get w.otherPlayers uid).map fun e => (e.character.x, e.character.y)

/-- A frame in which the player is free to move and the down key is held; after the
step the player stands at (8, 7). -/
def walkingFrame : InputFrame :=
  { isMoving := false, canMove := true, triggerAction := false, inputDirection := 2,
    destinationValid := false, directionToDestination := 0, x := 8, y := 7,
    realMoveSpeed := 4, moveFrequency := 6 }

/-- The `room_state` of scenario A: players "1" at (5, 5) and "2" at (7, 7) in room "42". -/
def scenarioA : RoomState :=
  { guild_id := .str "42", players := some [some (samplePlayer "1" 5 5), some (samplePlayer "2" 7 7)] }

/-- The plugin state once the engine has booted and a map is loaded, before the socket
has delivered anything: no local user id yet. -/
def bootedWorld : World :=
  { World.initial with gameMap := some sampleMap, currentGuildId := .str "42" }

/-- A `room_state` for room "42" that lists the given ids at (5, 5). -/
def snapshotOf (ids : List String) : RoomState :=
  { guild_id := .str "42", players := some (ids.map fun id => some (samplePlayer id 5 5)) }

end DiscordExplore

namespace DiscordExplore

/-! ## Facts about tables -/

section TableFacts

variable {κ α : Type} [DecidableEq κ]

theorem Table.get_set_self (d : Table κ α) (k : κ) (v : α) :
    Table.get (Table.set d k v) k = some v := by
  induction d with
  | nil => simp [Table.set, Table.get]
  | cons p rest ih =>
    obtain ⟨k1, v1⟩ := p
    by_cases h : k1 = k
    · simp [Table.set, Table.get, h]
    · simp [Table.set, Table.get, h, ih]

theorem Table.get_set_other (d : Table κ α) (k k2 : κ) (v : α) (h : k2 ≠ k) :
    Table.get (Table.set d k v) k2 = Table.get d k2 := by
  induction d with
  | nil => simp [Table.set, Table.get, Ne.symm h]
  | cons p rest ih =>
    obtain ⟨k1, v1⟩ := p
    by_cases h1 : k1 = k
    · subst h1
      simp [Table.set, Table.get, Ne.symm h]
    · by_cases h2 : k1 = k2
      · subst h2
        simp [Table.set, Table.get, h1]
      · simp [Table.set, Table.get, h1, h2, ih]

theorem Table.get_del_self (d : Table κ α) (k : κ) :
    Table.get (Table.del d k) k = none := by
  induction d with
  | nil => simp [Table.del, Table.get]
  | cons p rest ih =>
    obtain ⟨k1, v1⟩ := p
    by_cases h : k1 = k
    · simp [Table.del, h, ih]
    · simp [Table.del, Table.get, h, ih]

theorem Table.get_del_other (d : Table κ α) (k k2 : κ) (h : k2 ≠ k) :
    Table.get (Table.del d k) k2 = Table.get d k2 := by
  induction d with
  | nil => simp [Table.del, Table.get]
  | cons p rest ih =>
    obtain ⟨k1, v1⟩ := p
    by_cases h1 : k1 = k
    · subst h1
      simp [Table.del, Table.get, Ne.symm h, ih]
    · by_cases h2 : k1 = k2
      · subst h2
        simp [Table.del, Table.get, h1]
      · simp [Table.del, Table.get, h1, h2, ih]

theorem Table.get_eq_none_iff (d : Table κ α) (k : κ) :
    Table.get d k = none ↔ k ∉ Table.keys d := by
  induction d with
  | nil => simp [Table.get, Table.keys]
  | cons p rest ih =>
    obtain ⟨k1, v1⟩ := p
    by_cases h : k1 = k
    · simp [Table.get, Table.keys, h]
    · have h2 : ¬ k = k1 := fun e => h e.symm
      simp only [Table.keys] at ih
      simp [Table.get, Table.keys, h, h2, ih]

theorem Table.keys_set_absent (d : Table κ α) (k : κ) (v : α) (h : Table.get d k = none) :
    Table.keys (Table.set d k v) = Table.keys d ++ [k] := by
  induction d with
  | nil => simp [Table.set, Table.keys]
  | cons p rest ih =>
    obtain ⟨k1, v1⟩ := p
    by_cases h1 : k1 = k
    · simp [Table.get, h1] at h
    · simp only [Table.get, h1, if_false] at h
      have := ih h
      simp only [Table.keys] at this
      simp [Table.set, Table.keys, h1, this]

theorem Table.keys_set_present (d : Table κ α) (k : κ) (v e : α) (h : Table.get d k = some e) :
    Table.keys (Table.set d k v) = Table.keys d := by
  induction d with
  | nil => simp [Table.get] at h
  | cons p rest ih =>
    obtain ⟨k1, v1⟩ := p
    by_cases h1 : k1 = k
    · simp [Table.set, Table.keys, h1]
    · simp only [Table.get, h1, if_false] at h
      have := ih h
      simp only [Table.keys] at this
      simp [Table.set, Table.keys, h1, this]

theorem Table.set_set_same (d : Table κ α) (k : κ) (v : α) :
    Table.set (Table.set d k v) k v = Table.set d k v := by
  induction d with
  | nil => simp [Table.set]
  | cons p rest ih =>
    obtain ⟨k1, v1⟩ := p
    by_cases h : k1 = k
    · simp [Table.set, h]
    · simp [Table.set, h, ih]

end TableFacts

/-! ## Facts about the registry operations -/


theorem attach_gameMap (w : World) (u : String) :
    (attachSpriteForUserId w u).gameMap = w.gameMap := by
  unfold attachSpriteForUserId
  repeat' split
  all_goals rfl

theorem attach_keys (w : World) (u : String) :
    Table.keys (attachSpriteForUserId w u).otherPlayers = Table.keys w.otherPlayers := by
  unfold attachSpriteForUserId
  split
  · rfl
  · next entry he =>
    repeat' split
    all_goals first | rfl | exact Table.keys_set_present _ _ _ _ he

theorem attach_get_other (w : World) (u k : String) (hk : k ≠ u) :
    Table.get (attachSpriteForUserId w u).otherPlayers k = Table.get w.otherPlayers k := by
  unfold attachSpriteForUserId
  repeat' split
  all_goals first | rfl | exact Table.get_set_other _ _ _ _ hk

theorem attach_get_self (w : World) (u : String) (e : Entry)
    (he : Table.get w.otherPlayers u = some e) :
    ∃ sp, Table.get (attachSpriteForUserId w u).otherPlayers u = some { e with sprite := sp } := by
  unfold attachSpriteForUserId
  rw [he]
  simp only
  repeat' split
  all_goals first
    | exact ⟨e.sprite, he⟩
    | exact ⟨_, Table.get_set_self _ _ _⟩

theorem attach_myUserId (w : World) (u : String) :
    (attachSpriteForUserId w u).myUserId = w.myUserId := by
  unfold attachSpriteForUserId
  repeat' split
  all_goals rfl

theorem attach_get (w : World) (u k : String) :
    Table.get (attachSpriteForUserId w u).otherPlayers k =
      (Table.get w.otherPlayers k).map (fun e => { e with sprite := spriteAfterAttach w u k }) := by
  by_cases hk : k = u
  · subst hk
    cases he : Table.get w.otherPlayers k with
    | none =>
      have : attachSpriteForUserId w k = w := by
        unfold attachSpriteForUserId; rw [he]
      rw [this, he]; rfl
    | some e =>
      obtain ⟨sp, hsp⟩ := attach_get_self w k e he
      simp [spriteAfterAttach, hsp]
  · rw [attach_get_other w u k hk]
    cases he : Table.get w.otherPlayers k with
    | none => rfl
    | some e =>
      simp [spriteAfterAttach, attach_get_other w u k hk, he]

theorem spawnNew_spec (w : World) (m : GameMap) (u : String) (x y : JsVal) (sk : Option String)
    (habs : Table.get w.otherPlayers u = none) :
    ∃ e, Table.get (spawnNew w m u x y sk).otherPlayers u = some e ∧
      e.character.eventId = m.events.length ∧ e.character.x = x ∧ e.character.y = y ∧
      e.character.direction = .num 8 ∧ e.skin_id = sk ∧
      Table.keys (spawnNew w m u x y sk).otherPlayers = Table.keys w.otherPlayers ++ [u] ∧
      (∀ k, k ≠ u → Table.get (spawnNew w m u x y sk).otherPlayers k = Table.get w.otherPlayers k) ∧
      (spawnNew w m u x y sk).myUserId = w.myUserId ∧
      (spawnNew w m u x y sk).gameMap =
        some { m with events := m.events ++ [some { erased := false }] } := by
  unfold spawnNew
  simp only [getCharacter, GameMap.createNormalEventAt]
  refine Exists.intro ?e (And.intro ?h1 ?h2)
  case h1 => rw [attach_get, Table.get_set_self, Option.map_some']; exact rfl
  case h2 =>
    refine ⟨rfl, rfl, rfl, rfl, rfl, ?_, ?_, ?_, ?_⟩
    · rw [attach_keys]; exact Table.keys_set_absent _ _ _ habs
    · intro k hk
      rw [attach_get_other _ _ _ hk]; exact Table.get_set_other _ _ _ _ hk
    · rw [attach_myUserId]
    · rw [attach_gameMap]

theorem JsVal.eq_of_strictEq {a b : JsVal} (h : a.strictEq b = true) : a = b := by
  cases a <;> cases b <;> simp_all [JsVal.strictEq]

theorem corrected_position (c : Character) (x y : JsVal) :
    (if (!(x.strictEq c.x) || !(y.strictEq c.y)) = true then c.setPosition x y else c).x = x ∧
    (if (!(x.strictEq c.x) || !(y.strictEq c.y)) = true then c.setPosition x y else c).y = y := by
  by_cases h : (!(x.strictEq c.x) || !(y.strictEq c.y)) = true
  · simp only [h, if_true, Character.setPosition, and_self]
  · simp only [h, if_false]
    simp only [Bool.or_eq_true, Bool.not_eq_true', not_or, Bool.not_eq_false] at h
    exact ⟨(JsVal.eq_of_strictEq h.1).symm, (JsVal.eq_of_strictEq h.2).symm⟩

theorem stepAndCorrect_spec (eng : Engine) (w : World) (u : String) (entry : Entry)
    (d : PlayerData) (he : Table.get w.otherPlayers u = some entry) :
    ∃ e, Table.get (stepAndCorrect eng w u entry d).otherPlayers u = some e ∧
      e.character.x = d.x ∧ e.character.y = d.y ∧
      Table.keys (stepAndCorrect eng w u entry d).otherPlayers = Table.keys w.otherPlayers ∧
      (∀ k, k ≠ u →
        Table.get (stepAndCorrect eng w u entry d).otherPlayers k = Table.get w.otherPlayers k) := by
  unfold stepAndCorrect
  simp only
  refine Exists.intro ?e (And.intro ?h1 ?h2)
  case h1 => rw [attach_get, Table.get_set_self, Option.map_some']; exact rfl
  case h2 =>
    refine ⟨?_, ?_, ?_, ?_⟩
    · exact (corrected_position _ d.x d.y).1
    · exact (corrected_position _ d.x d.y).2
    · rw [attach_keys]; exact Table.keys_set_present _ _ _ _ he
    · intro k hk
      rw [attach_get_other _ _ _ hk]; exact Table.get_set_other _ _ _ _ hk

theorem isSelf_congr (w1 w : World) (u : String) (h : w1.myUserId = w.myUserId) :
    isSelf w1 u = isSelf w u := by
  simp [isSelf, h]

theorem spawnPlayer_absent (w : World) (m : GameMap) (d : PlayerData)
    (huid : (d.user_id.orElse d.id).isNullish = false)
    (hself : isSelf w (d.user_id.orElse d.id).toStr = false)
    (habs : Table.get w.otherPlayers (d.user_id.orElse d.id).toStr = none)
    (hmap : w.gameMap = some m) :
    spawnPlayer w (some d) = .ok (spawnNew w m (d.user_id.orElse d.id).toStr
      (d.x.orElse (.num 11)).toNumber (d.y.orElse (.num 11)).toNumber
      (if !d.skin_id.isNullish then some d.skin_id.toStr else none)) := by
  simp [spawnPlayer, huid, hself, habs, hmap]

theorem spawnPlayer_unknown (w : World) (m : GameMap) (d : PlayerData)
    (huid : (d.user_id.orElse d.id).isNullish = false)
    (hself : isSelf w (d.user_id.orElse d.id).toStr = false)
    (habs : Table.get w.otherPlayers (d.user_id.orElse d.id).toStr = none)
    (hmap : w.gameMap = some m) :
    ∃ w1 e, spawnPlayer w (some d) = .ok w1 ∧
      Table.get w1.otherPlayers (d.user_id.orElse d.id).toStr = some e ∧
      e.character.eventId = m.events.length ∧
      e.character.x = (d.x.orElse (.num 11)).toNumber ∧
      e.character.y = (d.y.orElse (.num 11)).toNumber ∧
      e.character.direction = .num 8 ∧
      Table.keys w1.otherPlayers = Table.keys w.otherPlayers ++ [(d.user_id.orElse d.id).toStr] ∧
      (∀ k, k ≠ (d.user_id.orElse d.id).toStr →
        Table.get w1.otherPlayers k = Table.get w.otherPlayers k) ∧
      w1.myUserId = w.myUserId ∧
      w1.gameMap = some { m with events := m.events ++ [some { erased := false }] } := by
  obtain ⟨e, he, h1, h2, h3, h4, -, h6, h7, h8, h9⟩ :=
    spawnNew_spec w m (d.user_id.orElse d.id).toStr (d.x.orElse (.num 11)).toNumber
      (d.y.orElse (.num 11)).toNumber
      (if !d.skin_id.isNullish then some d.skin_id.toStr else none) habs
  exact ⟨_, e, spawnPlayer_absent w m d huid hself habs hmap, he, h1, h2, h3, h4, h6, h7, h8, h9⟩

theorem spawnPlayer_present (w : World) (d : PlayerData) (e : Entry)
    (huid : (d.user_id.orElse d.id).isNullish = false)
    (hself : isSelf w (d.user_id.orElse d.id).toStr = false)
    (hpres : Table.get w.otherPlayers (d.user_id.orElse d.id).toStr = some e) :
    spawnPlayer w (some d) = .ok (spawnExisting w (d.user_id.orElse d.id).toStr e
      (d.x.orElse (.num 11)).toNumber (d.y.orElse (.num 11)).toNumber
      (if !d.direction.isNullish then d.direction.toNumber else .null)
      (if !d.skin_id.isNullish then some d.skin_id.toStr else none)) := by
  simp [spawnPlayer, huid, hself, hpres]

theorem movePlayer_present (eng : Engine) (w : World) (d : PlayerData) (e : Entry)
    (huid : (d.user_id.orElse d.id).isNullish = false)
    (hself : isSelf w (d.user_id.orElse d.id).toStr = false)
    (hpres : Table.get w.otherPlayers (d.user_id.orElse d.id).toStr = some e) :
    movePlayer eng w (some d) =
      .ok (stepAndCorrect eng w (d.user_id.orElse d.id).toStr e d) := by
  simp [movePlayer, huid, hself, hpres, bind, Except.bind]

theorem movePlayer_absent (eng : Engine) (w : World) (d : PlayerData)
    (huid : (d.user_id.orElse d.id).isNullish = false)
    (hself : isSelf w (d.user_id.orElse d.id).toStr = false)
    (habs : Table.get w.otherPlayers (d.user_id.orElse d.id).toStr = none) :
    movePlayer eng w (some d) =
      (spawnPlayer w (some d) >>= fun w1 => movePlayer eng w1 (some d)) := by
  cases hmap : w.gameMap with
  | none =>
    have hs : spawnPlayer w (some d) = .error .typeError := by
      simp [spawnPlayer, huid, hself, habs, hmap]
    simp [movePlayer, huid, hself, habs, hs, bind, Except.bind]
  | some m =>
    have hs := spawnPlayer_absent w m d huid hself habs hmap
    obtain ⟨e, he, -, -, -, -, -, -, -, hmy, -⟩ :=
      spawnNew_spec w m (d.user_id.orElse d.id).toStr (d.x.orElse (.num 11)).toNumber
        (d.y.orElse (.num 11)).toNumber (if !d.skin_id.isNullish then some d.skin_id.toStr else none) habs
    have hself2 := (isSelf_congr _ w (d.user_id.orElse d.id).toStr hmy).trans hself
    have hR := movePlayer_present eng _ d e huid hself2 he
    rw [hs]
    show _ = movePlayer eng _ (some d)
    rw [hR]
    simp only [movePlayer, huid, hself, habs, hs, bind, Except.bind, he, Option.isNone_none,
      if_true, Bool.false_eq_true, if_false]

theorem spawnExisting_spec (w : World) (u : String) (entry : Entry) (x y dir : JsVal)
    (sk : Option String) (he : Table.get w.otherPlayers u = some entry) :
    ∃ e, Table.get (spawnExisting w u entry x y dir sk).otherPlayers u = some e ∧
      e.character.eventId = entry.character.eventId ∧ e.skin_id = sk ∧
      Table.keys (spawnExisting w u entry x y dir sk).otherPlayers = Table.keys w.otherPlayers ∧
      (∀ k, k ≠ u →
        Table.get (spawnExisting w u entry x y dir sk).otherPlayers k = Table.get w.otherPlayers k) ∧
      (spawnExisting w u entry x y dir sk).myUserId = w.myUserId ∧
      (spawnExisting w u entry x y dir sk).gameMap = w.gameMap := by
  unfold spawnExisting
  simp only [getCharacter]
  refine Exists.intro ?e (And.intro ?h1 ?h2)
  case h1 => rw [attach_get, Table.get_set_self, Option.map_some']; exact rfl
  case h2 =>
    refine ⟨?_, rfl, ?_, ?_, ?_, ?_⟩
    · simp only [Character.setImage, Character.locate, Character.setPosition,
        Character.setDirection]
      split <;> split <;> rfl
    · rw [attach_keys]; exact Table.keys_set_present _ _ _ _ he
    · intro k hk
      rw [attach_get_other _ _ _ hk]; exact Table.get_set_other _ _ _ _ hk
    · rw [attach_myUserId]
    · rw [attach_gameMap]

theorem spawnPlayer_known (w : World) (d : PlayerData) (entry : Entry)
    (huid : (d.user_id.orElse d.id).isNullish = false)
    (hself : isSelf w (d.user_id.orElse d.id).toStr = false)
    (hpres : Table.get w.otherPlayers (d.user_id.orElse d.id).toStr = some entry) :
    ∃ w1 e, spawnPlayer w (some d) = .ok w1 ∧
      Table.get w1.otherPlayers (d.user_id.orElse d.id).toStr = some e ∧
      e.character.eventId = entry.character.eventId ∧
      e.skin_id = (if !d.skin_id.isNullish then some d.skin_id.toStr else none) ∧
      Table.keys w1.otherPlayers = Table.keys w.otherPlayers ∧
      (∀ k, k ≠ (d.user_id.orElse d.id).toStr →
        Table.get w1.otherPlayers k = Table.get w.otherPlayers k) ∧
      w1.myUserId = w.myUserId ∧ w1.gameMap = w.gameMap := by
  obtain ⟨e, h⟩ := spawnExisting_spec w (d.user_id.orElse d.id).toStr entry
    (d.x.orElse (.num 11)).toNumber (d.y.orElse (.num 11)).toNumber
    (if !d.direction.isNullish then d.direction.toNumber else .null)
    (if !d.skin_id.isNullish then some d.skin_id.toStr else none) hpres
  exact ⟨_, e, spawnPlayer_present w d entry huid hself hpres, h⟩

theorem spawnAll_same_id (u : String) (ds : List PlayerData) :
    ∀ (w : World) (entry : Entry),
      (∀ p ∈ ds, (p.user_id.orElse p.id).isNullish = false ∧ (p.user_id.orElse p.id).toStr = u) →
      isSelf w u = false →
      Table.get w.otherPlayers u = some entry →
      ∃ wn en, spawnAll (ds.map some) w = .ok wn ∧
        Table.get wn.otherPlayers u = some en ∧
        en.character.eventId = entry.character.eventId ∧
        Table.keys wn.otherPlayers = Table.keys w.otherPlayers ∧
        (∀ k, k ≠ u → Table.get wn.otherPlayers k = Table.get w.otherPlayers k) ∧
        wn.gameMap = w.gameMap := by
  induction ds with
  | nil =>
    intro w entry _ _ he
    exact ⟨w, entry, rfl, he, rfl, rfl, fun _ _ => rfl, rfl⟩
  | cons p rest ih =>
    intro w entry hall hself he
    obtain ⟨hp1, hp2⟩ := hall p (List.mem_cons_self _ _)
    subst hp2
    obtain ⟨w1, e1, hs, he1, hid1, -, hk1, ho1, hmy1, hg1⟩ := spawnPlayer_known w p entry hp1 hself he
    have hself1 := (isSelf_congr w1 w _ hmy1).trans hself
    obtain ⟨wn, en, hsn, hen, hidn, hkn, hon, hgn⟩ :=
      ih w1 e1 (fun q hq => hall q (List.mem_cons_of_mem _ hq)) hself1 he1
    refine ⟨wn, en, ?_, hen, hidn.trans hid1, hkn.trans hk1, ?_, hgn.trans hg1⟩
    · simp only [List.map_cons, spawnAll, hs, bind, Except.bind]
      exact hsn
    · intro k hk
      rw [hon k hk, ho1 k hk]

theorem eraseEvent_eventAt_none (m : GameMap) (id j : Nat) :
    (m.eraseEvent id).eventAt j = none ↔ m.eventAt j = none := by
  simp only [GameMap.eraseEvent, GameMap.eventAt, List.getElem?_modify]
  cases h : m.events[j]? with
  | none => simp
  | some slot =>
    cases slot with
    | none => by_cases hj : id = j <;> simp [hj]
    | some ev => by_cases hj : id = j <;> simp [hj]

theorem listedIds_congr (w1 w : World) (h : w1.myUserId = w.myUserId) (ps : List (Option PlayerData)) :
    listedIds w1 ps = listedIds w ps := by
  induction ps with
  | nil => rfl
  | cons p rest ih =>
    cases p with
    | none => simpa [listedIds] using ih
    | some p => simp only [listedIds, ih, isSelf_congr w1 w _ h]

theorem clearLoop_spec (ks : List String) :
    ∀ (w : World) (m : GameMap), w.gameMap = some m →
      ∃ w1 m1, clearLoop ks w = .ok w1 ∧ w1.gameMap = some m1 ∧
        (∀ j, m1.eventAt j = none ↔ m.eventAt j = none) ∧
        w1.myUserId = w.myUserId ∧
        ∀ k, Table.get w1.otherPlayers k =
          (Table.get w.otherPlayers k).bind fun e =>
            if k ∈ ks ∧ m.eventAt e.character.eventId ≠ none then none else some e := by
  induction ks with
  | nil =>
    intro w m hm
    refine ⟨w, m, rfl, hm, fun _ => Iff.rfl, rfl, fun k => ?_⟩
    cases Table.get w.otherPlayers k <;> simp
  | cons uid rest ih =>
    intro w m hm
    cases hget : Table.get w.otherPlayers uid with
    | none =>
      obtain ⟨w1, m1, hrun, hm1, hev, hmy, hreg⟩ := ih w m hm
      refine ⟨w1, m1, ?_, hm1, hev, hmy, fun k => ?_⟩
      · simp only [clearLoop, hget]; exact hrun
      · rw [hreg k]
        by_cases hk : k = uid
        · subst hk; simp [hget]
        · simp [hk]
    | some entry =>
      by_cases hstale : m.eventAt entry.character.eventId = none
      · obtain ⟨w1, m1, hrun, hm1, hev, hmy, hreg⟩ := ih w m hm
        refine ⟨w1, m1, ?_, hm1, hev, hmy, fun k => ?_⟩
        · simp only [clearLoop, hget, hm, hstale, if_true]; exact hrun
        · rw [hreg k]
          by_cases hk : k = uid
          · subst hk; simp [hget, hstale]
          · simp [hk]
      · obtain ⟨w1, m1, hrun, hm1, hev, hmy, hreg⟩ :=
          ih { w with gameMap := some (m.eraseEvent entry.character.eventId),
                      otherPlayers := Table.del w.otherPlayers uid }
            (m.eraseEvent entry.character.eventId) rfl
        refine ⟨w1, m1, ?_, hm1, fun j => (hev j).trans (eraseEvent_eventAt_none m _ j), hmy,
          fun k => ?_⟩
        · simp only [clearLoop, hget, hm, hstale, if_false]; exact hrun
        · rw [hreg k]
          by_cases hk : k = uid
          · subst hk; simp [hget, hstale, Table.get_del_self]
          · simp [hk, Table.get_del_other _ _ _ hk, eraseEvent_eventAt_none]

theorem spawnPlayer_total (w : World) (p : Option PlayerData) (hm : w.gameMap.isSome = true) :
    ∃ w1, spawnPlayer w p = .ok w1 ∧ w1.gameMap.isSome = true ∧ w1.myUserId = w.myUserId ∧
      ∀ k, (Table.get w1.otherPlayers k).isSome = true ↔
        (k ∈ listedIds w [p] ∨ (Table.get w.otherPlayers k).isSome = true) := by
  cases p with
  | none => exact ⟨w, rfl, hm, rfl, fun k => by simp [listedIds]⟩
  | some d =>
    by_cases huid : (d.user_id.orElse d.id).isNullish = true
    · exact ⟨w, by simp [spawnPlayer, huid], hm, rfl, fun k => by simp [listedIds, huid]⟩
    · simp only [Bool.not_eq_true] at huid
      by_cases hself : isSelf w (d.user_id.orElse d.id).toStr = true
      · exact ⟨w, by simp [spawnPlayer, huid, hself], hm, rfl,
          fun k => by simp [listedIds, huid, hself]⟩
      · simp only [Bool.not_eq_true] at hself
        cases hget : Table.get w.otherPlayers (d.user_id.orElse d.id).toStr with
        | none =>
          obtain ⟨m, hmm⟩ := Option.isSome_iff_exists.1 hm
          obtain ⟨w1, e, hs, he, -, -, -, -, -, ho, hmy, hg⟩ :=
            spawnPlayer_unknown w m d huid hself hget hmm
          refine ⟨w1, hs, by simp [hg], hmy, fun k => ?_⟩
          by_cases hk : k = (d.user_id.orElse d.id).toStr
          · subst hk; simp [listedIds, huid, hself, he]
          · simp [listedIds, huid, hself, hk, ho k hk]
        | some e0 =>
          obtain ⟨w1, e, hs, he, -, -, -, ho, hmy, hg⟩ := spawnPlayer_known w d e0 huid hself hget
          refine ⟨w1, hs, by rw [hg]; exact hm, hmy, fun k => ?_⟩
          by_cases hk : k = (d.user_id.orElse d.id).toStr
          · subst hk; simp [listedIds, huid, hself, he, hget]
          · simp [listedIds, huid, hself, hk, ho k hk]

theorem listedIds_cons (w : World) (p : Option PlayerData) (ps : List (Option PlayerData)) :
    listedIds w (p :: ps) = listedIds w [p] ++ listedIds w ps := by
  cases p with
  | none => simp [listedIds]
  | some d =>
    by_cases h1 : (d.user_id.orElse d.id).isNullish = true
    · simp [listedIds, h1]
    · by_cases h2 : isSelf w (d.user_id.orElse d.id).toStr = true
      · simp [listedIds, h1, h2]
      · simp [listedIds, h1, h2]

theorem spawnAll_spec (ps : List (Option PlayerData)) :
    ∀ w : World, w.gameMap.isSome = true →
      ∃ wn, spawnAll ps w = .ok wn ∧ wn.gameMap.isSome = true ∧ wn.myUserId = w.myUserId ∧
        ∀ k, (Table.get wn.otherPlayers k).isSome = true ↔
          (k ∈ listedIds w ps ∨ (Table.get w.otherPlayers k).isSome = true) := by
  induction ps with
  | nil => intro w hm; exact ⟨w, rfl, hm, rfl, fun k => by simp [listedIds]⟩
  | cons p rest ih =>
    intro w hm
    obtain ⟨w1, hs, hm1, hmy1, h1⟩ := spawnPlayer_total w p hm
    obtain ⟨wn, hsn, hmn, hmyn, hn⟩ := ih w1 hm1
    refine ⟨wn, ?_, hmn, hmyn.trans hmy1, fun k => ?_⟩
    · simp only [spawnAll, hs, bind, Except.bind]; exact hsn
    · rw [hn k, h1 k, listedIds_congr w1 w hmy1, listedIds_cons w p rest, List.mem_append]
      tauto

theorem Table.eq_nil_of_get_none {κ α : Type} [DecidableEq κ] (t : Table κ α)
    (h : ∀ k, Table.get t k = none) : t = [] := by
  cases t with
  | nil => rfl
  | cons p rest =>
    obtain ⟨k, v⟩ := p
    have := h k
    simp [Table.get] at this

theorem clearOtherPlayers_spec (w : World) (m : GameMap) (hm : w.gameMap = some m) :
    ∃ w1, clearOtherPlayers w = .ok w1 ∧ w1.gameMap.isSome = true ∧
      w1.myUserId = w.myUserId ∧
      ∀ k, Table.get w1.otherPlayers k =
        (Table.get w.otherPlayers k).bind fun e =>
          if m.eventAt e.character.eventId ≠ none then none else some e := by
  obtain ⟨w1, m1, hrun, hm1, -, hmy, hreg⟩ := clearLoop_spec (Table.keys w.otherPlayers) w m hm
  refine ⟨w1, hrun, by simp [hm1], hmy, fun k => ?_⟩
  rw [hreg k]
  cases hget : Table.get w.otherPlayers k with
  | none => rfl
  | some e =>
    have hk : k ∈ Table.keys w.otherPlayers := by
      by_contra hn
      rw [(Table.get_eq_none_iff _ _).2 hn] at hget
      exact absurd hget (by simp)
    simp [hk]

theorem refreshLoop_gameMap (ks : List String) :
    ∀ w : World, (refreshLoop ks w).gameMap = w.gameMap := by
  induction ks with
  | nil => intro w; rfl
  | cons uid rest ih =>
    intro w
    simp only [refreshLoop]
    split
    · exact ih w
    · rw [ih, attach_gameMap]

theorem applySpaceTiles_result (w : World) (g : GameMap) (L : List TileEdit)
    (hp : w.pendingSpaceTiles = some L) (hg : w.gameMap = some g) :
    (applySpaceTiles w).gameMap = some (L.foldl applyTile g) ∧
    (applySpaceTiles w).pendingSpaceTiles = none := by
  constructor
  · simp only [applySpaceTiles, hp, hg]
    repeat' split
    all_goals rfl
  · simp only [applySpaceTiles, hp, hg]
    repeat' split
    all_goals rfl

theorem emitIfConnected_otherPlayers (w : World) (e : OutEvent) :
    (emitIfConnected w e).otherPlayers = w.otherPlayers := by
  unfold emitIfConnected
  repeat' split
  all_goals rfl

theorem fetchMapData_otherPlayers (w : World) :
    (fetchMapData w).otherPlayers = w.otherPlayers := by
  unfold fetchMapData setActivity
  repeat' split
  all_goals rfl

theorem reserveTransfer_otherPlayers (w : World) (mapId : Nat) (x y : Int) (d fade : Nat) :
    (reserveTransfer w mapId x y d fade).otherPlayers = w.otherPlayers := by
  unfold reserveTransfer
  split <;> rfl

theorem spawnExisting_fields (w : World) (u : String) (entry : Entry) (x y dir : JsVal)
    (sk : Option String) :
    ∃ e, Table.get (spawnExisting w u entry x y dir sk).otherPlayers u = some e ∧
      e.character.direction =
        (if (!dir.isNullish && dir.isFiniteNumber) = true then dir
         else entry.character.direction) ∧
      e.character.x =
        (if (x.isFiniteNumber && y.isFiniteNumber) = true then x else entry.character.x) ∧
      e.character.y =
        (if (x.isFiniteNumber && y.isFiniteNumber) = true then y else entry.character.y) := by
  unfold spawnExisting
  simp only [getCharacter]
  refine Exists.intro ?e (And.intro ?h1 ?h2)
  case h1 => rw [attach_get, Table.get_set_self, Option.map_some']; exact rfl
  case h2 =>
    simp only [Character.setImage, Character.locate, Character.setPosition,
      Character.setDirection]
    refine ⟨?_, ?_, ?_⟩ <;> split <;> split <;> simp_all

theorem stepAndCorrect_fields (eng : Engine) (w : World) (u : String) (entry : Entry)
    (d : PlayerData) :
    ∃ e, Table.get (stepAndCorrect eng w u entry d).otherPlayers u = some e ∧
      e.character.x = d.x ∧ e.character.y = d.y ∧
      e.character.direction =
        (eng.moveStraight ((entry.character.setMoveSpeed d.moveSpeed).setMoveFrequency
          d.moveFrequency) d.direction).direction ∧
      e.character.moveSpeed =
        (eng.moveStraight ((entry.character.setMoveSpeed d.moveSpeed).setMoveFrequency
          d.moveFrequency) d.direction).moveSpeed ∧
      e.character.moveFrequency =
        (eng.moveStraight ((entry.character.setMoveSpeed d.moveSpeed).setMoveFrequency
          d.moveFrequency) d.direction).moveFrequency := by
  unfold stepAndCorrect
  simp only
  refine Exists.intro ?e (And.intro ?h1 ?h2)
  case h1 => rw [attach_get, Table.get_set_self, Option.map_some']; exact rfl
  case h2 =>
    refine ⟨(corrected_position _ d.x d.y).1, (corrected_position _ d.x d.y).2, ?_, ?_, ?_⟩ <;>
      (simp only [Character.setPosition]; split <;> rfl)

theorem stepEngine_moveStraight (passable : Character → JsVal → Bool) (c : Character)
    (d : JsVal) :
    ((stepEngine passable).moveStraight c d).direction = d ∧
    ((stepEngine passable).moveStraight c d).moveSpeed = c.moveSpeed ∧
    ((stepEngine passable).moveStraight c d).moveFrequency = c.moveFrequency := by
  simp only [stepEngine, Character.setDirection]
  refine ⟨?_, ?_, ?_⟩ <;> (split <;> [split; skip] <;> rfl)

theorem JsVal.toNumber_isNullish (v : JsVal) : v.toNumber.isNullish = false := by
  cases v with
  | str s =>
    simp only [JsVal.toNumber]
    split
    · rfl
    · split <;> rfl
  | bool b => cases b <;> rfl
  | _ => rfl

theorem listedIds_single_accepted (w : World) (p : PlayerData)
    (huid : (p.user_id.orElse p.id).isNullish = false)
    (hself : isSelf w (p.user_id.orElse p.id).toStr = false) :
    listedIds w [some p] = [(p.user_id.orElse p.id).toStr] := by
  simp [listedIds, huid, hself]

theorem listedIds_single_subset (w : World) (q : Option PlayerData) (k : String)
    (hk : k ∈ listedIds w [q]) :
    ∃ p, q = some p ∧ (p.user_id.orElse p.id).isNullish = false ∧
      isSelf w (p.user_id.orElse p.id).toStr = false ∧ k = (p.user_id.orElse p.id).toStr := by
  cases q with
  | none => simp [listedIds] at hk
  | some p =>
    by_cases h1 : (p.user_id.orElse p.id).isNullish = true
    · simp [listedIds, h1] at hk
    · by_cases h2 : isSelf w (p.user_id.orElse p.id).toStr = true
      · simp [listedIds, h1, h2] at hk
      · simp only [Bool.not_eq_true] at h1 h2
        simp [listedIds, h1, h2] at hk
        exact ⟨p, rfl, h1, h2, hk⟩

theorem mem_listedIds_of_mem (w : World) (ps : List (Option PlayerData)) (p : PlayerData)
    (hp : some p ∈ ps)
    (huid : (p.user_id.orElse p.id).isNullish = false)
    (hself : isSelf w (p.user_id.orElse p.id).toStr = false) :
    (p.user_id.orElse p.id).toStr ∈ listedIds w ps := by
  induction ps with
  | nil => simp at hp
  | cons q rest ih =>
    rw [listedIds_cons, List.mem_append]
    rcases List.mem_cons.1 hp with h | h
    · left; rw [← h, listedIds_single_accepted w p huid hself]; simp
    · right; exact ih h

theorem spawnPlayer_frame (w : World) (p : Option PlayerData) (hm : w.gameMap.isSome = true) :
    ∃ w1, spawnPlayer w p = .ok w1 ∧ w1.gameMap.isSome = true ∧ w1.myUserId = w.myUserId ∧
      ∀ k, k ∉ listedIds w [p] → Table.get w1.otherPlayers k = Table.get w.otherPlayers k := by
  cases p with
  | none => exact ⟨w, rfl, hm, rfl, fun _ _ => rfl⟩
  | some d =>
    by_cases huid : (d.user_id.orElse d.id).isNullish = true
    · exact ⟨w, by simp [spawnPlayer, huid], hm, rfl, fun _ _ => rfl⟩
    · simp only [Bool.not_eq_true] at huid
      by_cases hself : isSelf w (d.user_id.orElse d.id).toStr = true
      · exact ⟨w, by simp [spawnPlayer, huid, hself], hm, rfl, fun _ _ => rfl⟩
      · simp only [Bool.not_eq_true] at hself
        have hl := listedIds_single_accepted w d huid hself
        cases hget : Table.get w.otherPlayers (d.user_id.orElse d.id).toStr with
        | none =>
          obtain ⟨m, hmm⟩ := Option.isSome_iff_exists.1 hm
          obtain ⟨w1, e, hs, -, -, -, -, -, -, ho, hmy, hg⟩ :=
            spawnPlayer_unknown w m d huid hself hget hmm
          exact ⟨w1, hs, by simp [hg], hmy, fun k hk => ho k (by simpa [hl] using hk)⟩
        | some e0 =>
          obtain ⟨w1, e, hs, -, -, -, -, ho, hmy, hg⟩ := spawnPlayer_known w d e0 huid hself hget
          exact ⟨w1, hs, by rw [hg]; exact hm, hmy, fun k hk => ho k (by simpa [hl] using hk)⟩

theorem spawnAll_frame (ps : List (Option PlayerData)) :
    ∀ w : World, w.gameMap.isSome = true →
      ∃ wn, spawnAll ps w = .ok wn ∧
        ∀ k, k ∉ listedIds w ps → Table.get wn.otherPlayers k = Table.get w.otherPlayers k := by
  induction ps with
  | nil => intro w _; exact ⟨w, rfl, fun _ _ => rfl⟩
  | cons p rest ih =>
    intro w hm
    obtain ⟨w1, hs, hm1, hmy1, h1⟩ := spawnPlayer_frame w p hm
    obtain ⟨wn, hsn, hn⟩ := ih w1 hm1
    refine ⟨wn, ?_, fun k hk => ?_⟩
    · simp only [spawnAll, hs, bind, Except.bind]; exact hsn
    · rw [listedIds_cons, List.mem_append, not_or] at hk
      rw [hn k (by rw [listedIds_congr w1 w hmy1]; exact hk.2), h1 k hk.1]

theorem spawnAll_creates (ps : List (Option PlayerData)) :
    ∀ (w : World) (p : PlayerData), w.gameMap.isSome = true → some p ∈ ps →
      (p.user_id.orElse p.id).isNullish = false →
      isSelf w (p.user_id.orElse p.id).toStr = false →
      Table.get w.otherPlayers (p.user_id.orElse p.id).toStr = none →
      (listedIds w ps).count (p.user_id.orElse p.id).toStr = 1 →
      ∃ wn e, spawnAll ps w = .ok wn ∧
        Table.get wn.otherPlayers (p.user_id.orElse p.id).toStr = some e ∧
        e.character.x = (p.x.orElse (.num 11)).toNumber ∧
        e.character.y = (p.y.orElse (.num 11)).toNumber ∧
        e.character.direction = .num 8 := by
  induction ps with
  | nil => intro w p _ hp; simp at hp
  | cons q rest ih =>
    intro w p hm hp huid hself habs hcount
    rw [listedIds_cons, List.count_append] at hcount
    by_cases hq : (p.user_id.orElse p.id).toStr ∈ listedIds w [q]
    · obtain ⟨q1, hq1, hquid, hqself, hqid⟩ := listedIds_single_subset w q _ hq
      subst hq1
      have hc1 : (listedIds w [some q1]).count (p.user_id.orElse p.id).toStr = 1 := by
        rw [listedIds_single_accepted w q1 hquid hqself, hqid]; simp
      have hnot : (p.user_id.orElse p.id).toStr ∉ listedIds w rest := by
        intro hin
        have := List.count_pos_iff.2 hin
        omega
      have hpq : p = q1 := by
        rcases List.mem_cons.1 hp with h | h
        · exact Option.some.inj h
        · exact absurd (mem_listedIds_of_mem w rest p h huid hself) hnot
      subst hpq
      obtain ⟨m, hmm⟩ := Option.isSome_iff_exists.1 hm
      obtain ⟨w1, e, hs, he, -, hx, hy, hd, -, -, hmy, hg⟩ :=
        spawnPlayer_unknown w m p huid hself habs hmm
      obtain ⟨wn, hsn, hn⟩ := spawnAll_frame rest w1 (by simp [hg])
      refine ⟨wn, e, ?_, ?_, hx, hy, hd⟩
      · simp only [spawnAll, hs, bind, Except.bind]; exact hsn
      · rw [hn _ (by rw [listedIds_congr w1 w hmy]; exact hnot)]; exact he
    · have hc0 : (listedIds w [q]).count (p.user_id.orElse p.id).toStr = 0 :=
        List.count_eq_zero_of_not_mem hq
      obtain ⟨w1, hs, hm1, hmy1, h1⟩ := spawnPlayer_frame w q hm
      have hprest : some p ∈ rest := by
        rcases List.mem_cons.1 hp with h | h
        · rw [← h, listedIds_single_accepted w p huid hself] at hq
          simp at hq
        · exact h
      obtain ⟨wn, e, hsn, hen, hx, hy, hd⟩ := ih w1 p hm1 hprest huid
        ((isSelf_congr w1 w _ hmy1).trans hself) (by rw [h1 _ hq]; exact habs)
        (by rw [listedIds_congr w1 w hmy1]; omega)
      refine ⟨wn, e, ?_, hen, hx, hy, hd⟩
      simp only [spawnAll, hs, bind, Except.bind]; exact hsn

theorem FreshOrNull.mono {ready : Bool} {lo lo2 hi hi2 : Nat} {sp : Option Nat}
    (h : FreshOrNull ready lo hi sp) (hlo : lo2 ≤ lo) (hhi : hi ≤ hi2) :
    FreshOrNull ready lo2 hi2 sp := by
  unfold FreshOrNull at *
  cases ready
  · simpa using h
  · simp only [if_true] at *
    obtain ⟨n, h1, h2, h3⟩ := h
    exact ⟨n, h1, by omega, by omega⟩

theorem refreshOne_spec (w : World) (uid : String) (entry : Entry)
    (hget : Table.get w.otherPlayers uid = some entry) :
    ∃ w2 sp, attachSpriteForUserId
        { w with otherPlayers := Table.set w.otherPlayers uid { entry with sprite := none } } uid
        = w2 ∧
      Table.get w2.otherPlayers uid = some { entry with sprite := sp } ∧
      FreshOrNull (rendererReady w) w.nextSpriteId w2.nextSpriteId sp ∧
      (∀ k, k ≠ uid → Table.get w2.otherPlayers k = Table.get w.otherPlayers k) ∧
      Table.keys w2.otherPlayers = Table.keys w.otherPlayers ∧
      rendererReady w2 = rendererReady w ∧ w.nextSpriteId ≤ w2.nextSpriteId := by
  have hk : Table.keys (Table.set w.otherPlayers uid { entry with sprite := none }) =
      Table.keys w.otherPlayers := Table.keys_set_present _ _ _ _ hget
  cases hss : w.spriteset with
  | none =>
    refine ⟨_, none, rfl, ?_, ?_, ?_, ?_, ?_, ?_⟩
    · simp [attachSpriteForUserId, Table.get_set_self, hss]
    · simp [FreshOrNull, rendererReady, hss]
    · intro k hk2
      simp [attachSpriteForUserId, Table.get_set_self, hss, Table.get_set_other _ _ _ _ hk2]
    · simp [attachSpriteForUserId, Table.get_set_self, hss, hk]
    · simp [attachSpriteForUserId, Table.get_set_self, hss, rendererReady]
    · simp [attachSpriteForUserId, Table.get_set_self, hss]
  | some ss =>
    cases htm : ss.hasTilemap with
    | false =>
      refine ⟨_, none, rfl, ?_, ?_, ?_, ?_, ?_, ?_⟩
      · simp [attachSpriteForUserId, Table.get_set_self, hss, htm]
      · simp [FreshOrNull, rendererReady, hss, htm]
      · intro k hk2
        simp [attachSpriteForUserId, Table.get_set_self, hss, htm,
          Table.get_set_other _ _ _ _ hk2]
      · simp [attachSpriteForUserId, Table.get_set_self, hss, htm, hk]
      · simp [attachSpriteForUserId, Table.get_set_self, hss, htm, rendererReady]
      · simp [attachSpriteForUserId, Table.get_set_self, hss, htm]
    | true =>
      refine ⟨_, some w.nextSpriteId, rfl, ?_, ?_, ?_, ?_, ?_, ?_⟩
      · simp [attachSpriteForUserId, Table.get_set_self, hss, htm]
      · simp [FreshOrNull, rendererReady, hss, htm, attachSpriteForUserId, Table.get_set_self]
      · intro k hk2
        simp [attachSpriteForUserId, Table.get_set_self, hss, htm,
          Table.get_set_other _ _ _ _ hk2]
      · simp only [attachSpriteForUserId, Table.get_set_self, hss, htm]
        simp only [Option.isSome_none, Bool.false_eq_true, if_false, Bool.not_true]
        rw [Table.keys_set_present _ _ _ _ (Table.get_set_self _ _ _), hk]
      · simp [attachSpriteForUserId, Table.get_set_self, hss, htm, rendererReady]
      · simp [attachSpriteForUserId, Table.get_set_self, hss, htm]

theorem refreshLoop_spec (ks : List String) :
    ∀ w : World,
      Table.keys (refreshLoop ks w).otherPlayers = Table.keys w.otherPlayers ∧
      rendererReady (refreshLoop ks w) = rendererReady w ∧
      w.nextSpriteId ≤ (refreshLoop ks w).nextSpriteId ∧
      (∀ k, Table.get w.otherPlayers k = none →
        Table.get (refreshLoop ks w).otherPlayers k = none) ∧
      (∀ k e, Table.get w.otherPlayers k = some e →
        ∃ sp, Table.get (refreshLoop ks w).otherPlayers k = some { e with sprite := sp } ∧
          (k ∈ ks → FreshOrNull (rendererReady w) w.nextSpriteId
            (refreshLoop ks w).nextSpriteId sp) ∧
          (k ∉ ks → sp = e.sprite)) := by
  induction ks with
  | nil =>
    intro w
    exact ⟨rfl, rfl, le_refl _, fun _ h => h, fun k e h => ⟨e.sprite, h, by simp, fun _ => rfl⟩⟩
  | cons uid rest ih =>
    intro w
    cases hget : Table.get w.otherPlayers uid with
    | none =>
      have hrun : refreshLoop (uid :: rest) w = refreshLoop rest w := by
        simp only [refreshLoop, hget]
      rw [hrun]
      obtain ⟨h1, h2, h3, h4, h5⟩ := ih w
      refine ⟨h1, h2, h3, h4, fun k e hk => ?_⟩
      obtain ⟨sp, hsp, hin, hout⟩ := h5 k e hk
      have hne : k ≠ uid := by
        intro h; rw [h, hget] at hk; exact absurd hk (by simp)
      refine ⟨sp, hsp, fun hmem => hin ?_, fun hnot => hout ?_⟩
      · rcases List.mem_cons.1 hmem with h | h
        · exact absurd h hne
        · exact h
      · exact fun h => hnot (List.mem_cons_of_mem _ h)
    | some entry =>
      obtain ⟨w2, sp2, hw2, hself2, hfresh2, hother2, hkeys2, hready2, hnext2⟩ :=
        refreshOne_spec w uid entry hget
      have hrun : refreshLoop (uid :: rest) w = refreshLoop rest w2 := by
        simp only [refreshLoop, hget, hw2]
      rw [hrun]
      obtain ⟨h1, h2, h3, h4, h5⟩ := ih w2
      refine ⟨h1.trans hkeys2, h2.trans hready2, le_trans hnext2 h3, fun k hk => ?_,
        fun k e hk => ?_⟩
      · have hne : k ≠ uid := by
          intro h; rw [h, hget] at hk; exact absurd hk (by simp)
        exact h4 k (by rw [hother2 k hne]; exact hk)
      · by_cases hku : k = uid
        · subst hku
          rw [hget] at hk
          cases hk
          obtain ⟨sp, hsp, hin, hout⟩ := h5 k _ hself2
          refine ⟨sp, hsp, fun _ => ?_, fun hnot => absurd (List.mem_cons_self _ _) hnot⟩
          by_cases hmem : k ∈ rest
          · have := hin hmem
            rw [hready2] at this
            exact this.mono hnext2 (le_refl _)
          · have hsp2 : sp = sp2 := hout hmem
            rw [hsp2]
            exact hfresh2.mono (le_refl _) h3
        · obtain ⟨sp, hsp, hin, hout⟩ := h5 k e (by rw [hother2 k hku]; exact hk)
          refine ⟨sp, hsp, fun hmem => ?_, fun hnot => hout ?_⟩
          · rcases List.mem_cons.1 hmem with h | h
            · exact absurd h hku
            · have := hin h
              rw [hready2] at this
              exact this.mono hnext2 (le_refl _)
          · exact fun h => hnot (List.mem_cons_of_mem _ h)

theorem SameSession.refl (w : World) : SameSession w w := ⟨rfl, rfl, rfl, rfl, rfl⟩

theorem SameSession.trans {a b c : World} (h1 : SameSession a b) (h2 : SameSession b c) :
    SameSession a c :=
  ⟨h1.1.trans h2.1, h1.2.1.trans h2.2.1, h1.2.2.1.trans h2.2.2.1,
    h1.2.2.2.1.trans h2.2.2.2.1, h1.2.2.2.2.trans h2.2.2.2.2⟩

theorem attach_sameSession (w : World) (u : String) :
    SameSession (attachSpriteForUserId w u) w := by
  unfold attachSpriteForUserId
  repeat' split
  all_goals exact ⟨rfl, rfl, rfl, rfl, rfl⟩

theorem spawnNew_sameSession (w : World) (m : GameMap) (u : String) (x y : JsVal)
    (sk : Option String) : SameSession (spawnNew w m u x y sk) w := by
  unfold spawnNew
  exact (attach_sameSession _ u).trans ⟨rfl, rfl, rfl, rfl, rfl⟩

theorem spawnExisting_sameSession (w : World) (u : String) (e : Entry) (x y dir : JsVal)
    (sk : Option String) : SameSession (spawnExisting w u e x y dir sk) w := by
  unfold spawnExisting
  exact (attach_sameSession _ u).trans ⟨rfl, rfl, rfl, rfl, rfl⟩

theorem stepAndCorrect_sameSession (eng : Engine) (w : World) (u : String) (e : Entry)
    (d : PlayerData) : SameSession (stepAndCorrect eng w u e d) w := by
  unfold stepAndCorrect
  exact (attach_sameSession _ u).trans ⟨rfl, rfl, rfl, rfl, rfl⟩

theorem spawnPlayer_cases (w w1 : World) (p : Option PlayerData)
    (h : spawnPlayer w p = .ok w1) :
    w1 = w ∨
    ∃ d, p = some d ∧ (d.user_id.orElse d.id).isNullish = false ∧
      isSelf w (d.user_id.orElse d.id).toStr = false ∧
      ((∃ m x y sk, Table.get w.otherPlayers (d.user_id.orElse d.id).toStr = none ∧
          w1 = spawnNew w m (d.user_id.orElse d.id).toStr x y sk) ∨
       (∃ e0 x y dir sk, Table.get w.otherPlayers (d.user_id.orElse d.id).toStr = some e0 ∧
          w1 = spawnExisting w (d.user_id.orElse d.id).toStr e0 x y dir sk)) := by
  cases p with
  | none => left; cases h; rfl
  | some d =>
    by_cases huid : (d.user_id.orElse d.id).isNullish = true
    · left
      simp [spawnPlayer, huid] at h
      exact h.symm
    · simp only [Bool.not_eq_true] at huid
      by_cases hself : isSelf w (d.user_id.orElse d.id).toStr = true
      · left
        simp [spawnPlayer, huid, hself] at h
        exact h.symm
      · simp only [Bool.not_eq_true] at hself
        right
        refine ⟨d, rfl, huid, hself, ?_⟩
        cases hget : Table.get w.otherPlayers (d.user_id.orElse d.id).toStr with
        | none =>
          cases hm : w.gameMap with
          | none =>
            simp [spawnPlayer, huid, hself, hget, hm] at h
          | some m =>
            rw [spawnPlayer_absent w m d huid hself hget hm] at h
            cases h
            exact Or.inl ⟨m, _, _, _, rfl, rfl⟩
        | some e0 =>
          rw [spawnPlayer_present w d e0 huid hself hget] at h
          cases h
          exact Or.inr ⟨e0, _, _, _, _, rfl, rfl⟩

theorem spawnNew_get_other (w : World) (m : GameMap) (u k : String) (x y : JsVal)
    (sk : Option String) (hk : k ≠ u) :
    Table.get (spawnNew w m u x y sk).otherPlayers k = Table.get w.otherPlayers k := by
  unfold spawnNew
  simp only [getCharacter, GameMap.createNormalEventAt]
  rw [attach_get_other _ _ _ hk]
  exact Table.get_set_other _ _ _ _ hk

theorem spawnExisting_get_other (w : World) (u k : String) (e : Entry) (x y dir : JsVal)
    (sk : Option String) (hk : k ≠ u) :
    Table.get (spawnExisting w u e x y dir sk).otherPlayers k = Table.get w.otherPlayers k := by
  unfold spawnExisting
  simp only [getCharacter]
  rw [attach_get_other _ _ _ hk]
  exact Table.get_set_other _ _ _ _ hk

theorem stepAndCorrect_get_other (eng : Engine) (w : World) (u k : String) (e : Entry)
    (d : PlayerData) (hk : k ≠ u) :
    Table.get (stepAndCorrect eng w u e d).otherPlayers k = Table.get w.otherPlayers k := by
  unfold stepAndCorrect
  simp only
  rw [attach_get_other _ _ _ hk]
  exact Table.get_set_other _ _ _ _ hk

theorem ne_of_isSelf (w : World) (k u : String) (hk : isSelf w k = true)
    (hu : isSelf w u = false) : k ≠ u := by
  intro h
  rw [h, hu] at hk
  exact absurd hk (by simp)

theorem spawnPlayer_keeps_self (w w1 : World) (p : Option PlayerData)
    (h : spawnPlayer w p = .ok w1) :
    SameSession w1 w ∧
    ∀ k, isSelf w k = true → Table.get w1.otherPlayers k = Table.get w.otherPlayers k := by
  rcases spawnPlayer_cases w w1 p h with h1 | ⟨d, -, -, hself, h2 | h2⟩
  · subst h1; exact ⟨SameSession.refl _, fun _ _ => rfl⟩
  · obtain ⟨m, x, y, sk, -, hw⟩ := h2
    subst hw
    exact ⟨spawnNew_sameSession _ _ _ _ _ _,
      fun k hk => spawnNew_get_other _ _ _ _ _ _ _ (ne_of_isSelf w k _ hk hself)⟩
  · obtain ⟨e0, x, y, dir, sk, -, hw⟩ := h2
    subst hw
    exact ⟨spawnExisting_sameSession _ _ _ _ _ _ _,
      fun k hk => spawnExisting_get_other _ _ _ _ _ _ _ _ (ne_of_isSelf w k _ hk hself)⟩

theorem isSelf_of_sameSession {w1 w : World} (h : SameSession w1 w) (k : String) :
    isSelf w1 k = isSelf w k :=
  isSelf_congr w1 w k h.1

theorem spawnAll_keeps_self (ps : List (Option PlayerData)) :
    ∀ (w w1 : World), spawnAll ps w = .ok w1 →
      SameSession w1 w ∧
      ∀ k, isSelf w k = true → Table.get w1.otherPlayers k = Table.get w.otherPlayers k := by
  induction ps with
  | nil =>
    intro w w1 h
    cases h
    exact ⟨SameSession.refl _, fun _ _ => rfl⟩
  | cons p rest ih =>
    intro w w1 h
    simp only [spawnAll, bind, Except.bind] at h
    cases hs : spawnPlayer w p with
    | error e => rw [hs] at h; exact absurd h (by simp)
    | ok w0 =>
      rw [hs] at h
      obtain ⟨hs1, hs2⟩ := spawnPlayer_keeps_self w w0 p hs
      obtain ⟨hr1, hr2⟩ := ih w0 w1 h
      refine ⟨hr1.trans hs1, fun k hk => ?_⟩
      rw [hr2 k (by rw [isSelf_of_sameSession hs1]; exact hk), hs2 k hk]

theorem clearLoop_keeps (ks : List String) :
    ∀ (w w1 : World), clearLoop ks w = .ok w1 →
      SameSession w1 w ∧
      ∀ k, Table.get w.otherPlayers k = none → Table.get w1.otherPlayers k = none := by
  induction ks with
  | nil =>
    intro w w1 h
    cases h
    exact ⟨SameSession.refl _, fun _ hk => hk⟩
  | cons uid rest ih =>
    intro w w1 h
    cases hget : Table.get w.otherPlayers uid with
    | none =>
      simp only [clearLoop, hget] at h
      exact ih w w1 h
    | some entry =>
      cases hm : w.gameMap with
      | none => simp [clearLoop, hget, hm] at h
      | some m =>
        by_cases hst : m.eventAt entry.character.eventId = none
        · simp only [clearLoop, hget, hm, hst, if_true] at h
          exact ih w w1 h
        · simp only [clearLoop, hget, hm, hst, if_false] at h
          obtain ⟨h1, h2⟩ := ih _ w1 h
          refine ⟨h1.trans ⟨rfl, rfl, rfl, rfl, rfl⟩, fun k hk => h2 k ?_⟩
          by_cases hku : k = uid
          · subst hku; exact Table.get_del_self _ _
          · rw [Table.get_del_other _ _ _ hku]; exact hk

theorem movePlayer_keeps_self (eng : Engine) (w w1 : World) (p : Option PlayerData)
    (h : movePlayer eng w p = .ok w1) :
    SameSession w1 w ∧
    ∀ k, isSelf w k = true → Table.get w1.otherPlayers k = Table.get w.otherPlayers k := by
  cases p with
  | none => cases h; exact ⟨SameSession.refl _, fun _ _ => rfl⟩
  | some d =>
    by_cases huid : (d.user_id.orElse d.id).isNullish = true
    · simp [movePlayer, huid] at h
      subst h; exact ⟨SameSession.refl _, fun _ _ => rfl⟩
    · simp only [Bool.not_eq_true] at huid
      by_cases hself : isSelf w (d.user_id.orElse d.id).toStr = true
      · simp [movePlayer, huid, hself] at h
        subst h; exact ⟨SameSession.refl _, fun _ _ => rfl⟩
      · simp only [Bool.not_eq_true] at hself
        cases hget : Table.get w.otherPlayers (d.user_id.orElse d.id).toStr with
        | some e0 =>
          rw [movePlayer_present eng w d e0 huid hself hget] at h
          cases h
          exact ⟨stepAndCorrect_sameSession _ _ _ _ _,
            fun k hk => stepAndCorrect_get_other _ _ _ _ _ _ (ne_of_isSelf w k _ hk hself)⟩
        | none =>
          rw [movePlayer_absent eng w d huid hself hget] at h
          cases hs : spawnPlayer w (some d) with
          | error e => rw [hs] at h; exact absurd h (by simp [bind, Except.bind])
          | ok w0 =>
            rw [hs] at h
            obtain ⟨hs1, hs2⟩ := spawnPlayer_keeps_self w w0 (some d) hs
            have hself0 : isSelf w0 (d.user_id.orElse d.id).toStr = false :=
              (isSelf_of_sameSession hs1 _).trans hself
            have h2 : movePlayer eng w0 (some d) = .ok w1 := h
            cases hget0 : Table.get w0.otherPlayers (d.user_id.orElse d.id).toStr with
            | none =>
              rw [movePlayer_absent eng w0 d huid hself0 hget0] at h2
              rcases spawnPlayer_cases w w0 (some d) hs with hc | ⟨d2, hd2, -, -, hc | hc⟩
              · subst hc
                rw [hs] at h2
                -- the spawn left the state as it was, so the entry is still missing
                simp only [bind, Except.bind] at h2
                simp [movePlayer, huid, hself, hget, hs, bind, Except.bind] at h2
                subst h2
                exact ⟨SameSession.refl _, fun _ _ => rfl⟩
              · cases hd2
                obtain ⟨m, x, y, sk, -, hw0⟩ := hc
                obtain ⟨e, he, -⟩ := spawnNew_spec w m (d.user_id.orElse d.id).toStr x y sk hget
                rw [hw0, he] at hget0
                exact absurd hget0 (by simp)
              · cases hd2
                obtain ⟨e0, x, y, dir, sk, hpres, -⟩ := hc
                rw [hget] at hpres
                exact absurd hpres (by simp)
            | some e0 =>
              rw [movePlayer_present eng w0 d e0 huid hself0 hget0] at h2
              cases h2
              refine ⟨(stepAndCorrect_sameSession _ _ _ _ _).trans hs1, fun k hk => ?_⟩
              rw [stepAndCorrect_get_other _ _ _ _ _ _ (ne_of_isSelf w k _ hk hself), hs2 k hk]

theorem removePlayer_keeps (w w1 : World) (u : String) (h : removePlayer w u = .ok w1) :
    SameSession w1 w ∧
    ∀ k, Table.get w.otherPlayers k = none → Table.get w1.otherPlayers k = none := by
  unfold removePlayer at h
  split at h
  · cases h; exact ⟨SameSession.refl _, fun _ hk => hk⟩
  · split at h
    · exact absurd h (by simp)
    · exact absurd h (by simp)
    · split at h
      · cases h; exact ⟨SameSession.refl _, fun _ hk => hk⟩
      · cases h
        refine ⟨⟨rfl, rfl, rfl, rfl, rfl⟩, fun k hk => ?_⟩
        by_cases hku : k = u
        · subst hku; exact Table.get_del_self _ _
        · show Table.get (Table.del w.otherPlayers u) k = none
          rw [Table.get_del_other _ _ _ hku]; exact hk

theorem onUserLeft_keeps (w w1 : World) (data : Option UserLeft)
    (h : onUserLeft w data = .ok w1) :
    SameSession w1 w ∧
    ∀ k, Table.get w.otherPlayers k = none → Table.get w1.otherPlayers k = none := by
  unfold onUserLeft at h
  split at h
  · cases h; exact ⟨SameSession.refl _, fun _ hk => hk⟩
  · simp only at h
    split at h
    · exact removePlayer_keeps _ _ _ h
    · cases h; exact ⟨SameSession.refl _, fun _ hk => hk⟩

theorem onRoomState_keeps (w w1 : World) (data : Option RoomState)
    (h : onRoomState w data = .ok w1) :
    SameSession w1 w ∧
    ∀ k, isSelf w k = true → Table.get w.otherPlayers k = none →
      Table.get w1.otherPlayers k = none := by
  unfold onRoomState at h
  split at h
  · cases h; exact ⟨SameSession.refl _, fun _ _ hk => hk⟩
  · split at h
    · cases h; exact ⟨SameSession.refl _, fun _ _ hk => hk⟩
    · cases hc : clearOtherPlayers w with
      | error e => rw [hc] at h; exact absurd h (by simp [bind, Except.bind])
      | ok w0 =>
        rw [hc] at h
        obtain ⟨h1, h2⟩ := clearLoop_keeps _ w w0 hc
        obtain ⟨h3, h4⟩ := spawnAll_keeps_self _ w0 w1 h
        refine ⟨h3.trans h1, fun k hk hnone => ?_⟩
        rw [h4 k (by rw [isSelf_of_sameSession h1]; exact hk)]
        exact h2 k hnone

theorem onSkinChanged_skip (w : World) (d : SkinChanged)
    (h : d.guild_id.toStr ≠ w.currentGuildId.toStr ∨ isSelf w d.user_id.toStr = true ∨
      Table.get w.otherPlayers d.user_id.toStr = none) :
    onSkinChanged w (some d) = .ok w := by
  unfold onSkinChanged
  simp only
  by_cases hroom : d.guild_id.toStr = w.currentGuildId.toStr
  · rcases h with h | h | h
    · exact absurd hroom h
    · simp [hroom, h]
    · simp only [hroom, bne_self_eq_false, Bool.false_eq_true, if_false, h]
      split <;> rfl
  · simp [hroom]

theorem onSkinChanged_keeps (w w1 : World) (data : Option SkinChanged)
    (h : onSkinChanged w data = .ok w1) :
    SameSession w1 w ∧
    ∀ k, isSelf w k = true → Table.get w1.otherPlayers k = Table.get w.otherPlayers k := by
  cases data with
  | none => cases h; exact ⟨SameSession.refl _, fun _ _ => rfl⟩
  | some d =>
    by_cases hroom : d.guild_id.toStr = w.currentGuildId.toStr
    · by_cases hself : isSelf w d.user_id.toStr = true
      · rw [onSkinChanged_skip w d (Or.inr (Or.inl hself))] at h
        cases h; exact ⟨SameSession.refl _, fun _ _ => rfl⟩
      · cases hget : Table.get w.otherPlayers d.user_id.toStr with
        | none =>
          rw [onSkinChanged_skip w d (Or.inr (Or.inr hget))] at h
          cases h; exact ⟨SameSession.refl _, fun _ _ => rfl⟩
        | some e =>
          simp only [Bool.not_eq_true] at hself
          simp only [onSkinChanged, hroom, bne_self_eq_false, Bool.false_eq_true, if_false,
            hself, Bool.or_false, hget] at h
          split at h
          · cases h; exact ⟨SameSession.refl _, fun _ _ => rfl⟩
          · cases h
            exact ⟨⟨rfl, rfl, rfl, rfl, rfl⟩,
              fun k hk => Table.get_set_other _ _ _ _ (ne_of_isSelf w k _ hk hself)⟩
    · rw [onSkinChanged_skip w d (Or.inl hroom)] at h
      cases h; exact ⟨SameSession.refl _, fun _ _ => rfl⟩

theorem onMapEdited_keeps (w w1 : World) (data : Option TileEdit)
    (h : onMapEdited w data = .ok w1) :
    SameSession w1 w ∧ w1.otherPlayers = w.otherPlayers := by
  unfold onMapEdited at h
  split at h
  · cases h; exact ⟨SameSession.refl _, rfl⟩
  · split at h
    · exact absurd h (by simp)
    · cases h; exact ⟨⟨rfl, rfl, rfl, rfl, rfl⟩, rfl⟩

theorem setActivity_frame (w : World) (a b c : String) :
    SameSession (setActivity w a b c) w ∧ (setActivity w a b c).otherPlayers = w.otherPlayers := by
  unfold setActivity
  split <;> exact ⟨⟨rfl, rfl, rfl, rfl, rfl⟩, rfl⟩

theorem fetchMapData_frame (w : World) :
    SameSession (fetchMapData w) w ∧ (fetchMapData w).otherPlayers = w.otherPlayers := by
  unfold fetchMapData
  split
  · exact setActivity_frame w _ _ _
  · exact ⟨⟨rfl, rfl, rfl, rfl, rfl⟩, rfl⟩

theorem reserveTransfer_frame (w : World) (mapId : Nat) (x y : Int) (d fade : Nat) :
    SameSession (reserveTransfer w mapId x y d fade) w ∧
    (reserveTransfer w mapId x y d fade).otherPlayers = w.otherPlayers := by
  unfold reserveTransfer
  split <;> exact ⟨⟨rfl, rfl, rfl, rfl, rfl⟩, rfl⟩

theorem decideMapToLoad_frame (w : World) :
    SameSession (decideMapToLoad w) w ∧ (decideMapToLoad w).otherPlayers = w.otherPlayers := by
  unfold decideMapToLoad
  simp only
  split
  · exact ⟨(fetchMapData_frame _).1.trans (reserveTransfer_frame _ _ _ _ _ _).1,
      (fetchMapData_frame _).2.trans (reserveTransfer_frame _ _ _ _ _ _).2⟩
  · exact ⟨(fetchMapData_frame _).1.trans (reserveTransfer_frame _ _ _ _ _ _).1,
      (fetchMapData_frame _).2.trans (reserveTransfer_frame _ _ _ _ _ _).2⟩

theorem onError_frame (w w1 : World) (data : Option ErrorData) (h : onError w data = .ok w1) :
    w1.myUserId = w.myUserId ∧ w1.isEditMode = w.isEditMode ∧ w1.socket = w.socket ∧
    w1.otherPlayers = w.otherPlayers ∧
    ((w1.isWorldMap = w.isWorldMap ∧ w1.currentGuildId = w.currentGuildId) ∨
     (w1.isWorldMap = true ∧ w1.currentGuildId = .str "world")) := by
  unfold onError at h
  split at h
  · exact absurd h (by simp)
  · simp only at h
    split at h
    · cases h
      obtain ⟨⟨h1, h2, h3, h4, h5⟩, h6⟩ := decideMapToLoad_frame
        { w with consoleErrors := w.consoleErrors ++ ["Socket error"],
                 alerts := w.alerts ++ ["You must join this server to enter!"],
                 currentGuildId := .str "world", isWorldMap := true }
      exact ⟨h1, h2, h5, h6, Or.inr ⟨h3, h4⟩⟩
    · cases h
      exact ⟨rfl, rfl, rfl, rfl, Or.inl ⟨rfl, rfl⟩⟩

theorem onConnect_frame (w w1 : World) (h : onConnect w = .ok w1) :
    w1.myUserId = w.myUserId ∧ w1.isEditMode = w.isEditMode ∧
    w1.isWorldMap = w.isWorldMap ∧ w1.currentGuildId = w.currentGuildId ∧
    w1.otherPlayers = w.otherPlayers ∧
    ∃ s, w.socket = some s ∧
      w1.socket = some { s with connected := true, sent := s.sent ++ [.join w.currentGuildId] } := by
  unfold onConnect at h
  split at h
  · exact absurd h (by simp)
  · next s hs =>
    cases h
    exact ⟨rfl, rfl, rfl, rfl, rfl, s, hs, rfl⟩

theorem selfFree_of_frame {w w1 : World} (hinv : SelfFree w) (hmy : w1.myUserId = w.myUserId)
    (hreg : Table.get w.otherPlayers w.myUserId.toStr = none →
      Table.get w1.otherPlayers w.myUserId.toStr = none) :
    SelfFree w1 ∧ w1.myUserId.toStr = w.myUserId.toStr := by
  refine ⟨⟨by rw [hmy]; exact hinv.1, by rw [hmy]; exact hreg hinv.2⟩, by rw [hmy]⟩

theorem isSelf_own (w : World) (h : w.myUserId.truthy = true) :
    isSelf w w.myUserId.toStr = true := by
  simp [isSelf, h]

theorem step_socket_selfFree (eng : Engine) (w : World) (e : SocketEvent)
    (hinv : SelfFree w) (hk : KeepsLocalId w.myUserId.toStr e) :
    SelfFree (step eng w (.socket e)) ∧
    (step eng w (.socket e)).myUserId.toStr = w.myUserId.toStr := by
  have hown := isSelf_own w hinv.1
  unfold step
  cases hp : perform eng w (.socket e) with
  | error err => exact ⟨hinv, rfl⟩
  | ok w1 =>
    simp only
    cases e with
    | connect =>
      obtain ⟨h1, -, -, -, h5, -⟩ := onConnect_frame w w1 hp
      exact selfFree_of_frame hinv h1 (fun h => by rw [h5]; exact h)
    | joined data =>
      cases data with
      | none => exact absurd hp (by simp [perform, handleEvent, onJoined])
      | some d =>
        simp only [perform, handleEvent, onJoined] at hp
        cases hp
        obtain ⟨ht, hs⟩ := hk
        exact ⟨⟨ht, by show Table.get w.otherPlayers d.user_id.toStr = none; rw [hs]; exact hinv.2⟩,
          hs⟩
    | roomState data =>
      obtain ⟨h1, h2⟩ := onRoomState_keeps w w1 data hp
      exact selfFree_of_frame hinv h1.1 (h2 _ hown)
    | userJoined data =>
      obtain ⟨h1, h2⟩ := spawnPlayer_keeps_self w w1 data hp
      exact selfFree_of_frame hinv h1.1 (fun h => by rw [h2 _ hown]; exact h)
    | userLeft data =>
      obtain ⟨h1, h2⟩ := onUserLeft_keeps w w1 data hp
      exact selfFree_of_frame hinv h1.1 (h2 _)
    | userMoved data =>
      obtain ⟨h1, h2⟩ := movePlayer_keeps_self eng w w1 data hp
      exact selfFree_of_frame hinv h1.1 (fun h => by rw [h2 _ hown]; exact h)
    | skinChanged data =>
      obtain ⟨h1, h2⟩ := onSkinChanged_keeps w w1 data hp
      exact selfFree_of_frame hinv h1.1 (fun h => by rw [h2 _ hown]; exact h)
    | error data =>
      obtain ⟨h1, -, -, h4, -⟩ := onError_frame w w1 data hp
      exact selfFree_of_frame hinv h1 (fun h => by rw [h4]; exact h)
    | mapEdited data =>
      obtain ⟨h1, h2⟩ := onMapEdited_keeps w w1 data hp
      exact selfFree_of_frame hinv h1.1 (fun h => by rw [h2]; exact h)

theorem run_socket_selfFree (eng : Engine) (es : List SocketEvent) :
    ∀ w : World, SelfFree w → (∀ e ∈ es, KeepsLocalId w.myUserId.toStr e) →
      SelfFree (run eng w (es.map Action.socket)) ∧
      (run eng w (es.map Action.socket)).myUserId.toStr = w.myUserId.toStr := by
  induction es with
  | nil => intro w hinv _; exact ⟨hinv, rfl⟩
  | cons e rest ih =>
    intro w hinv hk
    obtain ⟨h1, h2⟩ := step_socket_selfFree eng w e hinv (hk e (List.mem_cons_self _ _))
    obtain ⟨h3, h4⟩ := ih (step eng w (.socket e)) h1
      (fun e2 he2 => by rw [h2]; exact hk e2 (List.mem_cons_of_mem _ he2))
    exact ⟨h3, h4.trans h2⟩

theorem applySpaceTiles_frame (w : World) :
    SameSession (applySpaceTiles w) w ∧ (applySpaceTiles w).otherPlayers = w.otherPlayers := by
  unfold applySpaceTiles
  split
  · simp only
    split
    · split <;> exact ⟨⟨rfl, rfl, rfl, rfl, rfl⟩, rfl⟩
    · exact ⟨⟨rfl, rfl, rfl, rfl, rfl⟩, rfl⟩
  · exact ⟨⟨rfl, rfl, rfl, rfl, rfl⟩, rfl⟩

theorem refreshLoop_sameSession (ks : List String) :
    ∀ w : World, SameSession (refreshLoop ks w) w := by
  induction ks with
  | nil => intro w; exact SameSession.refl w
  | cons uid rest ih =>
    intro w
    simp only [refreshLoop]
    split
    · exact ih w
    · exact (ih _).trans ((attach_sameSession _ uid).trans ⟨rfl, rfl, rfl, rfl, rfl⟩)

theorem onMapLoaded_sameSession (loaded : GameMap) (surface : Option Spriteset) (w : World) :
    SameSession (onMapLoaded loaded surface w) w := by
  unfold onMapLoaded refreshRemotePlayerSprites
  exact (refreshLoop_sameSession _ _).trans
    ((applySpaceTiles_frame _).1.trans ⟨rfl, rfl, rfl, rfl, rfl⟩)

theorem onSpaceTilesResponse_sameSession (w : World) (data : SpaceResponse) :
    SameSession (onSpaceTilesResponse w data) w := by
  unfold onSpaceTilesResponse
  split
  · exact ⟨rfl, rfl, rfl, rfl, rfl⟩
  · simp only
    split
    · exact (applySpaceTiles_frame _).1.trans ⟨rfl, rfl, rfl, rfl, rfl⟩
    · exact ⟨rfl, rfl, rfl, rfl, rfl⟩

theorem onServerInfoResponse_sameSession (w : World) (e n i : JsVal) :
    SameSession (onServerInfoResponse w e n i) w := by
  unfold onServerInfoResponse
  split
  · exact ⟨rfl, rfl, rfl, rfl, rfl⟩
  · exact (setActivity_frame _ _ _ _).1

theorem onKeydown_sameSession (w : World) (key : String) :
    SameSession (onKeydown w key) w := by
  unfold onKeydown
  simp only
  repeat' split
  all_goals exact ⟨rfl, rfl, rfl, rfl, rfl⟩

theorem noEditSent_congr {w1 w : World} (h : w1.socket = w.socket) :
    noEditSent w1 = noEditSent w := by
  simp [noEditSent, h]

theorem noEditSent_emit (w : World) (s : Socket) (e : OutEvent) (hs : w.socket = some s)
    (he : e.isEditMap = false) (h : noEditSent w = true) (w1 : World)
    (h1 : w1.socket = some (s.emit e)) : noEditSent w1 = true := by
  simp only [noEditSent, hs] at h
  simp only [noEditSent, h1, Socket.emit, List.all_append, h, Bool.true_and, List.all_cons,
    List.all_nil, Bool.and_true, he, Bool.not_false]

theorem emitIfConnected_frame (w : World) (e : OutEvent) :
    (emitIfConnected w e).myUserId = w.myUserId ∧
    (emitIfConnected w e).isEditMode = w.isEditMode ∧
    (emitIfConnected w e).isWorldMap = w.isWorldMap ∧
    (emitIfConnected w e).currentGuildId = w.currentGuildId ∧
    (e.isEditMap = false → noEditSent w = true → noEditSent (emitIfConnected w e) = true) := by
  unfold emitIfConnected
  split
  · next s hs =>
    split
    · exact ⟨rfl, rfl, rfl, rfl, fun he h => noEditSent_emit w s e hs he h _ rfl⟩
    · exact ⟨rfl, rfl, rfl, rfl, fun _ h => h⟩
  · exact ⟨rfl, rfl, rfl, rfl, fun _ h => h⟩

theorem leaveSpace_frame (w : World) :
    (leaveSpace w).isEditMode = w.isEditMode ∧
    (leaveSpace w).isWorldMap = true ∧ (leaveSpace w).currentGuildId = .str "world" ∧
    (noEditSent w = true → noEditSent (leaveSpace w) = true) := by
  cases hs : w.socket with
  | none =>
    cases hp : w.gamePlayer <;> cases hg : w.currentGuildId.truthy <;> cases hd : w.sdkReady <;>
      simp [leaveSpace, emitIfConnected, fetchMapData, setActivity, reserveTransfer, noEditSent,
        hs, hp, hg, hd]
  | some s =>
    cases hc : s.connected <;> cases hp : w.gamePlayer <;> cases hg : w.currentGuildId.truthy <;>
      cases hd : w.sdkReady <;>
      simp [leaveSpace, emitIfConnected, fetchMapData, setActivity, reserveTransfer, noEditSent,
        Socket.emit, OutEvent.isEditMap, hs, hp, hg, hd, hc]

theorem connectToSpace_frame (w : World) (g : JsVal) :
    (connectToSpace w g).isEditMode = w.isEditMode ∧
    (connectToSpace w g = w ∨ (connectToSpace w g).isWorldMap = false) ∧
    (noEditSent w = true → noEditSent (connectToSpace w g) = true) := by
  cases hgt : g.truthy
  · simp [connectToSpace, hgt]
  · cases hs : w.socket with
    | none =>
      cases hp : w.gamePlayer <;> cases hg : w.currentGuildId.truthy <;>
        simp [connectToSpace, emitIfConnected, fetchMapData, reserveTransfer, noEditSent,
          hs, hp, hg, hgt]
    | some s =>
      cases hc : s.connected <;> cases hp : w.gamePlayer <;> cases hg : w.currentGuildId.truthy <;>
        simp [connectToSpace, emitIfConnected, fetchMapData, reserveTransfer, noEditSent,
          Socket.emit, OutEvent.isEditMap, hs, hp, hg, hc, hgt]

theorem skinChosen_frame (w : World) (ok : Bool) (skinId : JsVal) :
    (skinChosen w ok skinId).isEditMode = w.isEditMode ∧
    (skinChosen w ok skinId).isWorldMap = w.isWorldMap ∧
    (skinChosen w ok skinId).currentGuildId = w.currentGuildId ∧
    (noEditSent w = true → noEditSent (skinChosen w ok skinId) = true) := by
  unfold skinChosen
  split
  · exact ⟨rfl, rfl, rfl, fun h => h⟩
  · obtain ⟨-, e2, e3, e4, e5⟩ := emitIfConnected_frame w (.skin_change w.currentGuildId skinId)
    exact ⟨e2, e3, e4, e5 rfl⟩

theorem selectRoom_frame (w : World) (i g : Option String) :
    (selectRoom w i g).isEditMode = w.isEditMode ∧ (selectRoom w i g).socket = w.socket ∧
    (RoomInv w → RoomInv (selectRoom w i g)) := by
  unfold selectRoom
  repeat' split
  all_goals first
    | exact ⟨rfl, rfl, fun h => h⟩
    | exact ⟨rfl, rfl, fun _ _ => rfl⟩
    | exact ⟨rfl, rfl, fun _ h => absurd h (by simp)⟩

theorem finishAuthentication_frame (w w1 : World) (ok : Bool) (token : JsVal)
    (h : finishAuthentication w ok token = .ok w1) :
    w1.isEditMode = w.isEditMode ∧ w1.isWorldMap = w.isWorldMap ∧
    w1.currentGuildId = w.currentGuildId ∧
    (noEditSent w = true → noEditSent w1 = true) := by
  unfold finishAuthentication at h
  split at h
  · cases h; exact ⟨rfl, rfl, rfl, fun h => h⟩
  · unfold connectSocket at h
    simp only at h
    split at h
    · simp only [bind, Except.bind] at h
      cases h
      obtain ⟨⟨-, d2, d3, d4, d5⟩, -⟩ := decideMapToLoad_frame
        { w with exploreAuthToken := token,
                 consoleErrors := w.consoleErrors ++ ["Socket.IO not loaded"] }
      exact ⟨d2, d3, d4, fun hn => by rw [noEditSent_congr d5]; exact hn⟩
    · split at h
      · simp only [bind, Except.bind] at h
        cases h
        obtain ⟨⟨-, d2, d3, d4, d5⟩, -⟩ := decideMapToLoad_frame
          { w with exploreAuthToken := token,
                   consoleErrors := w.consoleErrors ++ ["Missing exploreAuthToken"] }
        exact ⟨d2, d3, d4, fun hn => by rw [noEditSent_congr d5]; exact hn⟩
      · simp only [bind, Except.bind] at h
        cases h
        obtain ⟨⟨-, d2, d3, d4, d5⟩, -⟩ := decideMapToLoad_frame
          { w with exploreAuthToken := token,
                   socket := some { authToken := token, connected := false,
                                    handlersRegistered := true, sent := [] } }
        exact ⟨d2, d3, d4, fun _ => by rw [noEditSent_congr d5]; rfl⟩

theorem moveByInput_frame (w w1 : World) (f : InputFrame) (h : moveByInput w f = .ok w1) :
    w1.isEditMode = w.isEditMode ∧ w1.isWorldMap = w.isWorldMap ∧
    w1.currentGuildId = w.currentGuildId ∧
    (noEditSent w = true → noEditSent w1 = true) := by
  unfold moveByInput at h
  split at h
  · split at h
    · cases h; exact ⟨rfl, rfl, rfl, fun h => h⟩
    · simp only at h
      split at h
      · split at h
        · exact absurd h (by simp)
        · next s hs =>
          cases h
          exact ⟨rfl, rfl, rfl, fun hn => noEditSent_emit w s
            (OutEvent.move w.currentGuildId (.num (resolvedDirection f)) (.num f.x) (.num f.y)
              (.num f.realMoveSpeed) (.num f.moveFrequency)) hs rfl hn _ rfl⟩
      · cases h; exact ⟨rfl, rfl, rfl, fun h => h⟩
  · cases h; exact ⟨rfl, rfl, rfl, fun h => h⟩

theorem sceneMapUpdate_frame (w w1 : World) (t : Touch) (h : sceneMapUpdate w t = .ok w1) :
    w1.isEditMode = w.isEditMode ∧ w1.isWorldMap = w.isWorldMap ∧
    w1.currentGuildId = w.currentGuildId ∧
    (w.isEditMode = false → w1 = w) := by
  unfold sceneMapUpdate at h
  split at h
  · next hmode =>
    have hedit : w.isEditMode = true := by
      simp only [Bool.and_eq_true] at hmode; exact hmode.1
    have hno : w.isEditMode = false → w1 = w := fun hf => by
      rw [hedit] at hf; exact absurd hf (by simp)
    unfold updateEditorInput at h
    split at h
    · unfold placeTile at h
      split at h
      · exact absurd h (by simp)
      · split at h
        · cases h; exact ⟨rfl, rfl, rfl, hno⟩
        · simp only at h
          split at h <;> (cases h; exact ⟨rfl, rfl, rfl, hno⟩)
    · unfold pickTile at h
      split at h
      · exact absurd h (by simp)
      · split at h <;> (cases h; exact ⟨rfl, rfl, rfl, hno⟩)
    · cases h; exact ⟨rfl, rfl, rfl, hno⟩
  · cases h; exact ⟨rfl, rfl, rfl, fun _ => rfl⟩

theorem invariants_of_sameSession {w1 w : World} (h : SameSession w1 w) :
    w1.isEditMode = w.isEditMode ∧ (RoomInv w → RoomInv w1) ∧
    (w.isEditMode = false → noEditSent w = true → noEditSent w1 = true) := by
  obtain ⟨-, h2, h3, h4, h5⟩ := h
  refine ⟨h2, fun hr hw => ?_, fun _ hn => ?_⟩
  · rw [h4]; exact hr (by rw [← h3]; exact hw)
  · rw [noEditSent_congr h5]; exact hn

theorem perform_invariants (eng : Engine) (w w1 : World) (a : Action)
    (hp : perform eng w a = .ok w1) :
    w1.isEditMode = w.isEditMode ∧ (RoomInv w → RoomInv w1) ∧
    (w.isEditMode = false → noEditSent w = true → noEditSent w1 = true) := by
  cases a with
  | socket e =>
    cases e with
    | connect =>
      obtain ⟨-, h2, h3, h4, -, s, hs, hs1⟩ := onConnect_frame w w1 hp
      refine ⟨h2, fun hr hw => ?_, fun _ hn => ?_⟩
      · rw [h4]; exact hr (by rw [← h3]; exact hw)
      · simp only [noEditSent, hs] at hn
        simp only [noEditSent, hs1, List.all_append, hn, Bool.true_and, List.all_cons,
          List.all_nil, Bool.and_true]
        rfl
    | joined data =>
      cases data with
      | none => exact absurd hp (by simp [perform, handleEvent, onJoined])
      | some d =>
        simp only [perform, handleEvent, onJoined] at hp
        cases hp
        exact ⟨rfl, fun h => h, fun _ h => h⟩
    | roomState data => exact invariants_of_sameSession (onRoomState_keeps w w1 data hp).1
    | userJoined data => exact invariants_of_sameSession (spawnPlayer_keeps_self w w1 data hp).1
    | userLeft data => exact invariants_of_sameSession (onUserLeft_keeps w w1 data hp).1
    | userMoved data => exact invariants_of_sameSession (movePlayer_keeps_self eng w w1 data hp).1
    | skinChanged data => exact invariants_of_sameSession (onSkinChanged_keeps w w1 data hp).1
    | mapEdited data => exact invariants_of_sameSession (onMapEdited_keeps w w1 data hp).1
    | error data =>
      obtain ⟨-, h2, h3, -, h5⟩ := onError_frame w w1 data hp
      refine ⟨h2, fun hr hw => ?_, fun _ hn => by rw [noEditSent_congr h3]; exact hn⟩
      rcases h5 with ⟨h6, h7⟩ | ⟨-, h7⟩
      · rw [h7]; exact hr (by rw [← h6]; exact hw)
      · exact h7
  | selectRoom i g =>
    simp only [perform] at hp
    cases hp
    obtain ⟨h1, h2, h3⟩ := selectRoom_frame w i g
    exact ⟨h1, h3, fun _ hn => by rw [noEditSent_congr h2]; exact hn⟩
  | finishAuthentication ok token =>
    obtain ⟨h1, h2, h3, h4⟩ := finishAuthentication_frame w w1 ok token hp
    refine ⟨h1, fun hr hw => ?_, fun _ hn => h4 hn⟩
    rw [h3]; exact hr (by rw [← h2]; exact hw)
  | leaveSpace =>
    simp only [perform] at hp
    cases hp
    obtain ⟨h1, -, h3, h4⟩ := leaveSpace_frame w
    exact ⟨h1, fun _ _ => h3, fun _ hn => h4 hn⟩
  | connectToSpace g =>
    simp only [perform] at hp
    cases hp
    obtain ⟨h1, h2, h3⟩ := connectToSpace_frame w g
    refine ⟨h1, fun hr hw => ?_, fun _ hn => h3 hn⟩
    rcases h2 with h2 | h2
    · rw [h2] at hw ⊢; exact hr hw
    · rw [h2] at hw; exact absurd hw (by simp)
  | skinChosen ok skinId =>
    simp only [perform] at hp
    cases hp
    obtain ⟨h1, h2, h3, h4⟩ := skinChosen_frame w ok skinId
    refine ⟨h1, fun hr hw => ?_, fun _ hn => h4 hn⟩
    rw [h3]; exact hr (by rw [← h2]; exact hw)
  | serverInfoResponse e n i =>
    simp only [perform] at hp
    cases hp
    exact invariants_of_sameSession (onServerInfoResponse_sameSession w e n i)
  | spaceTilesResponse d =>
    simp only [perform] at hp
    cases hp
    exact invariants_of_sameSession (onSpaceTilesResponse_sameSession w d)
  | mapLoaded m s =>
    simp only [perform] at hp
    cases hp
    exact invariants_of_sameSession (onMapLoaded_sameSession m s w)
  | sceneUpdate t =>
    obtain ⟨h1, h2, h3, h4⟩ := sceneMapUpdate_frame w w1 t hp
    refine ⟨h1, fun hr hw => ?_, fun he hn => by rw [h4 he]; exact hn⟩
    rw [h3]; exact hr (by rw [← h2]; exact hw)
  | moveByInput f =>
    obtain ⟨h1, h2, h3, h4⟩ := moveByInput_frame w w1 f hp
    refine ⟨h1, fun hr hw => ?_, fun _ hn => h4 hn⟩
    rw [h3]; exact hr (by rw [← h2]; exact hw)
  | keydown k =>
    simp only [perform] at hp
    cases hp
    exact invariants_of_sameSession (onKeydown_sameSession w k)

theorem run_invariants (eng : Engine) (actions : List Action) :
    ∀ w : World,
      (run eng w actions).isEditMode = w.isEditMode ∧
      (RoomInv w → RoomInv (run eng w actions)) ∧
      (w.isEditMode = false → noEditSent w = true → noEditSent (run eng w actions) = true) := by
  induction actions with
  | nil => intro w; exact ⟨rfl, fun h => h, fun _ h => h⟩
  | cons a rest ih =>
    intro w
    have hstep : (step eng w a).isEditMode = w.isEditMode ∧ (RoomInv w → RoomInv (step eng w a)) ∧
        (w.isEditMode = false → noEditSent w = true → noEditSent (step eng w a) = true) := by
      unfold step
      cases hp : perform eng w a with
      | error e => exact ⟨rfl, fun h => h, fun _ h => h⟩
      | ok w1 => exact perform_invariants eng w w1 a hp
    obtain ⟨h1, h2, h3⟩ := hstep
    obtain ⟨i1, i2, i3⟩ := ih (step eng w a)
    exact ⟨i1.trans h1, fun hr => i2 (h2 hr), fun he hn => i3 (h1.trans he) (h3 he hn)⟩

end DiscordExplore

namespace DiscordExplore

/-! ## The claims -/

/-- C1: for a `user_moved` event whose user id is present and is not the local user id,
and whose x and y are numbers, `movePlayer` returns and the entry registered under
`String(user id)` has stored position exactly `(data.x, data.y)`, for every step function
`moveStraight` of the engine.  The map object must exist when the entity has to be
created first. -/
theorem movePlayer_stores_server_position (eng : Engine) (w : World) (d : PlayerData) (a b : Int)
    (huid : (d.user_id.orElse d.id).isNullish = false)
    (hself : isSelf w (d.user_id.orElse d.id).toStr = false)
    (hx : d.x = .num a) (hy : d.y = .num b)
    (hmap : Table.get w.otherPlayers (d.user_id.orElse d.id).toStr = none → w.gameMap ≠ none) :
    ∃ w1 e, movePlayer eng w (some d) = .ok w1 ∧
      Table.get w1.otherPlayers (d.user_id.orElse d.id).toStr = some e ∧
      e.character.x = .num a ∧ e.character.y = .num b := by
  cases hget : Table.get w.otherPlayers (d.user_id.orElse d.id).toStr with
  | some e0 =>
    obtain ⟨e, he, hex, hey, -, -⟩ := stepAndCorrect_spec eng w _ e0 d hget
    exact ⟨_, e, movePlayer_present eng w d e0 huid hself hget, he, hex.trans hx, hey.trans hy⟩
  | none =>
    cases hm : w.gameMap with
    | none => exact absurd hm (hmap hget)
    | some m =>
      obtain ⟨wS, e0, hs, he0, -, -, -, -, -, -, hmy, -⟩ :=
        spawnPlayer_unknown w m d huid hself hget hm
      have hself2 := (isSelf_congr wS w (d.user_id.orElse d.id).toStr hmy).trans hself
      obtain ⟨e, he, hex, hey, -, -⟩ := stepAndCorrect_spec eng wS _ e0 d he0
      refine ⟨_, e, ?_, he, hex.trans hx, hey.trans hy⟩
      rw [movePlayer_absent eng w d huid hself hget, hs]
      exact movePlayer_present eng wS d e0 huid hself2 he0

/-- Witness of C1: a blocked step for an unknown player "1" reported at (5, 4). -/
theorem movePlayer_stores_server_position_witness :
    ∃ w1 e, movePlayer blockedEngine sampleWorld (some (sampleMove "1" 8 5 4)) = .ok w1 ∧
      Table.get w1.otherPlayers "1" = some e ∧
      e.character.x = .num 5 ∧ e.character.y = .num 4 :=
  movePlayer_stores_server_position blockedEngine sampleWorld (sampleMove "1" 8 5 4) 5 4
    (by decide) (by decide) rfl rfl (by intro _; decide)

/-- C2: when the registry has no entry for the (non-local) user id of a `user_moved`
event that carries a numeric position, `movePlayer` returns with exactly one entry
added: the key list grows by that id alone, every other entry is untouched, the new
entry's stored position is the event's position, and the result is that of
`spawnPlayer(data)` followed by `movePlayer(data)`.  The map object must exist, since
the entity is created on it. -/
theorem movePlayer_unknown_spawns_then_moves (eng : Engine) (w : World) (m : GameMap)
    (d : PlayerData) (a b : Int)
    (huid : (d.user_id.orElse d.id).isNullish = false)
    (hself : isSelf w (d.user_id.orElse d.id).toStr = false)
    (habs : Table.get w.otherPlayers (d.user_id.orElse d.id).toStr = none)
    (hx : d.x = .num a) (hy : d.y = .num b)
    (hmap : w.gameMap = some m) :
    ∃ w1 e, movePlayer eng w (some d) = .ok w1 ∧
      Table.keys w1.otherPlayers = Table.keys w.otherPlayers ++ [(d.user_id.orElse d.id).toStr] ∧
      (∀ k, k ≠ (d.user_id.orElse d.id).toStr →
        Table.get w1.otherPlayers k = Table.get w.otherPlayers k) ∧
      Table.get w1.otherPlayers (d.user_id.orElse d.id).toStr = some e ∧
      e.character.x = .num a ∧ e.character.y = .num b ∧
      (spawnPlayer w (some d) >>= fun w2 => movePlayer eng w2 (some d)) = .ok w1 := by
  obtain ⟨wS, e0, hs, he0, -, -, -, -, hkeys0, hother0, hmy, -⟩ :=
    spawnPlayer_unknown w m d huid hself habs hmap
  have hself2 := (isSelf_congr wS w (d.user_id.orElse d.id).toStr hmy).trans hself
  obtain ⟨e, he, hex, hey, hkeys, hother⟩ := stepAndCorrect_spec eng wS _ e0 d he0
  have hrun : (spawnPlayer w (some d) >>= fun w2 => movePlayer eng w2 (some d)) =
      .ok (stepAndCorrect eng wS (d.user_id.orElse d.id).toStr e0 d) := by
    rw [hs]
    exact movePlayer_present eng wS d e0 huid hself2 he0
  refine ⟨_, e, (movePlayer_absent eng w d huid hself habs).trans hrun, ?_, ?_, he,
    hex.trans hx, hey.trans hy, hrun⟩
  · rw [hkeys, hkeys0]
  · intro k hk
    rw [hother k hk, hother0 k hk]

/-- Witness of C2: the unknown player "1" moves to (5, 4) in the sample session. -/
theorem movePlayer_unknown_spawns_then_moves_witness :
    ∃ w1 e, movePlayer blockedEngine sampleWorld (some (sampleMove "1" 8 5 4)) = .ok w1 ∧
      Table.keys w1.otherPlayers = Table.keys sampleWorld.otherPlayers ++ ["1"] ∧
      (∀ k, k ≠ "1" → Table.get w1.otherPlayers k = Table.get sampleWorld.otherPlayers k) ∧
      Table.get w1.otherPlayers "1" = some e ∧
      e.character.x = .num 5 ∧ e.character.y = .num 4 ∧
      (spawnPlayer sampleWorld (some (sampleMove "1" 8 5 4)) >>=
        fun w2 => movePlayer blockedEngine w2 (some (sampleMove "1" 8 5 4))) = .ok w1 :=
  movePlayer_unknown_spawns_then_moves blockedEngine sampleWorld sampleMap (sampleMove "1" 8 5 4)
    5 4 (by decide) (by decide) (by decide) rfl rfl rfl

/-- C3: a non-empty sequence of `spawnPlayer` calls that all carry the same user id
(through `user_id` or `id`, number or string, not the local id) returns, and the entry
for that id after the last call holds the character of the entry after the first call
(same event id); the later calls add no key, touch no other entry and leave the map's
event table as the first call left it.  When the id was unknown at the start, the
first call creates the character in a new slot of the event table, only that slot is
added, and the key list holds the id exactly once. -/
theorem spawnPlayer_same_id_single_entity (w : World) (m : GameMap) (u : String)
    (d : PlayerData) (ds : List PlayerData)
    (hall : ∀ p ∈ d :: ds,
      (p.user_id.orElse p.id).isNullish = false ∧ (p.user_id.orElse p.id).toStr = u)
    (hself : isSelf w u = false)
    (hmap : w.gameMap = some m) :
    ∃ w1 wn e1 en, spawnPlayer w (some d) = .ok w1 ∧ spawnAll (ds.map some) w1 = .ok wn ∧
      Table.get w1.otherPlayers u = some e1 ∧
      Table.get wn.otherPlayers u = some en ∧
      en.character.eventId = e1.character.eventId ∧
      Table.keys wn.otherPlayers = Table.keys w1.otherPlayers ∧
      (∀ k, k ≠ u → Table.get wn.otherPlayers k = Table.get w.otherPlayers k) ∧
      wn.gameMap = w1.gameMap ∧
      (Table.get w.otherPlayers u = none →
        e1.character.eventId = m.events.length ∧
        wn.gameMap = some { m with events := m.events ++ [some { erased := false }] } ∧
        (Table.keys wn.otherPlayers).count u = 1) := by
  obtain ⟨hd1, hd2⟩ := hall d (List.mem_cons_self _ _)
  subst hd2
  have hrest : ∀ p ∈ ds, (p.user_id.orElse p.id).isNullish = false ∧
      (p.user_id.orElse p.id).toStr = (d.user_id.orElse d.id).toStr :=
    fun q hq => hall q (List.mem_cons_of_mem _ hq)
  cases hget : Table.get w.otherPlayers (d.user_id.orElse d.id).toStr with
  | none =>
    obtain ⟨w1, e1, hs, he1, hid1, -, -, -, hk1, ho1, hmy1, hg1⟩ :=
      spawnPlayer_unknown w m d hd1 hself hget hmap
    have hself1 := (isSelf_congr w1 w _ hmy1).trans hself
    obtain ⟨wn, en, hsn, hen, hidn, hkn, hon, hgn⟩ :=
      spawnAll_same_id _ ds w1 e1 hrest hself1 he1
    refine ⟨w1, wn, e1, en, hs, hsn, he1, hen, hidn, hkn, ?_, hgn, ?_⟩
    · intro k hk
      rw [hon k hk, ho1 k hk]
    · intro _
      refine ⟨hid1, hgn.trans hg1, ?_⟩
      rw [hkn, hk1, List.count_append,
        List.count_eq_zero_of_not_mem ((Table.get_eq_none_iff _ _).1 hget)]
      simp
  | some e0 =>
    obtain ⟨w1, e1, hs, he1, -, -, hk1, ho1, hmy1, hg1⟩ :=
      spawnPlayer_known w d e0 hd1 hself hget
    have hself1 := (isSelf_congr w1 w _ hmy1).trans hself
    obtain ⟨wn, en, hsn, hen, hidn, hkn, hon, hgn⟩ :=
      spawnAll_same_id _ ds w1 e1 hrest hself1 he1
    refine ⟨w1, wn, e1, en, hs, hsn, he1, hen, hidn, hkn, ?_, hgn, ?_⟩
    · intro k hk
      rw [hon k hk, ho1 k hk]
    · intro h
      exact absurd h (by simp)

/-- Witness of C3: player "1" is announced three times, by `id` and by `user_id`. -/
theorem spawnPlayer_same_id_single_entity_witness :
    ∃ w1 wn e1 en, spawnPlayer sampleWorld (some (samplePlayer "1" 5 5)) = .ok w1 ∧
      spawnAll ([sampleMove "1" 2 6 6, samplePlayer "1" 7 7].map some) w1 = .ok wn ∧
      Table.get w1.otherPlayers "1" = some e1 ∧
      Table.get wn.otherPlayers "1" = some en ∧
      en.character.eventId = e1.character.eventId ∧
      Table.keys wn.otherPlayers = Table.keys w1.otherPlayers ∧
      (∀ k, k ≠ "1" → Table.get wn.otherPlayers k = Table.get sampleWorld.otherPlayers k) ∧
      wn.gameMap = w1.gameMap ∧
      (Table.get sampleWorld.otherPlayers "1" = none →
        e1.character.eventId = sampleMap.events.length ∧
        wn.gameMap = some { sampleMap with
          events := sampleMap.events ++ [some { erased := false }] } ∧
        (Table.keys wn.otherPlayers).count "1" = 1) :=
  spawnPlayer_same_id_single_entity sampleWorld sampleMap "1" (samplePlayer "1" 5 5)
    [sampleMove "1" 2 6 6, samplePlayer "1" 7 7] (by decide) (by decide) rfl

/-- C4: the code at the failing input.  The `user_left` handler has no self filter:
with local user "9" and an empty registry, `user_left` for "9" raises a TypeError in
`removePlayer`; and when an entry for "9" exists (spawned before `joined` arrived), the
same event deletes it.  The other three handlers do return with the state unchanged on
a self event. -/
theorem onUserLeft_self_raises_or_removes :
    onUserLeft sampleWorld (some (sampleLeft "9")) = .error .typeError ∧
    isSelf (registeredWorld "9") "9" = true ∧
    Table.keys (registeredWorld "9").otherPlayers = ["9"] ∧
    (onUserLeft (registeredWorld "9") (some (sampleLeft "9"))).map
      (fun w => Table.keys w.otherPlayers) = .ok [] ∧
    (∀ (eng : Engine) (w : World) (d : PlayerData),
      isSelf w (d.user_id.orElse d.id).toStr = true →
        onUserJoined w (some d) = .ok w ∧ onUserMoved eng w (some d) = .ok w) ∧
    (∀ (w : World) (d : SkinChanged),
      isSelf w d.user_id.toStr = true → onSkinChanged w (some d) = .ok w) := by
  refine ⟨rfl, rfl, rfl, rfl, fun eng w d hself => ?_, fun w d hself => ?_⟩
  · constructor
    · simp only [onUserJoined, spawnPlayer, hself, if_true]
      split <;> rfl
    · simp only [onUserMoved, movePlayer, hself, if_true]
      split <;> rfl
  · simp only [onSkinChanged, hself, Bool.or_true, if_true]
    split <;> rfl

/-- C5 as stated fails: the registry holds player "1" whose event is no longer in the
map's event table; a `room_state` for the current room with an empty player list
leaves the registry as it was, with "1" still in it. -/
theorem onRoomState_empty_list_keeps_orphan :
    onRoomState (orphanedWorld "1") (some { guild_id := .str "42", players := some [] }) =
      .ok (orphanedWorld "1") ∧
    Table.keys (orphanedWorld "1").otherPlayers = ["1"] :=
  ⟨rfl, rfl⟩

/-- C5, amended: for a `room_state` of the current room on an existing map, the handler
returns and the registry then has an entry for exactly the ids listed in `data.players`
(minus the local user id) and the prior ids whose event is missing from the map's event
table; so every prior entity whose event is still in the table and that is not listed
is removed, and with nothing listed and no such orphan the registry is empty. -/
theorem onRoomState_resync (w : World) (m : GameMap) (d : RoomState)
    (hmap : w.gameMap = some m)
    (hroom : d.guild_id.toStr = w.currentGuildId.toStr) :
    ∃ w1, onRoomState w (some d) = .ok w1 ∧
      (∀ k, (Table.get w1.otherPlayers k).isSome = true ↔
        (k ∈ listedIds w (d.players.getD []) ∨
          ∃ e, Table.get w.otherPlayers k = some e ∧ m.eventAt e.character.eventId = none)) ∧
      (listedIds w (d.players.getD []) = [] →
        (∀ k e, Table.get w.otherPlayers k = some e → m.eventAt e.character.eventId ≠ none) →
        w1.otherPlayers = []) := by
  obtain ⟨wc, hc, hmc, hmyc, hregc⟩ := clearOtherPlayers_spec w m hmap
  obtain ⟨wn, hn, -, -, hregn⟩ := spawnAll_spec (d.players.getD []) wc hmc
  have hiff : ∀ k, (Table.get wn.otherPlayers k).isSome = true ↔
      (k ∈ listedIds w (d.players.getD []) ∨
        ∃ e, Table.get w.otherPlayers k = some e ∧ m.eventAt e.character.eventId = none) := by
    intro k
    rw [hregn k, listedIds_congr wc w hmyc, hregc k]
    cases hget : Table.get w.otherPlayers k with
    | none => simp
    | some e =>
      by_cases hst : m.eventAt e.character.eventId = none <;> simp [hst]
  refine ⟨wn, ?_, hiff, fun hnone hlive => ?_⟩
  · simp only [onRoomState, hroom, bne_self_eq_false, Bool.false_eq_true, if_false, hc, bind,
      Except.bind]
    exact hn
  · apply Table.eq_nil_of_get_none
    intro k
    cases hget : Table.get wn.otherPlayers k with
    | none => rfl
    | some e1 =>
      have h := (hiff k).1 (by simp [hget])
      rw [hnone] at h
      rcases h with h | ⟨e, he, hst⟩
      · exact absurd h (by simp)
      · exact absurd hst (hlive k e he)

/-- Witness of C5, amended: the session with player "1" registered on a live event
receives a `room_state` that lists player "2" only. -/
theorem onRoomState_resync_witness :
    ∃ w1, onRoomState (registeredWorld "1")
        (some { guild_id := .num 42, players := some [some (samplePlayer "2" 7 7)] }) = .ok w1 ∧
      (∀ k, (Table.get w1.otherPlayers k).isSome = true ↔
        (k ∈ listedIds (registeredWorld "1") [some (samplePlayer "2" 7 7)] ∨
          ∃ e, Table.get (registeredWorld "1").otherPlayers k = some e ∧
            GameMap.eventAt { sampleMap with events := [some { erased := false }] }
              e.character.eventId = none)) ∧
      (listedIds (registeredWorld "1") [some (samplePlayer "2" 7 7)] = [] →
        (∀ k e, Table.get (registeredWorld "1").otherPlayers k = some e →
          GameMap.eventAt { sampleMap with events := [some { erased := false }] }
            e.character.eventId ≠ none) →
        w1.otherPlayers = []) :=
  onRoomState_resync (registeredWorld "1") { sampleMap with events := [some { erased := false }] }
    { guild_id := .num 42, players := some [some (samplePlayer "2" 7 7)] } rfl (by decide)

/-- C6: the code on an unknown user id.  `removePlayer` reads `entry.character` of the
missing entry, so for every non-empty id without an entry it raises a TypeError instead
of returning, and so does the `user_left` handler that calls it. -/
theorem removePlayer_unknown_raises (w : World) (uid : JsVal)
    (hid : uid.isNullish = false) (hne : uid.toStr ≠ "")
    (habs : Table.get w.otherPlayers uid.toStr = none) :
    removePlayer w uid.toStr = .error .typeError ∧
    onUserLeft w (some { user_id := uid, id := .undefined }) = .error .typeError := by
  have h : removePlayer w uid.toStr = .error .typeError := by
    simp only [removePlayer, beq_iff_eq, hne, if_false, habs]
    cases w.gameMap <;> rfl
  refine ⟨h, ?_⟩
  have hor : uid.orElse JsVal.undefined = uid := by simp [JsVal.orElse, hid]
  simp only [onUserLeft, hor, hid, Bool.not_false, if_true]
  exact h

/-- Witness of C6: `user_left` for the unknown user "5" in the sample session. -/
theorem removePlayer_unknown_raises_witness :
    removePlayer sampleWorld "5" = .error .typeError ∧
    onUserLeft sampleWorld (some { user_id := .str "5", id := .undefined }) =
      .error .typeError :=
  removePlayer_unknown_raises sampleWorld (.str "5") rfl (by decide) rfl

/-- C7 as stated fails: player "1" has an entry, its event id is no longer in the map's
event table, and `removePlayer` returns with the entry still registered. -/
theorem removePlayer_orphan_stays :
    removePlayer (orphanedWorld "1") "1" = .ok (orphanedWorld "1") ∧
    (Table.get (orphanedWorld "1").otherPlayers "1").isSome = true :=
  ⟨rfl, rfl⟩

/-- C7, amended: on an existing map, for a non-empty uid that has an entry whose event id
is present in the map's event table, `removePlayer` returns, the registry then has no
entry for uid and every other entry is unchanged; when the event id is missing from the
event table it returns with the state unchanged. -/
theorem removePlayer_removes_live_entry (w : World) (m : GameMap) (u : String) (e : Entry)
    (hmap : w.gameMap = some m) (hne : u ≠ "")
    (hget : Table.get w.otherPlayers u = some e) :
    (m.eventAt e.character.eventId ≠ none →
      ∃ w1, removePlayer w u = .ok w1 ∧ Table.get w1.otherPlayers u = none ∧
        ∀ k, k ≠ u → Table.get w1.otherPlayers k = Table.get w.otherPlayers k) ∧
    (m.eventAt e.character.eventId = none → removePlayer w u = .ok w) := by
  constructor
  · intro hlive
    refine ⟨{ w with gameMap := some (m.eraseEvent e.character.eventId),
                     otherPlayers := Table.del w.otherPlayers u }, ?_,
      Table.get_del_self w.otherPlayers u, fun k hk => Table.get_del_other w.otherPlayers u k hk⟩
    simp only [removePlayer, beq_iff_eq, hne, if_false, hmap, hget, hlive]
  · intro hst
    simp only [removePlayer, beq_iff_eq, hne, if_false, hmap, hget, hst, if_true]

/-- Witness of C7, amended: player "1" is registered on a live event. -/
theorem removePlayer_removes_live_entry_witness :
    (GameMap.eventAt { sampleMap with events := [some { erased := false }] }
        (sampleCharacter 0 5 5).eventId ≠ none →
      ∃ w1, removePlayer (registeredWorld "1") "1" = .ok w1 ∧
        Table.get w1.otherPlayers "1" = none ∧
        ∀ k, k ≠ "1" →
          Table.get w1.otherPlayers k = Table.get (registeredWorld "1").otherPlayers k) ∧
    (GameMap.eventAt { sampleMap with events := [some { erased := false }] }
        (sampleCharacter 0 5 5).eventId = none →
      removePlayer (registeredWorld "1") "1" = .ok (registeredWorld "1")) :=
  removePlayer_removes_live_entry (registeredWorld "1")
    { sampleMap with events := [some { erased := false }] } "1"
    { character := sampleCharacter 0 5 5, sprite := none, skin_id := none } rfl (by decide) rfl

/-- C8: the code on `error {message: "Membership required"}`, in every state.  The handler
returns, the room becomes 'world' and `isWorldMap` true, and the socket is left exactly
as it was: no `join` (and no `leave`) is emitted, unlike `leaveSpace`, which joins the
default room. -/
theorem onError_membership_required_emits_nothing (w : World) :
    ∃ w1, onError w (some { message := .str "Membership required" }) = .ok w1 ∧
      w1.currentGuildId = .str "world" ∧ w1.isWorldMap = true ∧ w1.socket = w.socket ∧
      ((leaveSpace connectedWorld).socket.map Socket.sent =
        some [.leave (.str "42"), .join (.str "world")]) := by
  refine ⟨_, rfl, ?_, ?_, ?_, rfl⟩
  all_goals
    simp only [decideMapToLoad, fetchMapData, reserveTransfer, setActivity, if_true]
    cases w.gamePlayer <;> cases w.sdkReady <;> rfl

/-- C9 as stated fails: with no tile grid, the edit of scenario D leaves the state as it
was, pending list included; after the map then loads, cell (3, 2, 0) was never written. -/
theorem onMapEdited_before_grid_is_lost :
    onMapEdited World.initial (some sampleEdit) = .ok World.initial ∧
    World.initial.pendingSpaceTiles = none ∧
    ((onMapLoaded sampleMap none World.initial).gameMap.bind
      fun g => g.tileAt (.num 3, .num 2, .num 0)) = none :=
  ⟨rfl, rfl, rfl⟩

/-- C9, amended: a `map_edited` event received while the tile grid does not exist is
dropped: the handler returns with the whole state unchanged, so nothing is queued; when
the map then loads, its grid is the loaded grid with only the fetched pending tile list
applied, in list order. -/
theorem onMapEdited_without_grid_drops (w : World) (d : Option TileEdit) (loaded : GameMap)
    (surface : Option Spriteset) (hno : w.gameMap = none) :
    onMapEdited w d = .ok w ∧
    (onMapLoaded loaded surface w).gameMap =
      some ((w.pendingSpaceTiles.getD []).foldl
        (fun g t => g.setNormalTile t.x t.y t.z t.tile_id.toNumber) loaded) := by
  refine ⟨by simp only [onMapEdited, hno], ?_⟩
  simp only [onMapLoaded, refreshRemotePlayerSprites, refreshLoop_gameMap, applySpaceTiles]
  cases w.pendingSpaceTiles with
  | none => rfl
  | some tiles =>
    simp only [Option.getD_some]
    cases surface with
    | none => rfl
    | some ss => cases hss : ss.hasTilemap <;> simp [hss]

/-- Witness of C9, amended: the edit of scenario D arrives before any map exists. -/
theorem onMapEdited_without_grid_drops_witness :
    onMapEdited World.initial (some sampleEdit) = .ok World.initial ∧
    (onMapLoaded sampleMap none World.initial).gameMap =
      some ((World.initial.pendingSpaceTiles.getD []).foldl
        (fun g t => g.setNormalTile t.x t.y t.z t.tile_id.toNumber) sampleMap) :=
  onMapEdited_without_grid_drops World.initial (some sampleEdit) sampleMap none rfl

/-- C10: on an existing grid, handling a `map_edited` event returns, handling the same
event again leaves the state as the first handling left it, and after handling it the
cell `(x, y, z)` holds `Number(tile_id)` while every other cell reads as before. -/
theorem onMapEdited_idempotent (w : World) (m : GameMap) (d : TileEdit)
    (hm : w.gameMap = some m) :
    ∃ w1 m1, onMapEdited w (some d) = .ok w1 ∧ onMapEdited w1 (some d) = .ok w1 ∧
      w1.gameMap = some m1 ∧
      m1.tileAt (d.x, d.y, d.z) = some d.tile_id.toNumber ∧
      (∀ c, c ≠ (d.x, d.y, d.z) → m1.tileAt c = m.tileAt c) ∧
      w1.otherPlayers = w.otherPlayers ∧ w1.pendingSpaceTiles = w.pendingSpaceTiles := by
  refine ⟨{ w with gameMap := some (m.setNormalTile d.x d.y d.z d.tile_id.toNumber) },
    m.setNormalTile d.x d.y d.z d.tile_id.toNumber, ?_, ?_, rfl, ?_, ?_, rfl, rfl⟩
  · simp only [onMapEdited, hm]
  · simp only [onMapEdited, GameMap.setNormalTile, Table.set_set_same]
  · exact Table.get_set_self _ _ _
  · intro c hc
    exact Table.get_set_other _ _ _ _ hc

/-- Witness of C10: the edit of scenario D on the sample map. -/
theorem onMapEdited_idempotent_witness :
    ∃ w1 m1, onMapEdited sampleWorld (some sampleEdit) = .ok w1 ∧
      onMapEdited w1 (some sampleEdit) = .ok w1 ∧
      w1.gameMap = some m1 ∧
      m1.tileAt (sampleEdit.x, sampleEdit.y, sampleEdit.z) = some sampleEdit.tile_id.toNumber ∧
      (∀ c, c ≠ (sampleEdit.x, sampleEdit.y, sampleEdit.z) → m1.tileAt c = sampleMap.tileAt c) ∧
      w1.otherPlayers = sampleWorld.otherPlayers ∧
      w1.pendingSpaceTiles = sampleWorld.pendingSpaceTiles :=
  onMapEdited_idempotent sampleWorld sampleMap sampleEdit rfl

/-- C11: a `room_state` event whose `guild_id`, compared as a string, differs from the
current room id, and a null payload, leave the whole state unchanged, the registry
included: nothing is cleared and nothing is spawned. -/
theorem onRoomState_ignores_other_room (w : World) (data : Option RoomState)
    (h : ∀ d, data = some d → d.guild_id.toStr ≠ w.currentGuildId.toStr) :
    onRoomState w data = .ok w := by
  cases data with
  | none => rfl
  | some d =>
    have hne := h d rfl
    simp [onRoomState, hne]

/-- Witness of C11: a snapshot for room "7" reaches the session that is in room "42". -/
theorem onRoomState_ignores_other_room_witness :
    onRoomState (registeredWorld "1")
      (some { guild_id := .str "7", players := some [some (samplePlayer "2" 7 7)] }) =
      .ok (registeredWorld "1") :=
  onRoomState_ignores_other_room (registeredWorld "1")
    (some { guild_id := .str "7", players := some [some (samplePlayer "2" 7 7)] })
    (by intro d hd; cases hd; decide)

/-- C12: a `skin_changed` event for the current room whose (non-empty) user id has an
entry and is not the local user returns, and sets that entry's `skin_id` to
`String(skin_id)`, or to null when `skin_id` is absent; the entry's character keeps its
identity, position and facing, its render handle is kept, the key list and every other
entry are unchanged, and so are the map and the room. -/
theorem onSkinChanged_updates_only_skin (w : World) (d : SkinChanged) (e : Entry)
    (hroom : d.guild_id.toStr = w.currentGuildId.toStr)
    (hne : d.user_id.toStr ≠ "")
    (hself : isSelf w d.user_id.toStr = false)
    (hget : Table.get w.otherPlayers d.user_id.toStr = some e) :
    ∃ w1 e1, onSkinChanged w (some d) = .ok w1 ∧
      Table.get w1.otherPlayers d.user_id.toStr = some e1 ∧
      e1.skin_id = (if d.skin_id.isNullish then none else some d.skin_id.toStr) ∧
      e1.character.x = e.character.x ∧ e1.character.y = e.character.y ∧
      e1.character.direction = e.character.direction ∧
      e1.character.eventId = e.character.eventId ∧
      e1.sprite = e.sprite ∧
      Table.keys w1.otherPlayers = Table.keys w.otherPlayers ∧
      (∀ k, k ≠ d.user_id.toStr → Table.get w1.otherPlayers k = Table.get w.otherPlayers k) ∧
      w1.gameMap = w.gameMap ∧ w1.currentGuildId = w.currentGuildId ∧
      w1.myUserId = w.myUserId := by
  let skin : Option String := if !d.skin_id.isNullish then some d.skin_id.toStr else none
  let e1 : Entry := { e with skin_id := skin, character := applySkinToCharacter w e.character skin }
  refine ⟨{ w with otherPlayers := Table.set w.otherPlayers d.user_id.toStr e1 }, e1,
    ?_, Table.get_set_self w.otherPlayers d.user_id.toStr _, ?_, ?_⟩
  · have hne2 : (d.user_id.toStr == "") = false := by simpa using hne
    simp only [onSkinChanged, hroom, bne_self_eq_false, Bool.false_eq_true, if_false,
      hne2, hself, Bool.or_self, hget]
  · show (if !d.skin_id.isNullish then some d.skin_id.toStr else none) = _
    cases d.skin_id.isNullish <;> rfl
  · refine ⟨rfl, rfl, rfl, rfl, rfl, Table.keys_set_present _ _ _ _ hget, ?_, rfl, rfl, rfl⟩
    intro k hk
    exact Table.get_set_other _ _ _ _ hk

/-- Witness of C12: player "1" of the sample session takes skin 3. -/
theorem onSkinChanged_updates_only_skin_witness :
    ∃ w1 e1, onSkinChanged (registeredWorld "1")
        (some { guild_id := .str "42", user_id := .str "1", skin_id := .num 3 }) = .ok w1 ∧
      Table.get w1.otherPlayers "1" = some e1 ∧
      e1.skin_id = some "3" ∧
      e1.character.x = (sampleCharacter 0 5 5).x ∧ e1.character.y = (sampleCharacter 0 5 5).y ∧
      e1.character.direction = (sampleCharacter 0 5 5).direction ∧
      e1.character.eventId = 0 ∧
      e1.sprite = none ∧
      Table.keys w1.otherPlayers = Table.keys (registeredWorld "1").otherPlayers ∧
      (∀ k, k ≠ "1" →
        Table.get w1.otherPlayers k = Table.get (registeredWorld "1").otherPlayers k) ∧
      w1.gameMap = (registeredWorld "1").gameMap ∧
      w1.currentGuildId = (registeredWorld "1").currentGuildId ∧
      w1.myUserId = (registeredWorld "1").myUserId :=
  onSkinChanged_updates_only_skin (registeredWorld "1")
    { guild_id := .str "42", user_id := .str "1", skin_id := .num 3 }
    { character := sampleCharacter 0 5 5, sprite := none, skin_id := none }
    (by decide) (by decide) (by decide) rfl

/-- C13: a `skin_changed` event whose `guild_id` mismatches the current room, or whose
`user_id` is the local session's user id, or whose `user_id` has no entry, returns with
the whole state unchanged: no entry is created and no `skin_id` changes. -/
theorem onSkinChanged_ignored (w : World) (d : SkinChanged)
    (h : d.guild_id.toStr ≠ w.currentGuildId.toStr ∨ isSelf w d.user_id.toStr = true ∨
      Table.get w.otherPlayers d.user_id.toStr = none) :
    onSkinChanged w (some d) = .ok w := by
  unfold onSkinChanged
  simp only
  by_cases hroom : d.guild_id.toStr = w.currentGuildId.toStr
  · rcases h with h | h | h
    · exact absurd hroom h
    · simp [hroom, h]
    · simp only [hroom, bne_self_eq_false, Bool.false_eq_true, if_false, h]
      split <;> rfl
  · simp [hroom]

/-- Witness of C13 (scenario E): the session of user "9", with user "9" wrongly present
in the registry, receives `skin_changed` for "9". -/
theorem onSkinChanged_ignored_witness :
    onSkinChanged (registeredWorld "9")
      (some { guild_id := .str "42", user_id := .str "9", skin_id := .num 3 }) =
      .ok (registeredWorld "9") :=
  onSkinChanged_ignored (registeredWorld "9")
    { guild_id := .str "42", user_id := .str "9", skin_id := .num 3 }
    (Or.inr (Or.inl (by decide)))

/-- C14 as stated fails: player "1" is registered when the session switches to room "7"
or leaves to the default room, and is still registered right after either call. -/
theorem room_switch_keeps_registry :
    Table.keys (connectToSpace (registeredWorld "1") (.str "7")).otherPlayers = ["1"] ∧
    Table.keys (leaveSpace (registeredWorld "1")).otherPlayers = ["1"] :=
  ⟨rfl, rfl⟩

/-- C14, amended: `connectToSpace` and `leaveSpace` leave the registry of remote entities
exactly as it was; the entities of the previous room stay registered after the switch. -/
theorem room_switch_leaves_registry (w : World) (guildId : JsVal) :
    (connectToSpace w guildId).otherPlayers = w.otherPlayers ∧
    (leaveSpace w).otherPlayers = w.otherPlayers := by
  constructor
  · unfold connectToSpace
    split
    · rfl
    · simp only [emitIfConnected_otherPlayers, fetchMapData_otherPlayers,
        reserveTransfer_otherPlayers]
      split
      · exact emitIfConnected_otherPlayers _ _
      · rfl
  · unfold leaveSpace
    simp only [emitIfConnected_otherPlayers, fetchMapData_otherPlayers,
      reserveTransfer_otherPlayers]
    split
    · exact emitIfConnected_otherPlayers _ _
    · rfl

/-- C15: in a connected state whose current room `old` is non-empty, `connectToSpace`
with a non-empty `guildId` emits exactly two socket events, `leave {guild_id: old}` and
then `join {guild_id: String(guildId)}`, and leaves the session's room id equal to
`String(guildId)`. -/
theorem connectToSpace_leave_then_join (w : World) (s : Socket) (guildId : JsVal)
    (hs : w.socket = some s) (hc : s.connected = true)
    (hold : w.currentGuildId.truthy = true) (hnew : guildId.truthy = true) :
    (connectToSpace w guildId).socket =
      some { s with sent := s.sent ++ [.leave w.currentGuildId, .join (.str guildId.toStr)] } ∧
    (connectToSpace w guildId).currentGuildId = .str guildId.toStr := by
  cases hp : w.gamePlayer <;>
    simp [connectToSpace, emitIfConnected, fetchMapData, reserveTransfer, hs, hc, hold, hnew,
      Socket.emit, hp]

/-- Witness of C15: the connected sample session in room "42" switches to room 7. -/
theorem connectToSpace_leave_then_join_witness :
    (connectToSpace connectedWorld (.num 7)).socket =
      some { (⟨.str "token", true, true, []⟩ : Socket) with
        sent := [] ++ [.leave connectedWorld.currentGuildId, .join (.str (JsVal.num 7).toStr)] } ∧
    (connectToSpace connectedWorld (.num 7)).currentGuildId = .str (JsVal.num 7).toStr :=
  connectToSpace_leave_then_join connectedWorld ⟨.str "token", true, true, []⟩ (.num 7)
    rfl rfl (by decide) (by decide)

/-- C16: on a transport `connect` event the handler returns and emits exactly one event,
a `join` whose `guild_id` is the session's room id when the event is handled; after a
room switch made while the socket was not connected, that is the new room, not the room
of the time the socket was created. -/
theorem onConnect_joins_current_room (w : World) (s : Socket) (hs : w.socket = some s) :
    (∃ w1 s1, onConnect w = .ok w1 ∧ w1.socket = some s1 ∧
      s1.sent = s.sent ++ [.join w.currentGuildId]) ∧
    (∀ guildId : JsVal, guildId.truthy = true → s.connected = false →
      ∃ w2 s2, onConnect (connectToSpace w guildId) = .ok w2 ∧ w2.socket = some s2 ∧
        s2.sent = s.sent ++ [.join (.str guildId.toStr)]) := by
  have key : ∀ (v : World) (t : Socket), v.socket = some t →
      ∃ w1 s1, onConnect v = .ok w1 ∧ w1.socket = some s1 ∧
        s1.sent = t.sent ++ [.join v.currentGuildId] := by
    intro v t ht
    refine ⟨{ v with socket := some (Socket.emit { t with connected := true }
      (.join v.currentGuildId)) }, Socket.emit { t with connected := true }
      (.join v.currentGuildId), ?_, rfl, rfl⟩
    simp only [onConnect, ht]
  constructor
  · exact key w s hs
  · intro guildId hg hc
    have h1 : (connectToSpace w guildId).socket = some s := by
      cases hp : w.gamePlayer <;>
        simp [connectToSpace, emitIfConnected, fetchMapData, reserveTransfer, hs, hc, hg, hp]
    have h2 : (connectToSpace w guildId).currentGuildId = .str guildId.toStr := by
      cases hp : w.gamePlayer <;>
        simp [connectToSpace, emitIfConnected, fetchMapData, reserveTransfer, hs, hc, hg, hp]
    obtain ⟨w2, s2, hrun, hsock, hsent⟩ := key _ s h1
    exact ⟨w2, s2, hrun, hsock, by rw [hsent, h2]⟩

/-- Witness of C16: the socket was created in room "42", the session then entered room
"7", and the transport connects. -/
theorem onConnect_joins_current_room_witness :
    (∃ w1 s1, onConnect connectingWorld = .ok w1 ∧ w1.socket = some s1 ∧
      s1.sent = freshSocket.sent ++ [.join connectingWorld.currentGuildId]) ∧
    (∀ guildId : JsVal, guildId.truthy = true → freshSocket.connected = false →
      ∃ w2 s2, onConnect (connectToSpace connectingWorld guildId) = .ok w2 ∧
        w2.socket = some s2 ∧ s2.sent = freshSocket.sent ++ [.join (.str guildId.toStr)]) :=
  onConnect_joins_current_room connectingWorld freshSocket rfl

/-- C17 as stated fails: with no token, `connectSocket` returns normally, having logged
one message; it raises nothing to its caller. -/
theorem connectSocket_without_token_returns :
    connectSocket World.initial =
      .ok { World.initial with consoleErrors := ["Missing exploreAuthToken"] } :=
  rfl

/-- C17, amended: when the token is absent (null or empty) and Socket.IO is loaded,
`connectSocket` opens no connection and registers no handler: it returns normally with
the state unchanged but for one logged message, so the socket handle stays as it was. -/
theorem connectSocket_without_token_is_silent (w : World)
    (hio : w.ioLoaded = true) (htok : w.exploreAuthToken.truthy = false) :
    connectSocket w =
      .ok { w with consoleErrors := w.consoleErrors ++ ["Missing exploreAuthToken"] } ∧
    ∀ w1, connectSocket w = .ok w1 → w1.socket = w.socket := by
  have h : connectSocket w =
      .ok { w with consoleErrors := w.consoleErrors ++ ["Missing exploreAuthToken"] } := by
    simp [connectSocket, hio, htok]
  refine ⟨h, fun w1 h1 => ?_⟩
  rw [h] at h1
  cases h1
  rfl

/-- Witness of C17, amended: the initial state, whose token is null. -/
theorem connectSocket_without_token_is_silent_witness :
    connectSocket World.initial =
      .ok { World.initial with
        consoleErrors := World.initial.consoleErrors ++ ["Missing exploreAuthToken"] } ∧
    ∀ w1, connectSocket World.initial = .ok w1 → w1.socket = World.initial.socket :=
  connectSocket_without_token_is_silent World.initial rfl rfl

/-- C18: with a pending tile list `L` on an existing grid `g`, `applySpaceTiles` leaves
the grid equal to the left-to-right fold over `L` of the tile write (tile id converted
with `Number`) starting from `g`, so the last edit of `L` holds its cell, and leaves the
pending list null; a second call right after changes nothing. -/
theorem applySpaceTiles_folds_then_clears (w : World) (g : GameMap) (L : List TileEdit)
    (hp : w.pendingSpaceTiles = some L) (hg : w.gameMap = some g) :
    (applySpaceTiles w).gameMap = some (L.foldl applyTile g) ∧
    (applySpaceTiles w).pendingSpaceTiles = none ∧
    applySpaceTiles (applySpaceTiles w) = applySpaceTiles w ∧
    (∀ L0 t, L = L0 ++ [t] →
      (L.foldl applyTile g).tileAt (t.x, t.y, t.z) = some t.tile_id.toNumber) := by
  obtain ⟨h1, h2⟩ := applySpaceTiles_result w g L hp hg
  refine ⟨h1, h2, ?_, ?_⟩
  · generalize applySpaceTiles w = v at h2
    simp only [applySpaceTiles, h2]
  · intro L0 t hL
    subst hL
    rw [List.foldl_append]
    exact Table.get_set_self _ _ _

/-- Witness of C18: two fetched edits of the same cell; the later one wins. -/
theorem applySpaceTiles_folds_then_clears_witness :
    (applySpaceTiles { sampleWorld with
        pendingSpaceTiles := some [{ sampleEdit with tile_id := .num 5 }, sampleEdit] }).gameMap =
      some ([{ sampleEdit with tile_id := .num 5 }, sampleEdit].foldl applyTile sampleMap) ∧
    (applySpaceTiles { sampleWorld with
        pendingSpaceTiles := some [{ sampleEdit with tile_id := .num 5 }, sampleEdit]
      }).pendingSpaceTiles = none ∧
    applySpaceTiles (applySpaceTiles { sampleWorld with
        pendingSpaceTiles := some [{ sampleEdit with tile_id := .num 5 }, sampleEdit] }) =
      applySpaceTiles { sampleWorld with
        pendingSpaceTiles := some [{ sampleEdit with tile_id := .num 5 }, sampleEdit] } ∧
    (∀ L0 t, [{ sampleEdit with tile_id := .num 5 }, sampleEdit] = L0 ++ [t] →
      ([{ sampleEdit with tile_id := .num 5 }, sampleEdit].foldl applyTile sampleMap).tileAt
        (t.x, t.y, t.z) = some t.tile_id.toNumber) :=
  applySpaceTiles_folds_then_clears _ sampleMap
    [{ sampleEdit with tile_id := .num 5 }, sampleEdit] rfl rfl

/-- C19 as stated fails: in a session that has no socket (the token was missing),
`placeTile` at the valid coordinate (3, 2) writes the cell and emits no event at all. -/
theorem placeTile_without_socket_emits_nothing :
    sampleMap.isValid 3 2 = true ∧ sampleWorld.socket = none ∧
    (placeTile sampleWorld 3 2).map
      (fun w => (w.gameMap.bind fun g => g.tileAt (.num 3, .num 2, .num 0), w.socket)) =
      .ok (some (.num 0), none) :=
  ⟨rfl, rfl, rfl⟩

/-- C19, amended: on an existing map, `placeTile` at a valid coordinate returns, writes
`currentTileId` at `(x, y, currentZ)`, touches no other cell, and, when a socket exists,
emits exactly one `edit_map` carrying the current room id and the x, y, z and tile id
written; with no socket it emits nothing.  At an invalid coordinate it changes nothing.
The scene reaches `placeTile` only in edit mode outside the world map. -/
theorem placeTile_writes_and_publishes (w : World) (m : GameMap) (x y : Int)
    (hm : w.gameMap = some m) :
    (m.isValid x y = true →
      ∃ w1 m1, placeTile w x y = .ok w1 ∧ w1.gameMap = some m1 ∧
        m1.tileAt (.num x, .num y, w.currentZ) = some w.currentTileId ∧
        (∀ c, c ≠ (.num x, .num y, w.currentZ) → m1.tileAt c = m.tileAt c) ∧
        (∀ s, w.socket = some s →
          w1.socket = some { s with sent := s.sent ++
            [.edit_map w.currentGuildId (.num x) (.num y) w.currentZ w.currentTileId] }) ∧
        (w.socket = none → w1.socket = none)) ∧
    (m.isValid x y = false → placeTile w x y = .ok w) ∧
    ((w.isEditMode && !w.isWorldMap) = false → ∀ t, sceneMapUpdate w t = .ok w) := by
  refine ⟨fun hv => ?_, fun hv => ?_, fun he t => ?_⟩
  · cases hs : w.socket with
    | none =>
      refine ⟨{ w with gameMap := some (m.setNormalTile (.num x) (.num y) w.currentZ
        w.currentTileId) }, m.setNormalTile (.num x) (.num y) w.currentZ w.currentTileId,
        ?_, rfl, Table.get_set_self _ _ _, fun c hc => Table.get_set_other _ _ _ _ hc,
        fun s h => ?_, fun _ => hs⟩
      · simp [placeTile, hm, hv, hs]
      · exact absurd h (by simp)
    | some s0 =>
      refine ⟨{ w with gameMap := some (m.setNormalTile (.num x) (.num y) w.currentZ
        w.currentTileId), socket := some (s0.emit (.edit_map w.currentGuildId (.num x) (.num y)
        w.currentZ w.currentTileId)) }, m.setNormalTile (.num x) (.num y) w.currentZ
        w.currentTileId, ?_, rfl, Table.get_set_self _ _ _,
        fun c hc => Table.get_set_other _ _ _ _ hc, fun s h => ?_, fun h => ?_⟩
      · simp [placeTile, hm, hv, hs]
      · cases h; rfl
      · exact absurd h (by simp)
  · simp [placeTile, hm, hv]
  · simp [sceneMapUpdate, he]

/-- Witness of C19, amended: the connected sample session places a tile at (3, 2). -/
theorem placeTile_writes_and_publishes_witness :
    (sampleMap.isValid 3 2 = true →
      ∃ w1 m1, placeTile connectedWorld 3 2 = .ok w1 ∧ w1.gameMap = some m1 ∧
        m1.tileAt (.num 3, .num 2, connectedWorld.currentZ) = some connectedWorld.currentTileId ∧
        (∀ c, c ≠ (.num 3, .num 2, connectedWorld.currentZ) → m1.tileAt c = sampleMap.tileAt c) ∧
        (∀ s, connectedWorld.socket = some s →
          w1.socket = some { s with sent := s.sent ++
            [.edit_map connectedWorld.currentGuildId (.num 3) (.num 2) connectedWorld.currentZ
              connectedWorld.currentTileId] }) ∧
        (connectedWorld.socket = none → w1.socket = none)) ∧
    (sampleMap.isValid 3 2 = false → placeTile connectedWorld 3 2 = .ok connectedWorld) ∧
    ((connectedWorld.isEditMode && !connectedWorld.isWorldMap) = false →
      ∀ t, sceneMapUpdate connectedWorld t = .ok connectedWorld) :=
  placeTile_writes_and_publishes connectedWorld sampleMap 3 2 rfl

/-- C20 as stated fails: a tile-list fetch is started in room "42", the session moves to
room "7", and the response for room "42" then arrives; its tile is written to the grid
of the session that is now in room "7". -/
theorem stale_tile_response_is_applied :
    (fetchMapData connectedWorld).requests = [.serverInfo "42", .spaceTiles "42"] ∧
    (connectToSpace (fetchMapData connectedWorld) (.str "7")).currentGuildId = .str "7" ∧
    ((onSpaceTilesResponse (connectToSpace (fetchMapData connectedWorld) (.str "7"))
        sampleResponse).gameMap.bind fun g => g.tileAt (.num 3, .num 2, .num 0)) =
      some (.num 17) ∧
    ((onSpaceTilesResponse { connectToSpace (fetchMapData connectedWorld) (.str "7") with
        gameMap := none } sampleResponse).pendingSpaceTiles) = some [sampleEdit] :=
  ⟨rfl, rfl, rfl, rfl⟩

/-- C20, amended: the continuation of the tile-list fetch never reads the room id: it
acts the same whatever the current room is when the response arrives.  A response
without an error assigns its tiles to the pending list and, when the map exists, applies
them to the current grid at once; only a response carrying an error is discarded. -/
theorem onSpaceTilesResponse_ignores_room (w : World) (room : JsVal) (resp : SpaceResponse) :
    onSpaceTilesResponse { w with currentGuildId := room } resp =
      { onSpaceTilesResponse w resp with currentGuildId := room } ∧
    (resp.error.truthy = false → w.gameMap = none →
      (onSpaceTilesResponse w resp).pendingSpaceTiles = some (resp.tiles.getD [])) ∧
    (resp.error.truthy = false → ∀ g, w.gameMap = some g →
      (onSpaceTilesResponse w resp).gameMap = some ((resp.tiles.getD []).foldl applyTile g) ∧
      (onSpaceTilesResponse w resp).pendingSpaceTiles = none) ∧
    (resp.error.truthy = true →
      (onSpaceTilesResponse w resp).pendingSpaceTiles = w.pendingSpaceTiles ∧
      (onSpaceTilesResponse w resp).gameMap = w.gameMap) := by
  refine ⟨?_, fun he hg => ?_, fun he g hg => ?_, fun he => ?_⟩
  · unfold onSpaceTilesResponse applySpaceTiles
    simp only
    repeat' split
    all_goals rfl
  · simp [onSpaceTilesResponse, he, hg]
  · have hp := applySpaceTiles_result { w with pendingSpaceTiles := some (resp.tiles.getD []) }
      g (resp.tiles.getD []) rfl hg
    simp only [onSpaceTilesResponse, he, Bool.false_eq_true, if_false, hg, Option.isSome_some,
      if_true]
    rw [hg] at hp
    exact hp
  · simp [onSpaceTilesResponse, he]

/-- C21: the code at the failing inputs.  A null payload makes the `error` handler
raise, and the `map_edited` handler too when the grid exists; a `user_moved` without x
and y is not dropped: the stored position of the entity becomes undefined; a
`user_moved` without direction still moves the entity to the given position.  A
`user_left` without a user id, a null `user_left`, and a null `map_edited` while no grid
exists are dropped with the state unchanged. -/
theorem malformed_events_raise_or_corrupt :
    onError sampleWorld none = .error .typeError ∧
    onMapEdited sampleWorld none = .error .typeError ∧
    positionOf (registeredWorld "1") "1" = some (.num 5, .num 5) ∧
    (movePlayer blockedEngine (registeredWorld "1") (some moveWithoutPosition)).map
      (fun w => positionOf w "1") = .ok (some (.undefined, .undefined)) ∧
    (movePlayer blockedEngine (registeredWorld "1") (some moveWithoutDirection)).map
      (fun w => positionOf w "1") = .ok (some (.num 6, .num 5)) ∧
    (∀ w : World, onUserLeft w (some { user_id := .undefined, id := .undefined }) = .ok w) ∧
    (∀ w : World, onUserLeft w none = .ok w) ∧
    (∀ w : World, w.gameMap = none → onMapEdited w none = .ok w) := by
  refine ⟨rfl, rfl, rfl, rfl, rfl, fun w => rfl, fun w => rfl, fun w h => ?_⟩
  simp only [onMapEdited, h]

/-- C26: the code with no socket.  When the player can move and the resolved direction
is positive, `moveByInput` calls `socket.emit` on the null socket and raises a
TypeError; with a socket it returns and emits exactly one `move` carrying the room id,
the direction and the position, speed and frequency after the step; when the direction
is not positive it returns with the state unchanged. -/
theorem moveByInput_without_socket_raises (w : World) (f : InputFrame)
    (hfree : f.isMoving = false ∧ f.canMove = true ∧ f.triggerAction = false) :
    (w.socket = none → 0 < resolvedDirection f → moveByInput w f = .error .typeError) ∧
    (∀ s, w.socket = some s → 0 < resolvedDirection f →
      moveByInput w f = .ok { w with socket := some { s with sent := s.sent ++
        [.move w.currentGuildId (.num (resolvedDirection f)) (.num f.x) (.num f.y)
          (.num f.realMoveSpeed) (.num f.moveFrequency)] } }) ∧
    (resolvedDirection f ≤ 0 → moveByInput w f = .ok w) := by
  obtain ⟨h1, h2, h3⟩ := hfree
  refine ⟨fun hs hd => ?_, fun s hs hd => ?_, fun hd => ?_⟩
  · simp [moveByInput, h1, h2, h3, hd, hs]
  · simp [moveByInput, h1, h2, h3, hd, hs, Socket.emit]
  · have : ¬ (0 < resolvedDirection f) := not_lt.mpr hd
    simp [moveByInput, h1, h2, h3, this]

/-- Witness of C26: the sample session has no socket and the player walks down. -/
theorem moveByInput_without_socket_raises_witness :
    (sampleWorld.socket = none → 0 < resolvedDirection walkingFrame →
      moveByInput sampleWorld walkingFrame = .error .typeError) ∧
    (∀ s, sampleWorld.socket = some s → 0 < resolvedDirection walkingFrame →
      moveByInput sampleWorld walkingFrame =
        .ok { sampleWorld with socket := some { s with sent := s.sent ++
          [.move sampleWorld.currentGuildId (.num (resolvedDirection walkingFrame))
            (.num walkingFrame.x) (.num walkingFrame.y) (.num walkingFrame.realMoveSpeed)
            (.num walkingFrame.moveFrequency)] } }) ∧
    (resolvedDirection walkingFrame ≤ 0 → moveByInput sampleWorld walkingFrame = .ok sampleWorld) :=
  moveByInput_without_socket_raises sampleWorld walkingFrame ⟨rfl, rfl, rfl⟩

/-- C29: the `map_edited` handler never reads `guild_id`: an edit tagged with any room id
is handled exactly as the same edit tagged with any other, and on an existing grid it
writes `Number(tile_id)` at `(x, y, z)` whatever the current room is; the `room_state`
and `skin_changed` handlers do compare and ignore an event of another room. -/
theorem onMapEdited_ignores_guild_id (w : World) (d : TileEdit) (g1 g2 : JsVal) :
    onMapEdited w (some { d with guild_id := g1 }) =
      onMapEdited w (some { d with guild_id := g2 }) ∧
    (∀ m, w.gameMap = some m →
      onMapEdited w (some { d with guild_id := g1 }) =
        .ok { w with gameMap := some (m.setNormalTile d.x d.y d.z d.tile_id.toNumber) }) ∧
    (∀ r : RoomState, r.guild_id.toStr ≠ w.currentGuildId.toStr →
      onRoomState w (some r) = .ok w) ∧
    (∀ k : SkinChanged, k.guild_id.toStr ≠ w.currentGuildId.toStr →
      onSkinChanged w (some k) = .ok w) := by
  refine ⟨?_, fun m hm => ?_, fun r hr => ?_, fun k hk => ?_⟩
  · simp only [onMapEdited]
  · simp only [onMapEdited, hm]
  · simp [onRoomState, hr]
  · simp [onSkinChanged, hk]

/-- C24: after `movePlayer` on an existing non-self entity, for a step that turns the
character whether or not the tile is passable, the entity's facing equals the event's
direction, its move speed and move frequency equal the event's
`moveSpeed` and `moveFrequency`, and its stored position is the event's position. -/
theorem movePlayer_faces_event_direction (passable : Character → JsVal → Bool) (w : World)
    (d : PlayerData) (e0 : Entry)
    (huid : (d.user_id.orElse d.id).isNullish = false)
    (hself : isSelf w (d.user_id.orElse d.id).toStr = false)
    (hget : Table.get w.otherPlayers (d.user_id.orElse d.id).toStr = some e0) :
    ∃ w1 e, movePlayer (stepEngine passable) w (some d) = .ok w1 ∧
      Table.get w1.otherPlayers (d.user_id.orElse d.id).toStr = some e ∧
      e.character.direction = d.direction ∧
      e.character.moveSpeed = d.moveSpeed ∧
      e.character.moveFrequency = d.moveFrequency ∧
      e.character.x = d.x ∧ e.character.y = d.y := by
  obtain ⟨e, he, hx, hy, hd, hs, hf⟩ :=
    stepAndCorrect_fields (stepEngine passable) w (d.user_id.orElse d.id).toStr e0 d
  obtain ⟨h1, h2, h3⟩ := stepEngine_moveStraight passable
    ((e0.character.setMoveSpeed d.moveSpeed).setMoveFrequency d.moveFrequency) d.direction
  exact ⟨_, e, movePlayer_present _ w d e0 huid hself hget, he, hd.trans h1,
    hs.trans h2, hf.trans h3, hx, hy⟩

/-- Witness of C24 (scenario B): player "1" stands at (5, 5) facing down (2) and is
reported moving up (8) to (5, 4). -/
theorem movePlayer_faces_event_direction_witness :
    ∃ w1 e, movePlayer (stepEngine fun _ _ => true) (registeredWorld "1")
        (some (sampleMove "1" 8 5 4)) = .ok w1 ∧
      Table.get w1.otherPlayers "1" = some e ∧
      e.character.direction = .num 8 ∧
      e.character.moveSpeed = .num 4 ∧
      e.character.moveFrequency = .num 3 ∧
      e.character.x = .num 5 ∧ e.character.y = .num 4 :=
  movePlayer_faces_event_direction (fun _ _ => true) (registeredWorld "1")
    (sampleMove "1" 8 5 4) { character := sampleCharacter 0 5 5, sprite := none, skin_id := none }
    (by decide) (by decide) rfl

/-- C30: when `spawnPlayer` creates the entity (unknown id, existing map) it places it at
`(Number(user.x ?? 11), Number(user.y ?? 11))`, so at (11, 11) when the record has no
coordinates, facing the constant direction 8 whatever `user.direction` is; when the
entity exists it sets the facing to `Number(user.direction)` when `user.direction` is
present and that number is finite, and else keeps it, and it relocates to
`(Number(user.x ?? 11), Number(user.y ?? 11))` only when both numbers are finite. -/
theorem spawnPlayer_creation_and_update (w : World) (d : PlayerData)
    (huid : (d.user_id.orElse d.id).isNullish = false)
    (hself : isSelf w (d.user_id.orElse d.id).toStr = false) :
    (∀ m, w.gameMap = some m →
      Table.get w.otherPlayers (d.user_id.orElse d.id).toStr = none →
      ∃ w1 e, spawnPlayer w (some d) = .ok w1 ∧
        Table.get w1.otherPlayers (d.user_id.orElse d.id).toStr = some e ∧
        e.character.x = (d.x.orElse (.num 11)).toNumber ∧
        e.character.y = (d.y.orElse (.num 11)).toNumber ∧
        e.character.direction = .num 8 ∧
        (d.x.isNullish = true → e.character.x = .num 11) ∧
        (d.y.isNullish = true → e.character.y = .num 11)) ∧
    (∀ e0, Table.get w.otherPlayers (d.user_id.orElse d.id).toStr = some e0 →
      ∃ w1 e, spawnPlayer w (some d) = .ok w1 ∧
        Table.get w1.otherPlayers (d.user_id.orElse d.id).toStr = some e ∧
        e.character.direction =
          (if (!d.direction.isNullish && d.direction.toNumber.isFiniteNumber) = true
           then d.direction.toNumber else e0.character.direction) ∧
        e.character.x =
          (if ((d.x.orElse (.num 11)).toNumber.isFiniteNumber &&
               (d.y.orElse (.num 11)).toNumber.isFiniteNumber) = true
           then (d.x.orElse (.num 11)).toNumber else e0.character.x) ∧
        e.character.y =
          (if ((d.x.orElse (.num 11)).toNumber.isFiniteNumber &&
               (d.y.orElse (.num 11)).toNumber.isFiniteNumber) = true
           then (d.y.orElse (.num 11)).toNumber else e0.character.y)) := by
  constructor
  · intro m hm habs
    obtain ⟨w1, e, hs, he, -, hx, hy, hd, -⟩ := spawnPlayer_unknown w m d huid hself habs hm
    refine ⟨w1, e, hs, he, hx, hy, hd, fun h => ?_, fun h => ?_⟩
    · rw [hx]; simp [JsVal.orElse, h, JsVal.toNumber]
    · rw [hy]; simp [JsVal.orElse, h, JsVal.toNumber]
  · intro e0 hget
    obtain ⟨e, he, hd, hx, hy⟩ := spawnExisting_fields w (d.user_id.orElse d.id).toStr e0
      (d.x.orElse (.num 11)).toNumber (d.y.orElse (.num 11)).toNumber
      (if !d.direction.isNullish then d.direction.toNumber else .null)
      (if !d.skin_id.isNullish then some d.skin_id.toStr else none)
    refine ⟨_, e, spawnPlayer_present w d e0 huid hself hget, he, ?_, hx, hy⟩
    rw [hd]
    cases hn : d.direction.isNullish
    · simp [JsVal.toNumber_isNullish]
    · simp [JsVal.isNullish]

/-- Witness of C30: a record for the unknown player "3" that carries no coordinates and
direction 4. -/
theorem spawnPlayer_creation_and_update_witness :
    ∃ w1 e, spawnPlayer sampleWorld (some { samplePlayer "3" 0 0 with
        x := .undefined, y := .undefined, direction := .num 4 }) = .ok w1 ∧
      Table.get w1.otherPlayers "3" = some e ∧
      e.character.x = .num 11 ∧ e.character.y = .num 11 ∧ e.character.direction = .num 8 :=
  let h := (spawnPlayer_creation_and_update sampleWorld
    { samplePlayer "3" 0 0 with x := .undefined, y := .undefined, direction := .num 4 }
    (by decide) (by decide)).1 sampleMap rfl (by decide)
  match h with
  | ⟨w1, e, hs, he, hx, hy, hd, _, _⟩ => ⟨w1, e, hs, he, hx, hy, hd⟩

/-- C23: from an empty registry on an existing map, a `room_state` for the current room
returns; the registry then has an entry for exactly the listed ids that `spawnPlayer`
accepts (present and not the local id), and every accepted record whose id is listed
once has its entity at `(Number(x ?? 11), Number(y ?? 11))`, its listed coordinates,
facing 8. -/
theorem onRoomState_from_empty_registry (w : World) (m : GameMap) (d : RoomState)
    (hempty : w.otherPlayers = []) (hmap : w.gameMap = some m)
    (hroom : d.guild_id.toStr = w.currentGuildId.toStr) :
    ∃ w1, onRoomState w (some d) = .ok w1 ∧
      (∀ k, (Table.get w1.otherPlayers k).isSome = true ↔ k ∈ listedIds w (d.players.getD [])) ∧
      (∀ p, some p ∈ d.players.getD [] →
        (p.user_id.orElse p.id).isNullish = false →
        isSelf w (p.user_id.orElse p.id).toStr = false →
        (listedIds w (d.players.getD [])).count (p.user_id.orElse p.id).toStr = 1 →
        ∃ e, Table.get w1.otherPlayers (p.user_id.orElse p.id).toStr = some e ∧
          e.character.x = (p.x.orElse (.num 11)).toNumber ∧
          e.character.y = (p.y.orElse (.num 11)).toNumber ∧
          e.character.direction = .num 8) := by
  have hm : w.gameMap.isSome = true := by simp [hmap]
  have hclear : clearOtherPlayers w = .ok w := by
    simp [clearOtherPlayers, hempty, Table.keys, clearLoop]
  have hnone : ∀ k, Table.get w.otherPlayers k = none := by
    intro k; rw [hempty]; rfl
  obtain ⟨wn, hn, -, -, hiff⟩ := spawnAll_spec (d.players.getD []) w hm
  refine ⟨wn, ?_, fun k => ?_, fun p hp huid hself hcount => ?_⟩
  · simp only [onRoomState, hroom, bne_self_eq_false, Bool.false_eq_true, if_false, hclear,
      bind, Except.bind]
    exact hn
  · rw [hiff k, hnone k]; simp
  · obtain ⟨wn2, e, hn2, he, hx, hy, hd⟩ :=
      spawnAll_creates (d.players.getD []) w p hm hp huid hself (hnone _) hcount
    rw [hn] at hn2
    cases hn2
    exact ⟨e, he, hx, hy, hd⟩

/-- Witness of C23 (scenario A): local user "9", empty registry, players "1" at (5, 5)
and "2" at (7, 7). -/
theorem onRoomState_from_empty_registry_witness :
    (∃ w1, onRoomState sampleWorld (some scenarioA) = .ok w1 ∧
      (∀ k, (Table.get w1.otherPlayers k).isSome = true ↔
        k ∈ listedIds sampleWorld (scenarioA.players.getD [])) ∧
      (∀ p, some p ∈ scenarioA.players.getD [] →
        (p.user_id.orElse p.id).isNullish = false →
        isSelf sampleWorld (p.user_id.orElse p.id).toStr = false →
        (listedIds sampleWorld (scenarioA.players.getD [])).count
          (p.user_id.orElse p.id).toStr = 1 →
        ∃ e, Table.get w1.otherPlayers (p.user_id.orElse p.id).toStr = some e ∧
          e.character.x = (p.x.orElse (.num 11)).toNumber ∧
          e.character.y = (p.y.orElse (.num 11)).toNumber ∧
          e.character.direction = .num 8)) ∧
    (onRoomState sampleWorld (some scenarioA)).map
      (fun w => (Table.keys w.otherPlayers, positionOf w "1", positionOf w "2")) =
      .ok (["1", "2"], some (.num 5, .num 5), some (.num 7, .num 7)) :=
  ⟨onRoomState_from_empty_registry sampleWorld sampleMap scenarioA rfl rfl (by decide), rfl⟩

/-- C25: `refreshRemotePlayerSprites` returns in every state, with or without a renderer.
It keeps the registry's key list, creates no entry, and keeps the character (position,
facing) and `skin_id` of every entry; only the `sprite` of an entry changes: with a
spriteset that has a tilemap it is a sprite created by this call, and null otherwise.
The map is not touched. -/
theorem refreshRemotePlayerSprites_keeps_logical_state (w : World) :
    Table.keys (refreshRemotePlayerSprites w).otherPlayers = Table.keys w.otherPlayers ∧
    (∀ k, Table.get w.otherPlayers k = none →
      Table.get (refreshRemotePlayerSprites w).otherPlayers k = none) ∧
    (∀ k e, Table.get w.otherPlayers k = some e →
      ∃ sp, Table.get (refreshRemotePlayerSprites w).otherPlayers k =
          some { character := e.character, sprite := sp, skin_id := e.skin_id } ∧
        (rendererReady w = true →
          ∃ n, sp = some n ∧ w.nextSpriteId ≤ n ∧
            n < (refreshRemotePlayerSprites w).nextSpriteId) ∧
        (rendererReady w = false → sp = none)) ∧
    (refreshRemotePlayerSprites w).gameMap = w.gameMap := by
  obtain ⟨h1, -, -, h4, h5⟩ := refreshLoop_spec (Table.keys w.otherPlayers) w
  refine ⟨h1, h4, fun k e hk => ?_, refreshLoop_gameMap _ w⟩
  obtain ⟨sp, hsp, hin, -⟩ := h5 k e hk
  have hmem : k ∈ Table.keys w.otherPlayers := by
    by_contra hn
    rw [(Table.get_eq_none_iff _ _).2 hn] at hk
    exact absurd hk (by simp)
  have hfresh := hin hmem
  refine ⟨sp, hsp, fun hr => ?_, fun hr => ?_⟩
  · simpa [FreshOrNull, hr] using hfresh
  · simpa [FreshOrNull, hr] using hfresh

/-- C22 as stated fails: before `joined` has set the local user id nothing is filtered.
A `user_joined`, a `user_moved` or a `room_state` that names user "9" creates an entry
for "9", and the `joined` event for "9" that follows leaves it in the registry. -/
theorem self_entry_survives_joined :
    (run blockedEngine bootedWorld
      [.socket (.userJoined (some (samplePlayer "9" 5 5))),
       .socket (.joined (some { user_id := .str "9" }))]).myUserId = .str "9" ∧
    Table.keys (run blockedEngine bootedWorld
      [.socket (.userJoined (some (samplePlayer "9" 5 5))),
       .socket (.joined (some { user_id := .str "9" }))]).otherPlayers = ["9"] ∧
    Table.keys (run blockedEngine bootedWorld
      [.socket (.userMoved (some (sampleMove "9" 8 5 4))),
       .socket (.joined (some { user_id := .str "9" }))]).otherPlayers = ["9"] ∧
    Table.keys (run blockedEngine bootedWorld
      [.socket (.roomState (some (snapshotOf ["9"]))),
       .socket (.joined (some { user_id := .str "9" }))]).otherPlayers = ["9"] :=
  ⟨rfl, rfl, rfl, rfl⟩

/-- C22, amended: when `joined` arrives in a state whose registry has no entry under the
id it carries, then after it and any sequence of further inbound socket events, in any
order (a later `joined` carrying the same id), the local user id is that id and the
registry has no entry keyed by it. -/
theorem registry_self_free_after_joined (eng : Engine) (w : World) (d : Joined)
    (es : List SocketEvent)
    (hid : d.user_id.truthy = true)
    (hfresh : Table.get w.otherPlayers d.user_id.toStr = none)
    (hk : ∀ e ∈ es, KeepsLocalId d.user_id.toStr e) :
    (run eng w (.socket (.joined (some d)) :: es.map Action.socket)).myUserId.toStr =
      d.user_id.toStr ∧
    Table.get (run eng w (.socket (.joined (some d)) :: es.map Action.socket)).otherPlayers
      d.user_id.toStr = none := by
  have h0 : SelfFree ({ w with myUserId := d.user_id } : World) := ⟨hid, hfresh⟩
  obtain ⟨⟨-, h1⟩, h2⟩ := run_socket_selfFree eng es { w with myUserId := d.user_id } h0 hk
  have hrun : run eng w (.socket (.joined (some d)) :: es.map Action.socket) =
      run eng { w with myUserId := d.user_id } (es.map Action.socket) := rfl
  rw [hrun]
  refine ⟨h2, ?_⟩
  rw [h2] at h1
  exact h1

/-- Witness of C22, amended: `joined` for "9" arrives first; then a `room_state` and a
`user_moved` that name "9", and a `user_left` for an unknown user, which raises. -/
theorem registry_self_free_after_joined_witness :
    (run blockedEngine bootedWorld (.socket (.joined (some { user_id := .str "9" })) ::
      [SocketEvent.roomState (some (snapshotOf ["9", "1"])),
       SocketEvent.userMoved (some (sampleMove "9" 8 5 4)),
       SocketEvent.userLeft (some (sampleLeft "5"))].map Action.socket)).myUserId.toStr =
      (JsVal.str "9").toStr ∧
    Table.get (run blockedEngine bootedWorld (.socket (.joined (some { user_id := .str "9" })) ::
      [SocketEvent.roomState (some (snapshotOf ["9", "1"])),
       SocketEvent.userMoved (some (sampleMove "9" 8 5 4)),
       SocketEvent.userLeft (some (sampleLeft "5"))].map Action.socket)).otherPlayers
      (JsVal.str "9").toStr = none :=
  registry_self_free_after_joined blockedEngine bootedWorld { user_id := .str "9" } _
    (by decide) rfl (by
      intro e he
      simp only [List.mem_cons, List.mem_singleton, List.not_mem_nil, or_false] at he
      rcases he with h | h | h <;> subst h <;> exact True.intro)

/-- C27: in every state reached from the initial state by any sequence of actions (the
room selection of `initDiscordSDK`, the `error` handler, `leaveSpace`, `connectToSpace`
and every other socket event, response, map load, frame or key press), `isWorldMap`
being true implies that the current room id is 'world'.  The converse does not hold:
`connectToSpace('world')` and a `guild_id` query parameter of 'world' give room id
'world' with `isWorldMap` false. -/
theorem isWorldMap_implies_world_room (eng : Engine) (actions : List Action) :
    ((run eng World.initial actions).isWorldMap = true →
      (run eng World.initial actions).currentGuildId = .str "world") ∧
    ((connectToSpace World.initial (.str "world")).currentGuildId = .str "world" ∧
      (connectToSpace World.initial (.str "world")).isWorldMap = false) ∧
    ((selectRoom World.initial (some "1") (some "world")).currentGuildId = .str "world" ∧
      (selectRoom World.initial (some "1") (some "world")).isWorldMap = false) := by
  refine ⟨?_, ⟨rfl, rfl⟩, ⟨rfl, rfl⟩⟩
  have h0 : RoomInv World.initial := fun h => absurd h (by decide)
  exact (run_invariants eng actions World.initial).2.1 h0

/-- Witness of C27: no `guild_id` parameter at boot, then a visit to room 7, a rejected
membership, another visit and a leave. -/
theorem isWorldMap_implies_world_room_witness :
    (run blockedEngine World.initial
      [.selectRoom (some "1") none, .connectToSpace (.num 7),
       .socket (.error (some { message := .str "Membership required" })),
       .connectToSpace (.str "8"), .leaveSpace]).isWorldMap = true ∧
    (run blockedEngine World.initial
      [.selectRoom (some "1") none, .connectToSpace (.num 7),
       .socket (.error (some { message := .str "Membership required" })),
       .connectToSpace (.str "8"), .leaveSpace]).currentGuildId = .str "world" :=
  ⟨rfl, (isWorldMap_implies_world_room blockedEngine
    [.selectRoom (some "1") none, .connectToSpace (.num 7),
     .socket (.error (some { message := .str "Membership required" })),
     .connectToSpace (.str "8"), .leaveSpace]).1 rfl⟩

/-- C28: `isEditMode` is false in every state reached from the initial state by any
sequence of socket events, boot steps, plugin commands, room transitions, responses, map
loads, frames and key presses; only `setupGuildMap`, which none of them runs, sets it.
So `Scene_Map.update` never reaches `updateEditorInput`: it returns with the state
unchanged, and no `edit_map` event is ever emitted. -/
theorem isEditMode_never_set (eng : Engine) (actions : List Action) (t : Touch) :
    (run eng World.initial actions).isEditMode = false ∧
    sceneMapUpdate (run eng World.initial actions) t = .ok (run eng World.initial actions) ∧
    noEditSent (run eng World.initial actions) = true ∧
    (∀ w : World, (setupGuildMap w).isEditMode = true) := by
  obtain ⟨h1, -, h3⟩ := run_invariants eng actions World.initial
  have hoff : (run eng World.initial actions).isEditMode = false := h1.trans rfl
  refine ⟨hoff, ?_, h3 rfl rfl, fun _ => rfl⟩
  simp [sceneMapUpdate, hoff]

end DiscordExplore
